import Mathlib

/-!
# Thermostat firmware: setpoint store, debouncer and control state machine

A shallow embedding of `Core/Src/eeprom.c`, `Core/Src/DS18B20.c` and
`Core/Src/app_tasks.c`.

Conventions of the embedding:

* C unsigned integers are `Nat`, reduced modulo `2 ^ w` at every store that can
  exceed the width; `int8_t` values are `Int`.
* Module-level C variables become fields of an explicit state record, and every
  function takes the state and returns the new one.
* What the hardware answers (status codes of the flash controller, levels read
  on input pins, the tick counter) is an explicit argument.
* `float` values are represented by the rational number they denote.  Every
  float the firmware handles is either a 16-bit integer divided by 16 or an
  `int8_t` converted to float (possibly minus one); all of them are exactly
  representable, no infinity or NaN arises, and IEEE comparison of finite
  values is comparison of the numbers denoted.
* Calls that the properties count (`Handle_Button_Press`,
  `EEPROM_SaveSetpoint`) and requests to the hardware (flash controller,
  one-wire pin, display) are recorded in lists kept with the state.
* A write past the end of a local array is undefined behaviour: the function
  that makes it has no resulting state and returns `none`.  This concerns
  `Task_Display`, whose two `sprintf` calls write to `char buffer[17]`.
-/

namespace Thermostat

/-! ## HAL status codes and the flash controller -/

/-- Status codes of the STM32 HAL (`HAL_StatusTypeDef`). -/
inductive HAL_StatusTypeDef where
  | HAL_OK
  | HAL_ERROR
  | HAL_BUSY
  | HAL_TIMEOUT
  deriving DecidableEq, Repr

open HAL_StatusTypeDef

/-- Address of the flash page used as storage (`eeprom.h`). -/
def EEPROM_START_ADDR : Nat := 0x0800FC00

/-- Size in bytes of the storage page (`eeprom.h`). -/
def EEPROM_PAGE_SIZE : Nat := 512

/-- One request made to the flash controller. -/
inductive FlashOp where
  | erase (pageAddress nbPages : Nat)
  | program (address data : Nat)
  deriving DecidableEq, Repr

/-- The storage page together with the record of every erase and program
request issued so far.  `page` lists the bytes found from `EEPROM_START_ADDR`
on. -/
structure Flash where
  page : List Nat
  ops : List FlashOp
  deriving DecidableEq, Repr

/-- Answers of the flash controller: `hal k` is the status returned by the
`k`-th erase or program request (counted from 0). -/
abbrev FlashHal := Nat → HAL_StatusTypeDef

/-- Modelled from the spec: `HAL_FLASHEx_Erase` of the vendor HAL, which is not
among the sources.  A successful page erase leaves every byte of the page at
`0xFF`; a failed one is taken to leave the page as it was.  The request is
recorded either way. -/
def HAL_FLASHEx_Erase (hal : FlashHal) (pageAddress nbPages : Nat) (f : Flash) :
    HAL_StatusTypeDef × Flash :=
  let status := hal f.ops.length
  let ops := f.ops ++ [FlashOp.erase pageAddress nbPages]
  if status = HAL_OK then
    (status, { page := List.replicate EEPROM_PAGE_SIZE 0xFF, ops := ops })
  else
    (status, { f with ops := ops })

/-- Modelled from the spec: `HAL_FLASH_Program` of the vendor HAL with
`FLASH_TYPEPROGRAM_HALFWORD`, which is not among the sources.  A successful
request stores the half-word, low byte first; a failed one is taken to leave
the page as it was.  The request is recorded either way. -/
def HAL_FLASH_Program (hal : FlashHal) (address data : Nat) (f : Flash) :
    HAL_StatusTypeDef × Flash :=
  let status := hal f.ops.length
  let ops := f.ops ++ [FlashOp.program address data]
  if status = HAL_OK then
    let off := address - EEPROM_START_ADDR
    (status, { page := (f.page.set off (data % 256)).set (off + 1) (data / 256 % 256),
               ops := ops })
  else
    (status, { f with ops := ops })

/-! ## `eeprom.c` -/

/-- The record type `EEPROMData_t` of `eeprom.h`.  With natural alignment the
record takes 8 bytes: `magic` at offsets 0-3, `setTemp` at offset 4, one byte
of padding at offset 5 (`pad`) and `crc` at offsets 6-7. -/
structure EEPROMData_t where
  magic : Nat
  setTemp : Int
  pad : Nat
  crc : Nat
  deriving DecidableEq, Repr

/-- The value of `sizeof(EEPROMData_t)`. -/
def sizeof_EEPROMData_t : Nat := 8

/-- The value of `sizeof(uint16_t)`. -/
def sizeof_uint16_t : Nat := 2

/-- The byte holding an `int8_t` value (two's complement). -/
def byte_of_int8 (x : Int) : Nat := (x % 256).toNat

/-- The `int8_t` value held by a byte (two's complement). -/
def int8_of_byte (b : Nat) : Int :=
  if b % 256 < 128 then ((b % 256 : Nat) : Int) else ((b % 256 : Nat) : Int) - 256

/-- The object representation of a record, as seen through
`(const uint8_t *)&eeprom_data` on the little-endian target. -/
def EEPROMData_t.bytes (d : EEPROMData_t) : List Nat :=
  [d.magic % 256, d.magic / 256 % 256, d.magic / 65536 % 256, d.magic / 16777216 % 256,
   byte_of_int8 d.setTemp, d.pad % 256, d.crc % 256, d.crc / 256 % 256]

/-- The record seen through `(EEPROMData_t *)EEPROM_START_ADDR`: the fields
read from the first 8 bytes of the page. -/
def flash_data (page : List Nat) : EEPROMData_t :=
  { magic := page.getD 0 0xFF + 256 * page.getD 1 0xFF + 65536 * page.getD 2 0xFF
             + 16777216 * page.getD 3 0xFF
    setTemp := int8_of_byte (page.getD 4 0xFF)
    pad := page.getD 5 0xFF
    crc := page.getD 6 0xFF + 256 * page.getD 7 0xFF }

/-- Body of the inner loop of `EEPROM_CRC16`: one shift of the 16-bit
register. -/
def EEPROM_CRC16_bit (crc : Nat) : Nat :=
  let crc := if crc &&& 0x8000 ≠ 0 then ((crc <<< 1) ^^^ 0x1021) % 2 ^ 16
             else (crc <<< 1) % 2 ^ 16
  crc &&& 0xFFFF

/-- Body of the outer loop of `EEPROM_CRC16`: one data byte is folded into the
register, followed by the eight shifts of the inner loop. -/
def EEPROM_CRC16_byte (crc : Nat) (b : Nat) : Nat :=
  let crc := (crc ^^^ ((b % 2 ^ 16) <<< 8)) % 2 ^ 16
  (List.range 8).foldl (fun c _ => EEPROM_CRC16_bit c) crc

/-- The function `EEPROM_CRC16(data, length)`: the register starts at `0xFFFF`
and the first `length` bytes of `data` are folded in, in order. -/
def EEPROM_CRC16 (data : List Nat) (length : Nat) : Nat :=
  (data.take length).foldl EEPROM_CRC16_byte 0xFFFF

/-- The state `eeprom.c` works on: its static record `eeprom_data` and the
flash page. -/
structure Eeprom where
  eeprom_data : EEPROMData_t
  flash : Flash
  deriving DecidableEq, Repr

/-- The static initialiser of `eeprom_data`. -/
def eeprom_data_init : EEPROMData_t :=
  { magic := 0xDEADBEEF, setTemp := 28, pad := 0, crc := 0 }

/-- The function `EEPROM_ErasePage`.  `Flash_Unlock` and `Flash_Lock` only
toggle the lock bit of the controller, which is not part of the state. -/
def EEPROM_ErasePage (hal : FlashHal) (f : Flash) : HAL_StatusTypeDef × Flash :=
  HAL_FLASHEx_Erase hal EEPROM_START_ADDR 1 f

/-- The loop of `EEPROM_WriteFlash`, over the successive values of `i`. -/
def EEPROM_WriteFlash_loop (hal : FlashHal) (address : Nat) (data : List Nat) (size : Nat) :
    List Nat → Flash → HAL_StatusTypeDef × Flash
  | [], f => (HAL_OK, f)
  | i :: rest, f =>
    let word := data.getD i 0
    let word := if i + 1 < size then (word ||| (data.getD (i + 1) 0 <<< 8)) % 2 ^ 16 else word
    let r := HAL_FLASH_Program hal (address + i) word f
    if r.1 ≠ HAL_OK then (HAL_ERROR, r.2)
    else EEPROM_WriteFlash_loop hal address data size rest r.2

/-- The function `EEPROM_WriteFlash(address, data, size)`: `i` takes the values
`0, 2, 4, ...` below `size`. -/
def EEPROM_WriteFlash (hal : FlashHal) (address : Nat) (data : List Nat) (size : Nat)
    (f : Flash) : HAL_StatusTypeDef × Flash :=
  EEPROM_WriteFlash_loop hal address data size
    ((List.range ((size + 1) / 2)).map (fun k => 2 * k)) f

/-- The default record that `EEPROM_Init` builds in RAM when the page holds no
valid record. -/
def EEPROM_Init_defaults (d : EEPROMData_t) : EEPROMData_t :=
  let d := { d with magic := 0xDEADBEEF }
  let d := { d with setTemp := 28 }
  { d with crc := EEPROM_CRC16 d.bytes (sizeof_EEPROMData_t - sizeof_uint16_t) }

/-- The function `EEPROM_Init`. -/
def EEPROM_Init (e : Eeprom) : HAL_StatusTypeDef × Eeprom :=
  let fd := flash_data e.flash.page
  if fd.magic ≠ 0xDEADBEEF then
    (HAL_ERROR, { e with eeprom_data := EEPROM_Init_defaults e.eeprom_data })
  else
    let calculated_crc := EEPROM_CRC16 e.flash.page (sizeof_EEPROMData_t - sizeof_uint16_t)
    if calculated_crc ≠ fd.crc then
      (HAL_ERROR, { e with eeprom_data := EEPROM_Init_defaults e.eeprom_data })
    else
      (HAL_OK, { e with eeprom_data :=
        { e.eeprom_data with magic := fd.magic, setTemp := fd.setTemp, crc := fd.crc } })

/-- The RAM record after the three assignments that open `EEPROM_SaveSetpoint`
and `EEPROM_Erase`. -/
def eeprom_data_update (d : EEPROMData_t) (setTemp : Int) : EEPROMData_t :=
  let d := { d with magic := 0xDEADBEEF }
  let d := { d with setTemp := setTemp }
  { d with crc := EEPROM_CRC16 d.bytes (sizeof_EEPROMData_t - sizeof_uint16_t) }

/-- The function `EEPROM_SaveSetpoint`. -/
def EEPROM_SaveSetpoint (hal : FlashHal) (setTemp : Int) (e : Eeprom) :
    HAL_StatusTypeDef × Eeprom :=
  if setTemp < 10 ∨ setTemp > 50 then (HAL_ERROR, e)
  else
    let d := eeprom_data_update e.eeprom_data setTemp
    let r := EEPROM_ErasePage hal e.flash
    if r.1 ≠ HAL_OK then (HAL_ERROR, { eeprom_data := d, flash := r.2 })
    else
      let w := EEPROM_WriteFlash hal EEPROM_START_ADDR d.bytes sizeof_EEPROMData_t r.2
      (w.1, { eeprom_data := d, flash := w.2 })

/-- The function `EEPROM_LoadSetpoint`.  The argument `pSetTemp` is `none` for
a null pointer and `some v` for a pointer to a cell holding `v`; the second
component of the result is the cell after the call. -/
def EEPROM_LoadSetpoint (e : Eeprom) (pSetTemp : Option Int) :
    HAL_StatusTypeDef × Option Int :=
  match pSetTemp with
  | none => (HAL_ERROR, none)
  | some v =>
    let fd := flash_data e.flash.page
    if fd.magic ≠ 0xDEADBEEF then (HAL_ERROR, some v)
    else
      let calculated_crc := EEPROM_CRC16 e.flash.page (sizeof_EEPROMData_t - sizeof_uint16_t)
      if calculated_crc ≠ fd.crc then (HAL_ERROR, some v)
      else if fd.setTemp < 10 ∨ fd.setTemp > 50 then (HAL_ERROR, some v)
      else (HAL_OK, some fd.setTemp)

/-- The function `EEPROM_Erase`. -/
def EEPROM_Erase (hal : FlashHal) (defaultSetTemp : Int) (e : Eeprom) :
    HAL_StatusTypeDef × Eeprom :=
  if defaultSetTemp < 10 ∨ defaultSetTemp > 50 then (HAL_ERROR, e)
  else
    let d := eeprom_data_update e.eeprom_data defaultSetTemp
    let r := EEPROM_ErasePage hal e.flash
    if r.1 ≠ HAL_OK then (HAL_ERROR, { eeprom_data := d, flash := r.2 })
    else
      let w := EEPROM_WriteFlash hal EEPROM_START_ADDR d.bytes sizeof_EEPROMData_t r.2
      (w.1, { eeprom_data := d, flash := w.2 })

/-- The page left by a successful page erase followed by the four half-word
programs of the record `d`: the 8 bytes of `d`, then erased bytes. -/
def page_of (d : EEPROMData_t) : List Nat := d.bytes ++ List.replicate 504 0xFF

/-! ## `DS18B20.c` -/

/-- Level of a GPIO pin (`GPIO_PinState`). -/
inductive GPIO_PinState where
  | GPIO_PIN_RESET
  | GPIO_PIN_SET
  deriving DecidableEq, Repr

open GPIO_PinState

/-- One action of the driver on the one-wire data pin, or a wait. -/
inductive WireOp where
  | Set_Pin_Output
  | Set_Pin_Input
  | WritePin (level : GPIO_PinState)
  | ReadPin (level : GPIO_PinState)
  | delay_us (us : Nat)
  | HAL_Delay (ms : Nat)
  deriving DecidableEq, Repr

/-- The one-wire line as the driver sees it: the actions performed so far and
the number of samples taken. -/
structure Wire where
  trace : List WireOp
  reads : Nat
  deriving DecidableEq, Repr

/-- Levels of the one-wire line: `line k` is the level found by the `k`-th
sample of the data pin (counted from 0). -/
abbrev WireLine := Nat → GPIO_PinState

/-- Append one action to the trace of the line. -/
def Wire.emit (w : Wire) (op : WireOp) : Wire := { w with trace := w.trace ++ [op] }

/-- The call `HAL_GPIO_ReadPin(DS18B20_PORT, DS18B20_PIN)`. -/
def Wire.sample (line : WireLine) (w : Wire) : GPIO_PinState × Wire :=
  (line w.reads, { trace := w.trace ++ [WireOp.ReadPin (line w.reads)], reads := w.reads + 1 })

/-- The function `DS18B20_Start`: reset pulse, then the presence sample. -/
def DS18B20_Start (line : WireLine) (w : Wire) : Nat × Wire :=
  let w := w.emit WireOp.Set_Pin_Output
  let w := w.emit (WireOp.WritePin GPIO_PIN_RESET)
  let w := w.emit (WireOp.delay_us 480)
  let w := w.emit WireOp.Set_Pin_Input
  let w := w.emit (WireOp.delay_us 80)
  let r := w.sample line
  let response := if r.1 = GPIO_PIN_RESET then 1 else 0
  let w := r.2.emit (WireOp.delay_us 400)
  (response, w)

/-- Body of the loop of `DS18B20_Write`: the slot of bit `i` of `data`. -/
def DS18B20_Write_bit (data : Nat) (w : Wire) (i : Nat) : Wire :=
  if data &&& (1 <<< i) ≠ 0 then
    let w := w.emit WireOp.Set_Pin_Output
    let w := w.emit (WireOp.WritePin GPIO_PIN_RESET)
    let w := w.emit (WireOp.delay_us 1)
    let w := w.emit WireOp.Set_Pin_Input
    w.emit (WireOp.delay_us 60)
  else
    let w := w.emit WireOp.Set_Pin_Output
    let w := w.emit (WireOp.WritePin GPIO_PIN_RESET)
    let w := w.emit (WireOp.delay_us 60)
    w.emit WireOp.Set_Pin_Input

/-- The function `DS18B20_Write`. -/
def DS18B20_Write (data : Nat) (w : Wire) : Wire :=
  let w := w.emit WireOp.Set_Pin_Output
  (List.range 8).foldl (DS18B20_Write_bit data) w

/-- Body of the loop of `DS18B20_Read`: the slot of bit `i`, on the pair of the
byte accumulated so far and the line. -/
def DS18B20_Read_bit (line : WireLine) (st : Nat × Wire) (i : Nat) : Nat × Wire :=
  let w := st.2.emit WireOp.Set_Pin_Output
  let w := w.emit (WireOp.WritePin GPIO_PIN_RESET)
  let w := w.emit (WireOp.delay_us 2)
  let w := w.emit WireOp.Set_Pin_Input
  let w := w.emit (WireOp.delay_us 10)
  let r := w.sample line
  let value := if r.1 = GPIO_PIN_SET then (st.1 ||| (1 <<< i)) % 2 ^ 8 else st.1
  (value, r.2.emit (WireOp.delay_us 50))

/-- The function `DS18B20_Read`. -/
def DS18B20_Read (line : WireLine) (w : Wire) : Nat × Wire :=
  let w := w.emit WireOp.Set_Pin_Input
  (List.range 8).foldl (DS18B20_Read_bit line) (0, w)

/-- The function `DS18B20_GetTemp`.  The result is the number denoted by the
returned float: the 16-bit unsigned `temp` divided by 16. -/
def DS18B20_GetTemp (line : WireLine) (w : Wire) : ℚ × Wire :=
  let w := (DS18B20_Start line w).2
  let w := DS18B20_Write 0xCC w
  let w := DS18B20_Write 0xBE w
  let temp_l := DS18B20_Read line w
  let temp_h := DS18B20_Read line temp_l.2
  let temp : Nat := ((temp_h.1 <<< 8) ||| temp_l.1) % 2 ^ 16
  ((temp : ℚ) / 16, temp_h.2)

/-! ## `app_tasks.c` -/

/-- The record type `ThermostatState_t` of `global_def.h`. -/
structure ThermostatState_t where
  currentTemp : ℚ
  setTemp : Int
  isFanOn : Nat
  mode : Nat
  button_up : Nat
  button_down : Nat
  button_set : Nat
  button_power : Nat
  deriving DecidableEq, Repr

/-- One request made to the character display.  The two `sprintf` texts are
recorded by their arguments: `"T:%.2f C S:%d"` and `"M:%s F:%s    "`. -/
inductive LcdOp where
  | lcdSetCursor (row col : Nat)
  | lcdWriteString_T_S (currentTemp : ℚ) (setTemp : Int)
  | lcdWriteString_M_F (mode_str fan_str : String)
  deriving DecidableEq, Repr

/-- Entries of the call record kept with the state: one entry for each call of
`Handle_Button_Press` and of `EEPROM_SaveSetpoint`, with the argument. -/
inductive Call where
  | Handle_Button_Press (button_id : Nat)
  | EEPROM_SaveSetpoint (setTemp : Int)
  deriving DecidableEq, Repr

/-- The constant `DEBOUNCE_COUNT`. -/
def DEBOUNCE_COUNT : Nat := 3

/-- Everything the tasks of `app_tasks.c` read or write: the global
`thermostat_state`, the static variables of the file, the state of `eeprom.c`,
the level driven on the fan pin, the one-wire line, and the records of display
requests and of calls. -/
structure Sys where
  thermostat_state : ThermostatState_t
  task_sensor_last_time : Nat
  task_input_last_time : Nat
  task_control_last_time : Nat
  task_display_last_time : Nat
  button_press_count : Fin 4 → Nat
  button_state : Fin 4 → Nat
  eeprom : Eeprom
  Fan_in_Pin : GPIO_PinState
  wire : Wire
  lcd : List LcdOp
  calls : List Call

/-- Subtraction of two `uint32_t` values. -/
def sub_u32 (a b : Nat) : Nat := (a % 2 ^ 32 + 2 ^ 32 - b % 2 ^ 32) % 2 ^ 32

/-- The value stored in an `int8_t` variable when `x` is assigned to it. -/
def to_int8 (x : Int) : Int := (x + 128) % 256 - 128

/-- The function `Handle_Button_Press`. -/
def Handle_Button_Press (hal : FlashHal) (button_id : Nat) (s : Sys) : Sys :=
  let s := { s with calls := s.calls ++ [Call.Handle_Button_Press button_id] }
  match button_id with
  | 0 =>
    if s.thermostat_state.mode = 2 ∧ s.thermostat_state.setTemp < 50 then
      let s := { s with thermostat_state :=
        { s.thermostat_state with setTemp := to_int8 (s.thermostat_state.setTemp + 1) } }
      { s with calls := s.calls ++ [Call.EEPROM_SaveSetpoint s.thermostat_state.setTemp],
               eeprom := (EEPROM_SaveSetpoint hal s.thermostat_state.setTemp s.eeprom).2 }
    else s
  | 1 =>
    if s.thermostat_state.mode = 2 ∧ s.thermostat_state.setTemp > 10 then
      let s := { s with thermostat_state :=
        { s.thermostat_state with setTemp := to_int8 (s.thermostat_state.setTemp - 1) } }
      { s with calls := s.calls ++ [Call.EEPROM_SaveSetpoint s.thermostat_state.setTemp],
               eeprom := (EEPROM_SaveSetpoint hal s.thermostat_state.setTemp s.eeprom).2 }
    else s
  | 2 =>
    if s.thermostat_state.mode = 1 then
      { s with thermostat_state := { s.thermostat_state with mode := 2 } }
    else if s.thermostat_state.mode = 2 then
      { s with thermostat_state := { s.thermostat_state with mode := 1 } }
    else s
  | 3 =>
    if s.thermostat_state.mode = 0 then
      { s with thermostat_state := { s.thermostat_state with mode := 1 } }
    else
      { s with thermostat_state := { s.thermostat_state with mode := 0 } }
  | _ => s

/-- Body of the loop of `Button_Debounce`, for button `i`, given the four pin
levels read before the loop. -/
def Button_Debounce_iter (hal : FlashHal) (button_reads : Fin 4 → GPIO_PinState)
    (s : Sys) (i : Fin 4) : Sys :=
  if button_reads i = GPIO_PIN_SET then
    let count := (s.button_press_count i + 1) % 2 ^ 8
    let s := { s with button_press_count := Function.update s.button_press_count i count }
    if s.button_press_count i ≥ DEBOUNCE_COUNT then
      if s.button_state i = 0 then
        let s := { s with button_state := Function.update s.button_state i 1 }
        Handle_Button_Press hal i.val s
      else s
    else s
  else
    let s := { s with button_press_count := Function.update s.button_press_count i 0 }
    { s with button_state := Function.update s.button_state i 0 }

/-- The function `Button_Debounce`; `button_reads` holds the levels of the
pins of UP, DOWN, SET and POWER, in this order. -/
def Button_Debounce (hal : FlashHal) (button_reads : Fin 4 → GPIO_PinState) (s : Sys) : Sys :=
  (List.finRange 4).foldl (Button_Debounce_iter hal button_reads) s

/-- The function `Task_Sensor`; `current_time` is the value of `HAL_GetTick()`. -/
def Task_Sensor (line : WireLine) (current_time : Nat) (s : Sys) : Sys :=
  if sub_u32 current_time s.task_sensor_last_time ≥ 500 then
    let s := { s with task_sensor_last_time := current_time }
    let w := (DS18B20_Start line s.wire).2
    let w := DS18B20_Write 0xCC w
    let w := DS18B20_Write 0x44 w
    let w := w.emit (WireOp.HAL_Delay 400)
    let temp := DS18B20_GetTemp line w
    { s with wire := temp.2,
             thermostat_state := { s.thermostat_state with currentTemp := temp.1 } }
  else s

/-- The function `Task_Input`; `current_time` is the value of `HAL_GetTick()`. -/
def Task_Input (hal : FlashHal) (button_reads : Fin 4 → GPIO_PinState) (current_time : Nat)
    (s : Sys) : Sys :=
  if sub_u32 current_time s.task_input_last_time ≥ 50 then
    let s := { s with task_input_last_time := current_time }
    Button_Debounce hal button_reads s
  else s

/-- The function `Task_Control`; `current_time` is the value of
`HAL_GetTick()`. -/
def Task_Control (current_time : Nat) (s : Sys) : Sys :=
  if sub_u32 current_time s.task_control_last_time ≥ 100 then
    let s := { s with task_control_last_time := current_time }
    if s.thermostat_state.mode = 1 then
      let current : ℚ := s.thermostat_state.currentTemp
      let setpoint : ℚ := (s.thermostat_state.setTemp : ℚ)
      if current ≥ setpoint ∧ s.thermostat_state.isFanOn = 0 then
        { s with thermostat_state := { s.thermostat_state with isFanOn := 1 },
                 Fan_in_Pin := GPIO_PIN_SET }
      else if current ≤ setpoint - 1 ∧ s.thermostat_state.isFanOn ≠ 0 then
        { s with thermostat_state := { s.thermostat_state with isFanOn := 0 },
                 Fan_in_Pin := GPIO_PIN_RESET }
      else s
    else if s.thermostat_state.mode = 0 then
      { s with thermostat_state := { s.thermostat_state with isFanOn := 0 },
               Fan_in_Pin := GPIO_PIN_RESET }
    else s
  else s

/-- The size in bytes of the local array `char buffer[17]` of `Task_Display`. -/
def sizeof_buffer : Nat := 17

/-- Number of digits of the decimal numeral of `n`, by repeated division by 10;
`fuel` bounds the number of divisions. -/
def decimal_length_fuel : Nat → Nat → Nat
  | 0, _ => 1
  | fuel + 1, n => if n < 10 then 1 else decimal_length_fuel fuel (n / 10) + 1

/-- Number of digits of the decimal numeral of `n`. -/
def decimal_length (n : Nat) : Nat := decimal_length_fuel n n

/-- Number of characters that the conversion `%d` prints for `n`: a minus sign
for a negative value, then the digits. -/
def sprintf_d_length (n : Int) : Nat :=
  (if n < 0 then 1 else 0) + decimal_length n.natAbs

/-- Number of characters that the conversion `%.2f` prints for `x`: a minus
sign for a negative value, the digits of the integer part of `|x|` rounded to
two decimals (to nearest, ties to even), the point and the two decimals. -/
def sprintf_2f_length (x : ℚ) : Nat :=
  let a := x.num.natAbs * 100
  let q := a / x.den
  let r := a % x.den
  let hundredths :=
    if 2 * r < x.den then q
    else if 2 * r > x.den then q + 1
    else if q % 2 = 0 then q else q + 1
  (if x < 0 then 1 else 0) + decimal_length (hundredths / 100) + 3

/-- Number of bytes that `sprintf(buffer, "T:%.2f C S:%d", currentTemp, setTemp)`
writes to `buffer`, the terminating null byte included. -/
def sprintf_T_S_bytes (currentTemp : ℚ) (setTemp : Int) : Nat :=
  2 + sprintf_2f_length currentTemp + 5 + sprintf_d_length setTemp + 1

/-- Number of bytes that `sprintf(buffer, "M:%s F:%s    ", mode_str, fan_str)`
writes to `buffer`, the terminating null byte included. -/
def sprintf_M_F_bytes (mode_str fan_str : String) : Nat :=
  2 + mode_str.length + 3 + fan_str.length + 4 + 1

/-- The function `Task_Display`; `current_time` is the value of
`HAL_GetTick()`.  A `sprintf` that writes more bytes than `buffer` holds is
undefined behaviour: the call then has no resulting state, which is `none`. -/
def Task_Display (current_time : Nat) (s : Sys) : Option Sys :=
  if sub_u32 current_time s.task_display_last_time ≥ 200 then
    let s := { s with task_display_last_time := current_time }
    if sprintf_T_S_bytes s.thermostat_state.currentTemp s.thermostat_state.setTemp
        > sizeof_buffer then none
    else
      let mode_str :=
        if s.thermostat_state.mode = 0 then "OFF"
        else if s.thermostat_state.mode = 1 then "NORMAL"
        else "SETTING"
      let fan_str := if s.thermostat_state.isFanOn ≠ 0 then "ON " else "OFF"
      if sprintf_M_F_bytes mode_str fan_str > sizeof_buffer then none
      else
        some { s with lcd := s.lcd ++
          [LcdOp.lcdSetCursor 0 0,
           LcdOp.lcdWriteString_T_S s.thermostat_state.currentTemp s.thermostat_state.setTemp,
           LcdOp.lcdSetCursor 1 0,
           LcdOp.lcdWriteString_M_F mode_str fan_str] }
  else some s

/-- The function `Task_Scheduler_Init`; `current_time` is the value of
`HAL_GetTick()`. -/
def Task_Scheduler_Init (current_time : Nat) (s : Sys) : Sys :=
  { s with task_sensor_last_time := current_time,
           task_input_last_time := current_time,
           task_control_last_time := current_time,
           task_display_last_time := current_time }

/-- The function `Task_Scheduler_Run`.  Each task reads the tick counter
itself, so the four readings are separate arguments, in calling order.  The
result is `none` when `Task_Display` has no resulting state. -/
def Task_Scheduler_Run (hal : FlashHal) (line : WireLine)
    (button_reads : Fin 4 → GPIO_PinState) (t_input t_control t_sensor t_display : Nat)
    (s : Sys) : Option Sys :=
  let s := Task_Input hal button_reads t_input s
  let s := Task_Control t_control s
  let s := Task_Sensor line t_sensor s
  Task_Display t_display s

/-! ## Runs of the state machine -/

/-- What can happen to the state: a press event handed to
`Handle_Button_Press`, or the execution of one of the four tasks. -/
inductive Event where
  | button_press (button_id : Nat)
  | task_control (current_time : Nat)
  | task_sensor (current_time : Nat)
  | task_input (button_reads : Fin 4 → GPIO_PinState) (current_time : Nat)
  | task_display (current_time : Nat)

/-- The state after one event; `none` when the event has no resulting state
(an execution of `Task_Display` that overruns its buffer). -/
def step (hal : FlashHal) (line : WireLine) (s : Sys) : Event → Option Sys
  | Event.button_press button_id => some (Handle_Button_Press hal button_id s)
  | Event.task_control t => some (Task_Control t s)
  | Event.task_sensor t => some (Task_Sensor line t s)
  | Event.task_input button_reads t => some (Task_Input hal button_reads t s)
  | Event.task_display t => Task_Display t s

/-- The state after a sequence of events; `none` when one of them has no
resulting state. -/
def run (hal : FlashHal) (line : WireLine) (s : Sys) : List Event → Option Sys
  | [] => some s
  | ev :: evs =>
    match step hal line s ev with
    | some s1 => run hal line s1 evs
    | none => none

/-- Whether the event `ev`, met in state `s`, is an execution of `Task_Control`
whose period has elapsed. -/
def fires_Task_Control (s : Sys) : Event → Bool
  | Event.task_control t => decide (sub_u32 t s.task_control_last_time ≥ 100)
  | _ => false

/-- Whether `Task_Control` fires at some event of the run `evs` from `s`. -/
def control_fired (hal : FlashHal) (line : WireLine) (s : Sys) : List Event → Bool
  | [] => false
  | ev :: evs =>
    fires_Task_Control s ev ||
      match step hal line s ev with
      | some s1 => control_fired hal line s1 evs
      | none => false

/-- Whether the event can carry a POWER press: a POWER press handed to
`Handle_Button_Press`, or an execution of `Task_Input` that samples the POWER
pin pressed. -/
def carries_POWER_press : Event → Bool
  | Event.button_press button_id => decide (button_id = 3)
  | Event.task_input button_reads _ => decide (button_reads 3 = GPIO_PIN_SET)
  | _ => false

/-- Successive calls of `Button_Debounce`, one for each sample of the four
pins. -/
def debounce_run (hal : FlashHal) (s : Sys) (samples : List (Fin 4 → GPIO_PinState)) : Sys :=
  samples.foldl (fun s r => Button_Debounce hal r s) s

/-- Number of calls of `Handle_Button_Press` for button `i` recorded so far. -/
def press_events (i : Nat) (s : Sys) : Nat :=
  s.calls.count (Call.Handle_Button_Press i)

/-- A state of the application with everything at rest: mode OFF, fan off,
setpoint 28, counters cleared, and an erased storage page. -/
def Sys.boot : Sys :=
  { thermostat_state :=
      { currentTemp := 0, setTemp := 28, isFanOn := 0, mode := 0,
        button_up := 0, button_down := 0, button_set := 0, button_power := 0 }
    task_sensor_last_time := 0
    task_input_last_time := 0
    task_control_last_time := 0
    task_display_last_time := 0
    button_press_count := fun _ => 0
    button_state := fun _ => 0
    eeprom := { eeprom_data := eeprom_data_init,
                flash := { page := List.replicate EEPROM_PAGE_SIZE 0xFF, ops := [] } }
    Fan_in_Pin := GPIO_PIN_RESET
    wire := { trace := [], reads := 0 }
    lcd := []
    calls := [] }

/-- A page holding a record with the magic number, setpoint byte 100, padding 0
and the CRC16 of these six bytes, `0xCB36`. -/
def page_setpoint_100 : List Nat :=
  [0xEF, 0xBE, 0xAD, 0xDE, 100, 0, 0x36, 0xCB] ++ List.replicate 504 0xFF

/-- The invariant of the data model on the fan: the fan flag is clear whenever
the mode is OFF. -/
def fan_off_when_OFF (s : Sys) : Prop :=
  s.thermostat_state.mode = 0 → s.thermostat_state.isFanOn = 0

/-- The invariant of the data model on the setpoint: it lies in `[10, 50]`. -/
def setTemp_in_range (s : Sys) : Prop :=
  10 ≤ s.thermostat_state.setTemp ∧ s.thermostat_state.setTemp ≤ 50

/-- The sensor task stores the reading `t`, then `Task_Control` runs at tick
`current_time`. -/
def control_at (t : ℚ) (current_time : Nat) (s : Sys) : Sys :=
  Task_Control current_time
    { s with thermostat_state := { s.thermostat_state with currentTemp := t } }

/-- The state `Sys.boot` with a reading of 30 degrees already stored. -/
def Sys.boot_warm : Sys :=
  { Sys.boot with thermostat_state := { Sys.boot.thermostat_state with currentTemp := 30 } }

/-- The state `Sys.boot` switched to mode NORMAL with setpoint 25. -/
def Sys.boot_normal : Sys :=
  { Sys.boot with
    thermostat_state := { Sys.boot.thermostat_state with mode := 1, setTemp := 25 } }

/-- Pin levels with button `i` pressed and the three others released. -/
def pressed_only (i : Fin 4) : Fin 4 → GPIO_PinState :=
  fun j => if j = i then GPIO_PIN_SET else GPIO_PIN_RESET

/-- Pin levels with the four buttons released. -/
def released_all : Fin 4 → GPIO_PinState := fun _ => GPIO_PIN_RESET

/-- The state `Sys.boot` switched to mode SETTING with the given setpoint. -/
def Sys.boot_setting (setTemp : Int) : Sys :=
  { Sys.boot with
    thermostat_state := { Sys.boot.thermostat_state with mode := 2, setTemp := setTemp } }

/-- The arguments of the calls of `EEPROM_SaveSetpoint` recorded so far, in
order. -/
def save_calls (s : Sys) : List Int :=
  s.calls.filterMap (fun c => match c with
    | Call.EEPROM_SaveSetpoint x => some x
    | Call.Handle_Button_Press _ => none)

/-- The requests that a complete `EEPROM_SaveSetpoint` or `EEPROM_Erase` sends
to the flash controller for the record `d`, in order: the page erase, then the
four half-word programs of the 8 bytes of `d`. -/
def record_requests (d : EEPROMData_t) : List FlashOp :=
  [FlashOp.erase EEPROM_START_ADDR 1,
   FlashOp.program EEPROM_START_ADDR (d.bytes.getD 0 0 + 256 * d.bytes.getD 1 0),
   FlashOp.program (EEPROM_START_ADDR + 2) (d.bytes.getD 2 0 + 256 * d.bytes.getD 3 0),
   FlashOp.program (EEPROM_START_ADDR + 4) (d.bytes.getD 4 0 + 256 * d.bytes.getD 5 0),
   FlashOp.program (EEPROM_START_ADDR + 6) (d.bytes.getD 6 0 + 256 * d.bytes.getD 7 0)]

/-- The byte whose bit `i`, for `i < 8`, is set exactly when `levels i` is
high. -/
def byte_of_levels (levels : Nat → GPIO_PinState) : Nat :=
  (List.range 8).foldl (fun v i => if levels i = GPIO_PIN_SET then v + 2 ^ i else v) 0

/-- The number denoted by the two bytes `l` (low) and `h` (high) read as a
signed 16-bit two's-complement value. -/
def int16_of_bytes (l h : Nat) : Int :=
  if h * 256 + l < 32768 then ((h * 256 + l : Nat) : Int) else ((h * 256 + l : Nat) : Int) - 65536

/-- The levels found on the line when a sensor answers the reset pulse with a
presence pulse (first sample low) and then sends the bytes `l` and `h`, least
significant bit first; the line is high afterwards. -/
def sensor_line (l h : Nat) : WireLine := fun k =>
  if k = 0 then GPIO_PIN_RESET
  else if k ≤ 8 then (if l.testBit (k - 1) then GPIO_PIN_SET else GPIO_PIN_RESET)
  else if k ≤ 16 then (if h.testBit (k - 9) then GPIO_PIN_SET else GPIO_PIN_RESET)
  else GPIO_PIN_SET

/-- One step of the long division by the polynomial `g` of degree `d` over
GF(2), polynomials being written as the numbers whose bit `i` is the
coefficient of `x^i`: the running remainder `r` is multiplied by `x`, the next
coefficient `bit` of the dividend is brought down, and `g` is subtracted when
the result has reached degree `d`. -/
def gf2_div_step (g d r bit : Nat) : Nat :=
  let x := (r <<< 1) ^^^ bit
  if x.testBit d then x ^^^ g else x

/-- Remainder of the division by `g` (of degree `d`) over GF(2) of the
polynomial given by the `n` low bits of `a`, by long division from the
coefficient of `x^(n-1)` down to the constant coefficient. -/
def gf2_mod (g d : Nat) : Nat → Nat → Nat
  | 0, _ => 0
  | n + 1, a => gf2_div_step g d (gf2_mod g d n (a / 2)) (a % 2)

/-- The message made of the bytes `data`, first byte first and most
significant bit first, as a number. -/
def message_bits (data : List Nat) : Nat :=
  data.foldl (fun m b => 256 * m + b) 0

/-- The reference CRC-16/CCITT of the spec: generator polynomial
`x^16 + x^12 + x^5 + 1` (`0x1021` with the leading term, `0x11021`), initial
value `0xFFFF`, most significant bit first, no reflection, no final XOR.  With
`M` the message of `8 * n` bits, it is the remainder of the division of
`M * x^16 + 0xFFFF * x^(8 * n)` by the generator over GF(2). -/
def crc16_ccitt_reference (data : List Nat) : Nat :=
  gf2_mod 0x11021 16 (8 * data.length + 16)
    ((message_bits data <<< 16) ^^^ (0xFFFF <<< (8 * data.length)))

/-- Product over GF(2) of the polynomial given by the `n` low bits of `q` and
the polynomial `g` (carry-less multiplication). -/
def gf2_mul (g : Nat) : Nat → Nat → Nat
  | 0, _ => 0
  | n + 1, q => ((gf2_mul g n (q / 2)) <<< 1) ^^^ (if q % 2 = 1 then g else 0)

/-- Quotient of the long division of which `gf2_mod` is the remainder. -/
def gf2_quot (g d : Nat) : Nat → Nat → Nat
  | 0, _ => 0
  | n + 1, a =>
    let x := ((gf2_mod g d n (a / 2)) <<< 1) ^^^ (a % 2)
    2 * gf2_quot g d n (a / 2) + (if x.testBit d then 1 else 0)

/-- The actions of a write-1 slot of `DS18B20_Write`: the line is pulled low
for 1 us, then released for the rest of the slot. -/
def write_1_slot : List WireOp :=
  [WireOp.Set_Pin_Output, WireOp.WritePin GPIO_PIN_RESET, WireOp.delay_us 1,
   WireOp.Set_Pin_Input, WireOp.delay_us 60]

/-- The actions of a write-0 slot of `DS18B20_Write`: the line is held low for
the whole slot, then released. -/
def write_0_slot : List WireOp :=
  [WireOp.Set_Pin_Output, WireOp.WritePin GPIO_PIN_RESET, WireOp.delay_us 60,
   WireOp.Set_Pin_Input]

/-- The slot that writes the bit `bit`. -/
def write_slot (bit : Bool) : List WireOp := if bit then write_1_slot else write_0_slot

/-- The eight slots that write the byte `d`, in transmission order: slot `i`
writes bit `i` of `d`. -/
def write_slots (d : Nat) : List (List WireOp) :=
  (List.range 8).map (fun i => write_slot (d.testBit i))

/-- The level that a written slot stands for: high for a write-1 slot, low
otherwise. -/
def level_of_slot (slot : List WireOp) : GPIO_PinState :=
  if slot = write_1_slot then GPIO_PIN_SET else GPIO_PIN_RESET

/-- The line on which the levels of the slots `slots` are found by the samples
`k0`, `k0 + 1`, ... (and a low level after them). -/
def line_of_slots (slots : List (List WireOp)) (k0 : Nat) : WireLine :=
  fun k => level_of_slot (slots.getD (k - k0) write_0_slot)

/-- Number of reset pulses (480 us low) sent on the line so far. -/
def reset_pulses (w : Wire) : Nat := w.trace.count (WireOp.delay_us 480)

/-! ## Properties of `EEPROM_CRC16` -/

set_option maxRecDepth 100000

theorem and_0x8000_ne_zero_iff (c : Nat) (hc : c < 65536) : c &&& 0x8000 ≠ 0 ↔ 32768 ≤ c := by
  have h : c &&& 0x8000 = (c.testBit 15).toNat * 2 ^ 15 := by
    have := Nat.and_two_pow c 15
    simpa using this
  rw [h]
  by_cases hb : c.testBit 15
  · simp [hb]
    by_contra hlt
    have : c.testBit 15 = false := Nat.testBit_lt_two_pow (by omega)
    simp [this] at hb
  · simp [hb]
    by_contra hge
    have : c.testBit 15 = true := by
      rw [Nat.testBit_to_div_mod]
      simp; omega
    exact hb this

theorem EEPROM_CRC16_bit_eq (c : Nat) (hc : c < 65536) :
    EEPROM_CRC16_bit c = if 32768 ≤ c then (2 * c - 65536) ^^^ 0x1021 else 2 * c := by
  unfold EEPROM_CRC16_bit
  have hm : (0xFFFF : Nat) = 2 ^ 16 - 1 := by norm_num
  simp only [hm, Nat.and_pow_two_sub_one_eq_mod, Nat.mod_mod, Nat.shiftLeft_eq, pow_one]
  by_cases h : 32768 ≤ c
  · rw [if_pos ((and_0x8000_ne_zero_iff c hc).2 h), if_pos h]
    apply Nat.eq_of_testBit_eq
    intro i
    simp only [Nat.testBit_mod_two_pow, Nat.testBit_xor]
    by_cases hi : i < 16
    · simp [hi]
      have : (c * 2) % 2 ^ 16 = 2 * c - 65536 := by omega
      rw [← this, Nat.testBit_mod_two_pow]; simp [hi]
    · simp [hi]
      have h1 : (2 * c - 65536).testBit i = false :=
        Nat.testBit_lt_two_pow (lt_of_lt_of_le (by omega : 2 * c - 65536 < 2 ^ 16)
          (Nat.pow_le_pow_right (by norm_num) (by omega)))
      have h2 : (4129 : Nat).testBit i = false :=
        Nat.testBit_lt_two_pow (lt_of_lt_of_le (by norm_num : 4129 < 2 ^ 16)
          (Nat.pow_le_pow_right (by norm_num) (by omega)))
      simp [h1, h2]
  · rw [if_neg (fun hh => h ((and_0x8000_ne_zero_iff c hc).1 hh)), if_neg h]
    omega


theorem xor_0x1021_odd (m : Nat) : ((2 * m) ^^^ 0x1021) % 2 = 1 := by
  have h : ((2 * m) ^^^ 0x1021).testBit 0 = true := by
    rw [Nat.testBit_xor]
    have h1 : (2 * m).testBit 0 = false := by
      rw [Nat.testBit_zero]; simp
    have h2 : (0x1021 : Nat).testBit 0 = true := by decide
    rw [h1, h2]; rfl
  rw [Nat.testBit_zero] at h
  exact of_decide_eq_true h

theorem EEPROM_CRC16_bit_lt (c : Nat) : EEPROM_CRC16_bit c < 65536 := by
  unfold EEPROM_CRC16_bit
  have hm : (0xFFFF : Nat) = 2 ^ 16 - 1 := by norm_num
  simp only [hm, Nat.and_pow_two_sub_one_eq_mod]
  exact Nat.mod_lt _ (by norm_num)

theorem EEPROM_CRC16_bit_inj (c d : Nat) (hc : c < 65536) (hd : d < 65536)
    (h : EEPROM_CRC16_bit c = EEPROM_CRC16_bit d) : c = d := by
  rw [EEPROM_CRC16_bit_eq c hc, EEPROM_CRC16_bit_eq d hd] at h
  by_cases h1 : 32768 ≤ c <;> by_cases h2 : 32768 ≤ d
  · rw [if_pos h1, if_pos h2] at h
    have := Nat.xor_left_inj.1 h
    omega
  · rw [if_pos h1, if_neg h2] at h
    have := xor_0x1021_odd (c - 32768)
    have e : 2 * (c - 32768) = 2 * c - 65536 := by omega
    rw [e, h] at this
    omega
  · rw [if_neg h1, if_pos h2] at h
    have := xor_0x1021_odd (d - 32768)
    have e : 2 * (d - 32768) = 2 * d - 65536 := by omega
    rw [e, ← h] at this
    omega
  · rw [if_neg h1, if_neg h2] at h
    omega

theorem EEPROM_CRC16_bits_lt (l : List Nat) (c : Nat) (hc : c < 65536) :
    l.foldl (fun c _ => EEPROM_CRC16_bit c) c < 65536 := by
  induction l generalizing c with
  | nil => simpa using hc
  | cons _ t ih => exact ih _ (EEPROM_CRC16_bit_lt c)

theorem EEPROM_CRC16_bits_inj (l : List Nat) (c d : Nat) (hc : c < 65536) (hd : d < 65536)
    (h : l.foldl (fun c _ => EEPROM_CRC16_bit c) c = l.foldl (fun c _ => EEPROM_CRC16_bit c) d) :
    c = d := by
  induction l generalizing c d with
  | nil => simpa using h
  | cons _ t ih =>
    exact EEPROM_CRC16_bit_inj c d hc hd
      (ih _ _ (EEPROM_CRC16_bit_lt c) (EEPROM_CRC16_bit_lt d) h)

theorem EEPROM_CRC16_byte_lt (c b : Nat) : EEPROM_CRC16_byte c b < 65536 := by
  unfold EEPROM_CRC16_byte
  exact EEPROM_CRC16_bits_lt _ _ (Nat.mod_lt _ (by norm_num))

theorem EEPROM_CRC16_byte_inj_state (c d b : Nat) (hc : c < 65536) (hd : d < 65536)
    (hb : b < 256) (h : EEPROM_CRC16_byte c b = EEPROM_CRC16_byte d b) : c = d := by
  unfold EEPROM_CRC16_byte at h
  have h' := EEPROM_CRC16_bits_inj _ _ _ (Nat.mod_lt _ (by norm_num)) (Nat.mod_lt _ (by norm_num)) h
  have hs : (b % 2 ^ 16) <<< 8 < 2 ^ 16 := by
    rw [Nat.shiftLeft_eq]; omega
  rw [Nat.mod_eq_of_lt (Nat.xor_lt_two_pow (by simpa using hc) hs),
      Nat.mod_eq_of_lt (Nat.xor_lt_two_pow (by simpa using hd) hs)] at h'
  exact Nat.xor_left_inj.1 h'

theorem EEPROM_CRC16_byte_inj_data (c b b' : Nat) (hc : c < 65536)
    (hb : b < 256) (hb' : b' < 256) (h : EEPROM_CRC16_byte c b = EEPROM_CRC16_byte c b') :
    b = b' := by
  unfold EEPROM_CRC16_byte at h
  have h' := EEPROM_CRC16_bits_inj _ _ _ (Nat.mod_lt _ (by norm_num)) (Nat.mod_lt _ (by norm_num)) h
  have hs : (b % 2 ^ 16) <<< 8 < 2 ^ 16 := by
    rw [Nat.shiftLeft_eq]; omega
  have hs' : (b' % 2 ^ 16) <<< 8 < 2 ^ 16 := by
    rw [Nat.shiftLeft_eq]; omega
  rw [Nat.mod_eq_of_lt (Nat.xor_lt_two_pow (by simpa using hc) hs),
      Nat.mod_eq_of_lt (Nat.xor_lt_two_pow (by simpa using hc) hs')] at h'
  have := Nat.xor_right_inj.1 h'
  rw [Nat.shiftLeft_eq, Nat.shiftLeft_eq] at this
  omega

theorem EEPROM_CRC16_fold_lt (l : List Nat) (c : Nat) (hc : c < 65536) :
    l.foldl EEPROM_CRC16_byte c < 65536 := by
  induction l generalizing c with
  | nil => simpa using hc
  | cons b t ih => exact ih _ (EEPROM_CRC16_byte_lt c b)

theorem EEPROM_CRC16_lt (data : List Nat) (length : Nat) : EEPROM_CRC16 data length < 65536 :=
  EEPROM_CRC16_fold_lt _ _ (by norm_num)


/-! ## Writing a record -/

theorem halfword_eq (a b : Nat) (ha : a < 256) (hb : b < 256) :
    (a ||| (b <<< 8)) % 65536 = a + 256 * b := by
  have h := Nat.mul_add_lt_is_or (i := 8) (b := a) (by simpa using ha) b
  rw [Nat.shiftLeft_eq, Nat.or_comm, Nat.mul_comm b, ← h]
  omega

theorem EEPROMData_t.bytes_lt (d : EEPROMData_t) : ∀ b ∈ d.bytes, b < 256 := by
  intro b hb
  simp only [EEPROMData_t.bytes, byte_of_int8, List.mem_cons, List.mem_singleton, List.mem_nil_iff, or_false] at hb
  rcases hb with h | h | h | h | h | h | h | h <;> subst h <;> omega

theorem replicate_512_eq :
    List.replicate 512 (0xFF : Nat) = 0xFF :: 0xFF :: 0xFF :: 0xFF :: 0xFF :: 0xFF :: 0xFF :: 0xFF :: List.replicate 504 0xFF := by
  rfl

theorem EEPROM_WriteFlash_ok (hal : FlashHal) (b0 b1 b2 b3 b4 b5 b6 b7 : Nat) (f : Flash)
    (hb : ∀ b ∈ [b0, b1, b2, b3, b4, b5, b6, b7], b < 256)
    (hok : ∀ k, f.ops.length ≤ k → hal k = HAL_OK) :
    EEPROM_WriteFlash hal EEPROM_START_ADDR [b0, b1, b2, b3, b4, b5, b6, b7] sizeof_EEPROMData_t f
      = (HAL_OK, { page := (((((((f.page.set 0 b0).set 1 b1).set 2 b2).set 3 b3).set 4 b4).set 5 b5).set 6 b6).set 7 b7,
                   ops := f.ops ++ [FlashOp.program EEPROM_START_ADDR (b0 + 256 * b1),
                      FlashOp.program (EEPROM_START_ADDR + 2) (b2 + 256 * b3),
                      FlashOp.program (EEPROM_START_ADDR + 4) (b4 + 256 * b5),
                      FlashOp.program (EEPROM_START_ADDR + 6) (b6 + 256 * b7)] }) := by
  have h0 := hok f.ops.length (le_refl _)
  have h1 := hok (f.ops.length + 1) (by omega)
  have h2 := hok (f.ops.length + 2) (by omega)
  have h3 := hok (f.ops.length + 3) (by omega)
  simp only [List.mem_cons, List.mem_singleton, List.mem_nil_iff, or_false, forall_eq_or_imp, forall_eq] at hb
  obtain ⟨l0, l1, l2, l3, l4, l5, l6, l7⟩ := hb
  have e01 := halfword_eq b0 b1 l0 l1
  have e23 := halfword_eq b2 b3 l2 l3
  have e45 := halfword_eq b4 b5 l4 l5
  have e67 := halfword_eq b6 b7 l6 l7
  have m01 : (b0 + 256 * b1) % 256 = b0 ∧ (b0 + 256 * b1) / 256 % 256 = b1 := by omega
  have m23 : (b2 + 256 * b3) % 256 = b2 ∧ (b2 + 256 * b3) / 256 % 256 = b3 := by omega
  have m45 : (b4 + 256 * b5) % 256 = b4 ∧ (b4 + 256 * b5) / 256 % 256 = b5 := by omega
  have m67 : (b6 + 256 * b7) % 256 = b6 ∧ (b6 + 256 * b7) / 256 % 256 = b7 := by omega
  simp [EEPROM_WriteFlash, EEPROM_WriteFlash_loop, HAL_FLASH_Program, h0, h1, h2, h3,
    sizeof_EEPROMData_t, List.range_succ, e01, e23, e45, e67, m01, m23, m45, m67]


theorem EEPROM_write_record_ok (hal : FlashHal) (d : EEPROMData_t) (f : Flash)
    (hok : ∀ k, f.ops.length ≤ k → hal k = HAL_OK) :
    (EEPROM_ErasePage hal f).1 = HAL_OK ∧
    (EEPROM_WriteFlash hal EEPROM_START_ADDR d.bytes sizeof_EEPROMData_t
      (EEPROM_ErasePage hal f).2).1 = HAL_OK ∧
    (EEPROM_WriteFlash hal EEPROM_START_ADDR d.bytes sizeof_EEPROMData_t
      (EEPROM_ErasePage hal f).2).2.page = page_of d := by
  have h0 := hok f.ops.length (le_refl _)
  have he : EEPROM_ErasePage hal f
      = (HAL_OK, Flash.mk (List.replicate 512 0xFF) (f.ops ++ [FlashOp.erase EEPROM_START_ADDR 1])) := by
    simp only [EEPROM_ErasePage, HAL_FLASHEx_Erase, h0, EEPROM_PAGE_SIZE, if_true]
  rw [he]
  refine ⟨rfl, ?_⟩
  have hw := EEPROM_WriteFlash_ok hal (d.magic % 256) (d.magic / 256 % 256) (d.magic / 65536 % 256)
    (d.magic / 16777216 % 256) (byte_of_int8 d.setTemp) (d.pad % 256) (d.crc % 256) (d.crc / 256 % 256)
    (Flash.mk (List.replicate 512 0xFF) (f.ops ++ [FlashOp.erase EEPROM_START_ADDR 1]))
    (EEPROMData_t.bytes_lt d)
    (fun k hk => hok k (by simp at hk; omega))
  have hb : d.bytes = [d.magic % 256, d.magic / 256 % 256, d.magic / 65536 % 256,
    d.magic / 16777216 % 256, byte_of_int8 d.setTemp, d.pad % 256, d.crc % 256, d.crc / 256 % 256] := rfl
  rw [hb, hw]
  refine ⟨rfl, ?_⟩
  simp only [page_of, hb, replicate_512_eq]
  rfl

/-! ## The setpoint store -/

theorem int8_of_byte_of_int8 (x : Int) (h : -128 ≤ x ∧ x ≤ 127) :
    int8_of_byte (byte_of_int8 x) = x := by
  unfold int8_of_byte byte_of_int8
  have h1 : ((x % 256).toNat : Int) = x % 256 := Int.toNat_of_nonneg (Int.emod_nonneg _ (by norm_num))
  have h2 : (((x % 256).toNat % 256 : Nat) : Int) = x % 256 := by
    rw [Int.ofNat_emod, h1]; omega
  split
  · rename_i hlt
    have : (((x % 256).toNat % 256 : Nat) : Int) < 128 := by exact_mod_cast hlt
    rw [h2] at this ⊢; omega
  · rename_i hge
    have : ¬ (((x % 256).toNat % 256 : Nat) : Int) < 128 := by exact_mod_cast hge
    rw [h2] at this ⊢; omega

theorem EEPROM_CRC16_page_of (d : EEPROMData_t) :
    EEPROM_CRC16 (page_of d) (sizeof_EEPROMData_t - sizeof_uint16_t)
      = EEPROM_CRC16 d.bytes (sizeof_EEPROMData_t - sizeof_uint16_t) := by
  unfold EEPROM_CRC16
  have h : (page_of d).take (sizeof_EEPROMData_t - sizeof_uint16_t)
      = d.bytes.take (sizeof_EEPROMData_t - sizeof_uint16_t) := rfl
  rw [h]

theorem flash_data_page_of (d : EEPROMData_t) (hm : d.magic < 2 ^ 32) (hc : d.crc < 65536) :
    flash_data (page_of d)
      = { magic := d.magic, setTemp := int8_of_byte (byte_of_int8 d.setTemp),
          pad := d.pad % 256, crc := d.crc } := by
  simp only [flash_data, page_of, EEPROMData_t.bytes, List.cons_append, List.getD_cons_succ,
    List.getD_cons_zero, EEPROMData_t.mk.injEq]
  refine ⟨by omega, trivial, trivial, by omega⟩

theorem eeprom_data_update_magic (d : EEPROMData_t) (x : Int) :
    (eeprom_data_update d x).magic = 0xDEADBEEF := rfl

theorem eeprom_data_update_setTemp (d : EEPROMData_t) (x : Int) :
    (eeprom_data_update d x).setTemp = x := rfl

theorem eeprom_data_update_pad (d : EEPROMData_t) (x : Int) :
    (eeprom_data_update d x).pad = d.pad := rfl

theorem EEPROM_CRC16_bytes (d : EEPROMData_t) :
    EEPROM_CRC16 d.bytes (sizeof_EEPROMData_t - sizeof_uint16_t)
      = [d.magic % 256, d.magic / 256 % 256, d.magic / 65536 % 256, d.magic / 16777216 % 256,
         byte_of_int8 d.setTemp, d.pad % 256].foldl EEPROM_CRC16_byte 0xFFFF := rfl

theorem eeprom_data_update_crc (d : EEPROMData_t) (x : Int) :
    (eeprom_data_update d x).crc
      = EEPROM_CRC16 (eeprom_data_update d x).bytes (sizeof_EEPROMData_t - sizeof_uint16_t) := by
  have h : (eeprom_data_update d x).crc
      = EEPROM_CRC16 ({ magic := 0xDEADBEEF, setTemp := x, pad := d.pad, crc := d.crc } :
          EEPROMData_t).bytes (sizeof_EEPROMData_t - sizeof_uint16_t) := rfl
  rw [h, EEPROM_CRC16_bytes, EEPROM_CRC16_bytes, eeprom_data_update_magic,
    eeprom_data_update_setTemp, eeprom_data_update_pad]

theorem EEPROM_SaveSetpoint_ok (hal : FlashHal) (e : Eeprom) (x : Int)
    (hx : 10 ≤ x ∧ x ≤ 50) (hok : ∀ k, e.flash.ops.length ≤ k → hal k = HAL_OK) :
    (EEPROM_SaveSetpoint hal x e).1 = HAL_OK ∧
    (EEPROM_SaveSetpoint hal x e).2.flash.page = page_of (eeprom_data_update e.eeprom_data x) := by
  obtain ⟨h1, h2, h3⟩ := EEPROM_write_record_ok hal (eeprom_data_update e.eeprom_data x) e.flash hok
  have hr : ¬ (x < 10 ∨ x > 50) := by omega
  simp only [EEPROM_SaveSetpoint, if_neg hr, h1, ne_eq, not_true_eq_false, if_false]
  exact ⟨h2, h3⟩

theorem EEPROM_LoadSetpoint_page_of (d ram : EEPROMData_t) (ops : List FlashOp) (x v : Int)
    (hx : 10 ≤ x ∧ x ≤ 50) :
    EEPROM_LoadSetpoint ⟨ram, ⟨page_of (eeprom_data_update d x), ops⟩⟩ (some v) = (HAL_OK, some x) := by
  have hc : (eeprom_data_update d x).crc < 65536 := by
    rw [eeprom_data_update_crc]; exact EEPROM_CRC16_lt _ _
  have hfd := flash_data_page_of (eeprom_data_update d x) (by rw [eeprom_data_update_magic]; norm_num) hc
  have hi := int8_of_byte_of_int8 x (by omega)
  have hr : ¬ (x < 10 ∨ x > 50) := by omega
  simp only [EEPROM_LoadSetpoint, hfd, EEPROM_CRC16_page_of, eeprom_data_update_magic,
    eeprom_data_update_setTemp, ← eeprom_data_update_crc, hi, ne_eq, not_true_eq_false,
    if_false, if_neg hr]

/-- C1: for every setpoint `x` in `[10, 50]`, every prior state of the store
and every prior content of the page, if the erase and the program requests
issued succeed, `EEPROM_SaveSetpoint x` returns `HAL_OK` and a following
`EEPROM_LoadSetpoint` returns `HAL_OK` and writes `x` to its output. -/
theorem C1_save_then_load (hal : FlashHal) (e : Eeprom) (x v : Int)
    (hx : 10 ≤ x ∧ x ≤ 50) (hok : ∀ k, e.flash.ops.length ≤ k → hal k = HAL_OK) :
    (EEPROM_SaveSetpoint hal x e).1 = HAL_OK ∧
    EEPROM_LoadSetpoint (EEPROM_SaveSetpoint hal x e).2 (some v) = (HAL_OK, some x) := by
  obtain ⟨h1, h2⟩ := EEPROM_SaveSetpoint_ok hal e x hx hok
  refine ⟨h1, ?_⟩
  have := EEPROM_LoadSetpoint_page_of e.eeprom_data (EEPROM_SaveSetpoint hal x e).2.eeprom_data
    (EEPROM_SaveSetpoint hal x e).2.flash.ops x v hx
  rw [← h2] at this
  exact this

/-- C2: for every setpoint `x` below 10 or above 50, `EEPROM_SaveSetpoint x`
returns `HAL_ERROR` and leaves the whole state of the store as it was: no erase
or program request is issued and the page keeps its content. -/
theorem C2_save_out_of_range (hal : FlashHal) (e : Eeprom) (x : Int) (hx : x < 10 ∨ x > 50) :
    EEPROM_SaveSetpoint hal x e = (HAL_ERROR, e) ∧
    (EEPROM_SaveSetpoint hal x e).2.flash.ops = e.flash.ops ∧
    (EEPROM_SaveSetpoint hal x e).2.flash.page = e.flash.page := by
  simp [EEPROM_SaveSetpoint, hx]

theorem EEPROM_invalid_record (ram : EEPROMData_t) (page : List Nat) (ops : List FlashOp)
    (v : Int)
    (h : (flash_data page).magic ≠ 0xDEADBEEF ∨
      EEPROM_CRC16 page (sizeof_EEPROMData_t - sizeof_uint16_t) ≠ (flash_data page).crc) :
    EEPROM_LoadSetpoint ⟨ram, ⟨page, ops⟩⟩ (some v) = (HAL_ERROR, some v) ∧
    (EEPROM_Init ⟨ram, ⟨page, ops⟩⟩).1 = HAL_ERROR ∧
    (EEPROM_Init ⟨ram, ⟨page, ops⟩⟩).2.eeprom_data.setTemp = 28 := by
  by_cases hm : (flash_data page).magic = 0xDEADBEEF
  · have hc : EEPROM_CRC16 page (sizeof_EEPROMData_t - sizeof_uint16_t) ≠ (flash_data page).crc := by
      rcases h with h | h
      · exact absurd hm h
      · exact h
    simp only [EEPROM_LoadSetpoint, EEPROM_Init, hm, ne_eq, not_true_eq_false, if_false, hc,
      not_false_eq_true, if_true, EEPROM_Init_defaults, and_self]
  · simp only [EEPROM_LoadSetpoint, EEPROM_Init, ne_eq, hm, not_false_eq_true, if_true,
      EEPROM_Init_defaults, and_self]

theorem EEPROM_CRC16_take6 (b0 b1 b2 b3 b4 b5 : Nat) (rest : List Nat) :
    EEPROM_CRC16 (b0 :: b1 :: b2 :: b3 :: b4 :: b5 :: rest) (sizeof_EEPROMData_t - sizeof_uint16_t)
      = EEPROM_CRC16_byte (EEPROM_CRC16_byte
          ([b0, b1, b2, b3].foldl EEPROM_CRC16_byte 0xFFFF) b4) b5 := rfl

theorem page_of_corrupted_invalid (d : EEPROMData_t) (hm : d.magic = 0xDEADBEEF)
    (hc : d.crc = EEPROM_CRC16 d.bytes (sizeof_EEPROMData_t - sizeof_uint16_t))
    (k : Nat) (hk : k < 8) (b : Nat) (hb : b < 256) (hne : b ≠ (page_of d).getD k 0xFF) :
    (flash_data ((page_of d).set k b)).magic ≠ 0xDEADBEEF ∨
      EEPROM_CRC16 ((page_of d).set k b) (sizeof_EEPROMData_t - sizeof_uint16_t)
        ≠ (flash_data ((page_of d).set k b)).crc := by
  have hclt : d.crc < 65536 := by rw [hc]; exact EEPROM_CRC16_lt _ _
  have hcrc := hc
  rw [EEPROM_CRC16_bytes] at hcrc
  simp only [List.foldl_cons, List.foldl_nil] at hcrc
  have hpage : page_of d = d.magic % 256 :: d.magic / 256 % 256 :: d.magic / 65536 % 256 ::
      d.magic / 16777216 % 256 :: byte_of_int8 d.setTemp :: d.pad % 256 :: d.crc % 256 ::
      d.crc / 256 % 256 :: List.replicate 504 0xFF := rfl
  rw [hpage] at hne ⊢
  have hs : byte_of_int8 d.setTemp < 256 := by unfold byte_of_int8; omega
  interval_cases k
  · left
    simp only [List.set_cons_zero, List.getD_cons_zero, flash_data, List.getD_cons_succ] at hne ⊢
    omega
  · left
    simp only [List.set_cons_zero, List.set_cons_succ, List.getD_cons_zero, flash_data,
      List.getD_cons_succ] at hne ⊢
    omega
  · left
    simp only [List.set_cons_zero, List.set_cons_succ, List.getD_cons_zero, flash_data,
      List.getD_cons_succ] at hne ⊢
    omega
  · left
    simp only [List.set_cons_zero, List.set_cons_succ, List.getD_cons_zero, flash_data,
      List.getD_cons_succ] at hne ⊢
    omega
  · right
    simp only [List.set_cons_zero, List.set_cons_succ, List.getD_cons_zero, flash_data,
      List.getD_cons_succ, EEPROM_CRC16_take6, List.foldl_cons, List.foldl_nil] at hne ⊢
    intro heq
    have e1 : d.crc % 256 + 256 * (d.crc / 256 % 256) = d.crc := by omega
    rw [e1, hcrc] at heq
    have h1 := EEPROM_CRC16_byte_inj_state _ _ _ (EEPROM_CRC16_byte_lt _ _)
      (EEPROM_CRC16_byte_lt _ _) (by omega) heq
    exact hne (EEPROM_CRC16_byte_inj_data _ _ _ (EEPROM_CRC16_byte_lt _ _) hb hs h1)
  · right
    simp only [List.set_cons_zero, List.set_cons_succ, List.getD_cons_zero, flash_data,
      List.getD_cons_succ, EEPROM_CRC16_take6, List.foldl_cons, List.foldl_nil] at hne ⊢
    intro heq
    have e1 : d.crc % 256 + 256 * (d.crc / 256 % 256) = d.crc := by omega
    rw [e1, hcrc] at heq
    exact hne (EEPROM_CRC16_byte_inj_data _ _ _ (EEPROM_CRC16_byte_lt _ _) hb (by omega) heq)
  · right
    simp only [List.set_cons_zero, List.set_cons_succ, List.getD_cons_zero, flash_data,
      List.getD_cons_succ, EEPROM_CRC16_take6, List.foldl_cons, List.foldl_nil] at hne ⊢
    rw [← hcrc]
    omega
  · right
    simp only [List.set_cons_zero, List.set_cons_succ, List.getD_cons_zero, flash_data,
      List.getD_cons_succ, EEPROM_CRC16_take6, List.foldl_cons, List.foldl_nil] at hne ⊢
    rw [← hcrc]
    omega

/-- C3: take the page left by a successful `EEPROM_SaveSetpoint x` with `x` in
`[10, 50]`; replace any one of the 8 bytes of the stored record (offset `k`)
by any different byte `b`.  Then, whatever the record in RAM, the request log
and the output cell, `EEPROM_LoadSetpoint` returns `HAL_ERROR`, and
`EEPROM_Init` returns `HAL_ERROR` and leaves 28 as the setpoint of the record
in RAM. -/
theorem C3_corruption_detected (hal : FlashHal) (e : Eeprom) (x : Int)
    (hx : 10 ≤ x ∧ x ≤ 50) (hok : ∀ k, e.flash.ops.length ≤ k → hal k = HAL_OK)
    (k : Nat) (hk : k < 8) (b : Nat) (hb : b < 256)
    (hne : b ≠ (EEPROM_SaveSetpoint hal x e).2.flash.page.getD k 0xFF)
    (ram : EEPROMData_t) (ops : List FlashOp) (v : Int) :
    EEPROM_LoadSetpoint ⟨ram, ⟨(EEPROM_SaveSetpoint hal x e).2.flash.page.set k b, ops⟩⟩ (some v)
      = (HAL_ERROR, some v) ∧
    (EEPROM_Init ⟨ram, ⟨(EEPROM_SaveSetpoint hal x e).2.flash.page.set k b, ops⟩⟩).1
      = HAL_ERROR ∧
    (EEPROM_Init
      ⟨ram, ⟨(EEPROM_SaveSetpoint hal x e).2.flash.page.set k b, ops⟩⟩).2.eeprom_data.setTemp
      = 28 := by
  obtain ⟨_, h2⟩ := EEPROM_SaveSetpoint_ok hal e x hx hok
  rw [h2] at hne ⊢
  exact EEPROM_invalid_record ram _ ops v
    (page_of_corrupted_invalid _ (eeprom_data_update_magic _ _) (eeprom_data_update_crc _ _)
      k hk b hb hne)

/-- Evaluation of C1 on an erased page with setpoint 25. -/
theorem C1_save_then_load_witness :
    ((10 : Int) ≤ 25 ∧ (25 : Int) ≤ 50) ∧
    (EEPROM_SaveSetpoint (fun _ => HAL_OK) 25 Sys.boot.eeprom).1 = HAL_OK ∧
    EEPROM_LoadSetpoint (EEPROM_SaveSetpoint (fun _ => HAL_OK) 25 Sys.boot.eeprom).2 (some 0)
      = (HAL_OK, some 25) :=
  ⟨by decide, C1_save_then_load (fun _ => HAL_OK) Sys.boot.eeprom 25 0 (by decide)
    (fun _ _ => rfl)⟩

/-- Evaluation of C2 on an erased page with setpoint 51. -/
theorem C2_save_out_of_range_witness :
    ((51 : Int) < 10 ∨ (51 : Int) > 50) ∧
    EEPROM_SaveSetpoint (fun _ => HAL_OK) 51 Sys.boot.eeprom = (HAL_ERROR, Sys.boot.eeprom) ∧
    (EEPROM_SaveSetpoint (fun _ => HAL_OK) 51 Sys.boot.eeprom).2.flash.ops
      = Sys.boot.eeprom.flash.ops ∧
    (EEPROM_SaveSetpoint (fun _ => HAL_OK) 51 Sys.boot.eeprom).2.flash.page
      = Sys.boot.eeprom.flash.page :=
  ⟨by decide, C2_save_out_of_range (fun _ => HAL_OK) Sys.boot.eeprom 51 (by decide)⟩

theorem saved_25_byte_4 :
    (EEPROM_SaveSetpoint (fun _ => HAL_OK) 25 Sys.boot.eeprom).2.flash.page.getD 4 0xFF = 25 := by
  decide

/-- Evaluation of C3: setpoint 25 is saved on an erased page and the setpoint
byte (offset 4) is then replaced by 26. -/
theorem C3_corruption_detected_witness :
    EEPROM_LoadSetpoint ⟨eeprom_data_init,
        ⟨(EEPROM_SaveSetpoint (fun _ => HAL_OK) 25 Sys.boot.eeprom).2.flash.page.set 4 26, []⟩⟩
        (some 0) = (HAL_ERROR, some 0) ∧
    (EEPROM_Init ⟨eeprom_data_init,
        ⟨(EEPROM_SaveSetpoint (fun _ => HAL_OK) 25 Sys.boot.eeprom).2.flash.page.set 4 26, []⟩⟩).1
      = HAL_ERROR ∧
    (EEPROM_Init ⟨eeprom_data_init,
        ⟨(EEPROM_SaveSetpoint (fun _ => HAL_OK) 25 Sys.boot.eeprom).2.flash.page.set 4 26,
          []⟩⟩).2.eeprom_data.setTemp = 28 :=
  C3_corruption_detected (fun _ => HAL_OK) Sys.boot.eeprom 25 (by decide) (fun _ _ => rfl)
    4 (by decide) 26 (by decide) (by rw [saved_25_byte_4]; decide) eeprom_data_init [] 0

/-- C4: on the page `page_setpoint_100`, which holds the magic number
`0xDEADBEEF`, the setpoint 100 and the CRC16 of its first six bytes,
`EEPROM_Init` returns `HAL_OK` and copies the setpoint 100 to the record in
RAM, although 100 is outside `[10, 50]`; `EEPROM_LoadSetpoint` returns
`HAL_ERROR` on the same page. -/
theorem C4_init_accepts_out_of_range :
    (flash_data page_setpoint_100).magic = 0xDEADBEEF ∧
    (flash_data page_setpoint_100).crc = EEPROM_CRC16 page_setpoint_100 6 ∧
    (flash_data page_setpoint_100).setTemp = 100 ∧
    (EEPROM_Init ⟨eeprom_data_init, ⟨page_setpoint_100, []⟩⟩).1 = HAL_OK ∧
    (EEPROM_Init ⟨eeprom_data_init, ⟨page_setpoint_100, []⟩⟩).2.eeprom_data.setTemp = 100 ∧
    (EEPROM_LoadSetpoint ⟨eeprom_data_init, ⟨page_setpoint_100, []⟩⟩ (some 0)).1 = HAL_ERROR := by
  decide

/-- What `EEPROM_Init` checks: it returns `HAL_OK` exactly when the magic
number and the CRC16 of the page match. -/
theorem EEPROM_Init_ok_iff (e : Eeprom) :
    (EEPROM_Init e).1 = HAL_OK ↔
      ((flash_data e.flash.page).magic = 0xDEADBEEF ∧
       (flash_data e.flash.page).crc = EEPROM_CRC16 e.flash.page 6) := by
  unfold EEPROM_Init
  by_cases hm : (flash_data e.flash.page).magic = 0xDEADBEEF
  · by_cases hc : EEPROM_CRC16 e.flash.page (sizeof_EEPROMData_t - sizeof_uint16_t)
        = (flash_data e.flash.page).crc
    · simp only [hm, hc, ne_eq, not_true_eq_false, if_false, true_and, true_iff]
      exact hc.symm
    · simp only [hm, hc, ne_eq, not_true_eq_false, if_false, not_false_eq_true, if_true,
        true_and, false_iff, reduceCtorEq]
      exact fun h => hc h.symm
  · simp only [ne_eq, hm, not_false_eq_true, if_true, false_and, iff_false, reduceCtorEq]

/-- C5: for a non-null output cell holding `v`, `EEPROM_LoadSetpoint` returns
`HAL_OK` exactly when the page holds the magic number `0xDEADBEEF`, a stored
crc equal to the CRC16 of the six bytes before it, and a setpoint in
`[10, 50]`; it then stores the setpoint of the page in the cell, and otherwise
leaves the cell as it was; and the result is the same for any two states of the
store with the same page, whatever their records in RAM and request logs. -/
theorem C5_load_depends_on_page_only (d1 d2 : EEPROMData_t) (page : List Nat)
    (ops1 ops2 : List FlashOp) (v : Int) :
    ((EEPROM_LoadSetpoint ⟨d1, ⟨page, ops1⟩⟩ (some v)).1 = HAL_OK ↔
      ((flash_data page).magic = 0xDEADBEEF ∧
       (flash_data page).crc = EEPROM_CRC16 page 6 ∧
       10 ≤ (flash_data page).setTemp ∧ (flash_data page).setTemp ≤ 50)) ∧
    EEPROM_LoadSetpoint ⟨d1, ⟨page, ops1⟩⟩ (some v)
      = (if (flash_data page).magic = 0xDEADBEEF ∧
            (flash_data page).crc = EEPROM_CRC16 page 6 ∧
            10 ≤ (flash_data page).setTemp ∧ (flash_data page).setTemp ≤ 50
         then (HAL_OK, some (int8_of_byte (page.getD 4 0xFF))) else (HAL_ERROR, some v)) ∧
    EEPROM_LoadSetpoint ⟨d1, ⟨page, ops1⟩⟩ (some v)
      = EEPROM_LoadSetpoint ⟨d2, ⟨page, ops2⟩⟩ (some v) := by
  have h6 : sizeof_EEPROMData_t - sizeof_uint16_t = 6 := rfl
  have hs : (flash_data page).setTemp = int8_of_byte (page.getD 4 0xFF) := rfl
  refine ⟨?_, ?_, rfl⟩
  · simp only [EEPROM_LoadSetpoint, h6]
    by_cases hm : (flash_data page).magic = 0xDEADBEEF
    · by_cases hc : EEPROM_CRC16 page 6 = (flash_data page).crc
      · by_cases hr : (flash_data page).setTemp < 10 ∨ (flash_data page).setTemp > 50
        · simp only [hm, hc, hr, ne_eq, not_true_eq_false, if_false, if_true, true_and,
            reduceCtorEq, false_iff]
          omega
        · simp only [hm, hc, hr, ne_eq, not_true_eq_false, if_false, true_and, true_iff]
          omega
      · simp only [hm, hc, ne_eq, not_true_eq_false, if_false, not_false_eq_true, if_true,
          true_and, reduceCtorEq, false_iff]
        exact fun h => hc h.1.symm
    · simp only [ne_eq, hm, not_false_eq_true, if_true, false_and, iff_false, reduceCtorEq]
  · simp only [EEPROM_LoadSetpoint, h6, ← hs]
    by_cases hm : (flash_data page).magic = 0xDEADBEEF
    · by_cases hc : EEPROM_CRC16 page 6 = (flash_data page).crc
      · by_cases hr : (flash_data page).setTemp < 10 ∨ (flash_data page).setTemp > 50
        · have hr2 : ¬ (10 ≤ (flash_data page).setTemp ∧ (flash_data page).setTemp ≤ 50) := by
            omega
          simp only [hm, hc, hr, hr2, ne_eq, not_true_eq_false, if_false, if_true, true_and,
            and_false]
        · have hr2 : 10 ≤ (flash_data page).setTemp ∧ (flash_data page).setTemp ≤ 50 := by
            omega
          simp only [hm, hc, hr, hr2, ne_eq, not_true_eq_false, if_false, if_true, true_and,
            and_self]
      · have hc2 : ¬ (flash_data page).crc = EEPROM_CRC16 page 6 := fun h => hc h.symm
        simp only [hm, hc, hc2, ne_eq, not_true_eq_false, if_false, not_false_eq_true, if_true,
          true_and, false_and]
    · simp only [ne_eq, hm, not_false_eq_true, if_true, false_and, if_false]

/-! ## The button handler and the debouncer -/

theorem to_int8_of_range (x : Int) (h : -128 ≤ x ∧ x ≤ 127) : to_int8 x = x := by
  unfold to_int8; omega

theorem Handle_Button_Press_button_press_count (hal : FlashHal) (id : Nat) (s : Sys) :
    (Handle_Button_Press hal id s).button_press_count = s.button_press_count := by
  unfold Handle_Button_Press
  split <;> dsimp only <;> split_ifs <;> rfl

theorem Handle_Button_Press_button_state (hal : FlashHal) (id : Nat) (s : Sys) :
    (Handle_Button_Press hal id s).button_state = s.button_state := by
  unfold Handle_Button_Press
  split <;> dsimp only <;> split_ifs <;> rfl

theorem Handle_Button_Press_press_events (hal : FlashHal) (id k : Nat) (s : Sys) :
    press_events k (Handle_Button_Press hal id s)
      = press_events k s + (if id = k then 1 else 0) := by
  unfold Handle_Button_Press press_events
  split <;> dsimp only <;> split_ifs <;>
    simp_all [List.count_append, List.count_cons, List.count_nil]

theorem Button_Debounce_iter_other (hal : FlashHal) (r : Fin 4 → GPIO_PinState) (s : Sys)
    (i j : Fin 4) (hij : j ≠ i) :
    (Button_Debounce_iter hal r s j).button_press_count i = s.button_press_count i ∧
    (Button_Debounce_iter hal r s j).button_state i = s.button_state i ∧
    press_events i.val (Button_Debounce_iter hal r s j) = press_events i.val s := by
  have hv : ¬ (j.val = i.val) := fun h => hij (Fin.ext h)
  have hji : i ≠ j := fun h => hij h.symm
  unfold Button_Debounce_iter
  dsimp only
  split_ifs
  · rw [Handle_Button_Press_button_press_count, Handle_Button_Press_button_state,
      Handle_Button_Press_press_events, if_neg hv]
    exact ⟨Function.update_noteq hji _ _, Function.update_noteq hji _ _, rfl⟩
  · exact ⟨Function.update_noteq hji _ _, rfl, rfl⟩
  · exact ⟨Function.update_noteq hji _ _, rfl, rfl⟩
  · exact ⟨Function.update_noteq hji _ _, Function.update_noteq hji _ _, rfl⟩

theorem Button_Debounce_iter_pressed (hal : FlashHal) (r : Fin 4 → GPIO_PinState) (s : Sys)
    (i : Fin 4) (hp : r i = GPIO_PIN_SET) :
    (Button_Debounce_iter hal r s i).button_press_count i
      = (s.button_press_count i + 1) % 256 ∧
    (Button_Debounce_iter hal r s i).button_state i
      = (if 3 ≤ (s.button_press_count i + 1) % 256 ∧ s.button_state i = 0
         then 1 else s.button_state i) ∧
    press_events i.val (Button_Debounce_iter hal r s i)
      = press_events i.val s
        + (if 3 ≤ (s.button_press_count i + 1) % 256 ∧ s.button_state i = 0
           then 1 else 0) := by
  unfold Button_Debounce_iter
  dsimp only
  rw [if_pos hp]
  simp only [Function.update_same, ge_iff_le, DEBOUNCE_COUNT, Nat.reducePow]
  by_cases hc : 3 ≤ (s.button_press_count i + 1) % 256
  · by_cases hb : s.button_state i = 0
    · simp only [hc, hb, if_true, and_self, Handle_Button_Press_button_press_count,
        Handle_Button_Press_button_state, Handle_Button_Press_press_events, Function.update_same,
        true_and]
      rfl
    · simp only [hc, hb, if_true, if_false, and_false, Function.update_same, true_and,
        Nat.add_zero]
      rfl
  · simp only [hc, if_false, false_and, Function.update_same, true_and, Nat.add_zero]
    rfl

theorem Button_Debounce_iter_released (hal : FlashHal) (r : Fin 4 → GPIO_PinState) (s : Sys)
    (i : Fin 4) (hp : r i = GPIO_PIN_RESET) :
    (Button_Debounce_iter hal r s i).button_press_count i = 0 ∧
    (Button_Debounce_iter hal r s i).button_state i = 0 ∧
    press_events i.val (Button_Debounce_iter hal r s i) = press_events i.val s := by
  unfold Button_Debounce_iter
  dsimp only
  have : ¬ (r i = GPIO_PIN_SET) := by rw [hp]; decide
  rw [if_neg this]
  exact ⟨Function.update_same _ _ _, Function.update_same _ _ _, rfl⟩

theorem Button_Debounce_eq (hal : FlashHal) (r : Fin 4 → GPIO_PinState) (s : Sys) :
    Button_Debounce hal r s
      = Button_Debounce_iter hal r (Button_Debounce_iter hal r (Button_Debounce_iter hal r
          (Button_Debounce_iter hal r s 0) 1) 2) 3 := rfl

/-- The counter, the confirmed state and the number of press events of button
`i` after a call of `Button_Debounce` are those left by the iteration of the
loop for `i`. -/
theorem Button_Debounce_view (hal : FlashHal) (r : Fin 4 → GPIO_PinState) (s : Sys)
    (i : Fin 4) :
    ∃ s' : Sys, s'.button_press_count i = s.button_press_count i ∧
      s'.button_state i = s.button_state i ∧
      press_events i.val s' = press_events i.val s ∧
      (Button_Debounce hal r s).button_press_count i
        = (Button_Debounce_iter hal r s' i).button_press_count i ∧
      (Button_Debounce hal r s).button_state i
        = (Button_Debounce_iter hal r s' i).button_state i ∧
      press_events i.val (Button_Debounce hal r s)
        = press_events i.val (Button_Debounce_iter hal r s' i) := by
  rw [Button_Debounce_eq]
  fin_cases i
  · refine ⟨s, rfl, rfl, rfl, ?_⟩
    obtain ⟨a1, b1, c1⟩ := Button_Debounce_iter_other hal r (Button_Debounce_iter hal r s 0)
      0 1 (by decide)
    obtain ⟨a2, b2, c2⟩ := Button_Debounce_iter_other hal r
      (Button_Debounce_iter hal r (Button_Debounce_iter hal r s 0) 1) 0 2 (by decide)
    obtain ⟨a3, b3, c3⟩ := Button_Debounce_iter_other hal r
      (Button_Debounce_iter hal r (Button_Debounce_iter hal r (Button_Debounce_iter hal r s 0) 1) 2)
      0 3 (by decide)
    exact ⟨a3.trans (a2.trans a1), b3.trans (b2.trans b1), c3.trans (c2.trans c1)⟩
  · obtain ⟨a0, b0, c0⟩ := Button_Debounce_iter_other hal r s 1 0 (by decide)
    refine ⟨Button_Debounce_iter hal r s 0, a0, b0, c0, ?_⟩
    obtain ⟨a2, b2, c2⟩ := Button_Debounce_iter_other hal r
      (Button_Debounce_iter hal r (Button_Debounce_iter hal r s 0) 1) 1 2 (by decide)
    obtain ⟨a3, b3, c3⟩ := Button_Debounce_iter_other hal r
      (Button_Debounce_iter hal r (Button_Debounce_iter hal r (Button_Debounce_iter hal r s 0) 1) 2)
      1 3 (by decide)
    exact ⟨a3.trans a2, b3.trans b2, c3.trans c2⟩
  · obtain ⟨a0, b0, c0⟩ := Button_Debounce_iter_other hal r s 2 0 (by decide)
    obtain ⟨a1, b1, c1⟩ := Button_Debounce_iter_other hal r (Button_Debounce_iter hal r s 0)
      2 1 (by decide)
    refine ⟨Button_Debounce_iter hal r (Button_Debounce_iter hal r s 0) 1,
      a1.trans a0, b1.trans b0, c1.trans c0, ?_⟩
    obtain ⟨a3, b3, c3⟩ := Button_Debounce_iter_other hal r
      (Button_Debounce_iter hal r (Button_Debounce_iter hal r (Button_Debounce_iter hal r s 0) 1) 2)
      2 3 (by decide)
    exact ⟨a3, b3, c3⟩
  · obtain ⟨a0, b0, c0⟩ := Button_Debounce_iter_other hal r s 3 0 (by decide)
    obtain ⟨a1, b1, c1⟩ := Button_Debounce_iter_other hal r (Button_Debounce_iter hal r s 0)
      3 1 (by decide)
    obtain ⟨a2, b2, c2⟩ := Button_Debounce_iter_other hal r
      (Button_Debounce_iter hal r (Button_Debounce_iter hal r s 0) 1) 3 2 (by decide)
    exact ⟨Button_Debounce_iter hal r (Button_Debounce_iter hal r (Button_Debounce_iter hal r s 0) 1) 2,
      a2.trans (a1.trans a0), b2.trans (b1.trans b0), c2.trans (c1.trans c0), rfl, rfl, rfl⟩

/-- What one call of `Button_Debounce` does to the counter, the confirmed state
and the number of press events of a button whose pin reads pressed. -/
theorem Button_Debounce_pressed (hal : FlashHal) (r : Fin 4 → GPIO_PinState) (s : Sys)
    (i : Fin 4) (hp : r i = GPIO_PIN_SET) :
    (Button_Debounce hal r s).button_press_count i
      = (s.button_press_count i + 1) % 256 ∧
    (Button_Debounce hal r s).button_state i
      = (if 3 ≤ (s.button_press_count i + 1) % 256 ∧ s.button_state i = 0
         then 1 else s.button_state i) ∧
    press_events i.val (Button_Debounce hal r s)
      = press_events i.val s
        + (if 3 ≤ (s.button_press_count i + 1) % 256 ∧ s.button_state i = 0
           then 1 else 0) := by
  obtain ⟨s', ha, hb, hc, e1, e2, e3⟩ := Button_Debounce_view hal r s i
  obtain ⟨p1, p2, p3⟩ := Button_Debounce_iter_pressed hal r s' i hp
  rw [e1, e2, e3, p1, p2, p3, ha, hb, hc]
  exact ⟨rfl, rfl, rfl⟩

/-- What one call of `Button_Debounce` does to the counter, the confirmed state
and the number of press events of a button whose pin reads not pressed. -/
theorem Button_Debounce_released (hal : FlashHal) (r : Fin 4 → GPIO_PinState) (s : Sys)
    (i : Fin 4) (hp : r i = GPIO_PIN_RESET) :
    (Button_Debounce hal r s).button_press_count i = 0 ∧
    (Button_Debounce hal r s).button_state i = 0 ∧
    press_events i.val (Button_Debounce hal r s) = press_events i.val s := by
  obtain ⟨s', _, _, hc, e1, e2, e3⟩ := Button_Debounce_view hal r s i
  obtain ⟨p1, p2, p3⟩ := Button_Debounce_iter_released hal r s' i hp
  rw [e1, e2, e3, p1, p2, p3, hc]
  exact ⟨rfl, rfl, rfl⟩

theorem debounce_run_cons (hal : FlashHal) (s : Sys) (r : Fin 4 → GPIO_PinState)
    (rest : List (Fin 4 → GPIO_PinState)) :
    debounce_run hal s (r :: rest) = debounce_run hal (Button_Debounce hal r s) rest := rfl

theorem debounce_run_nil (hal : FlashHal) (s : Sys) : debounce_run hal s [] = s := rfl

/-- Once a press is confirmed, further pressed samples fire nothing, whatever
the counter does. -/
theorem debounce_run_held (hal : FlashHal) (i : Fin 4)
    (samples : List (Fin 4 → GPIO_PinState)) (s : Sys)
    (hb : s.button_state i ≠ 0) (hp : ∀ r ∈ samples, r i = GPIO_PIN_SET) :
    press_events i.val (debounce_run hal s samples) = press_events i.val s := by
  induction samples generalizing s with
  | nil => rfl
  | cons r rest ih =>
    obtain ⟨_, p2, p3⟩ := Button_Debounce_pressed hal r s i (hp r (List.mem_cons_self _ _))
    have hn : ¬ (3 ≤ (s.button_press_count i + 1) % 256 ∧ s.button_state i = 0) :=
      fun h => hb h.2
    rw [if_neg hn] at p2 p3
    rw [debounce_run_cons, ih (Button_Debounce hal r s) (by rw [p2]; exact hb)
      (fun r' hr' => hp r' (List.mem_cons_of_mem _ hr')), p3]
    rfl

/-- C9: starting from the released state of button `i` (counter 0, confirmed
state 0), feed `Button_Debounce` any number `n >= 3` of samples in which the pin
of `i` reads pressed (the other pins read anything).  Exactly one call of
`Handle_Button_Press i` is made over the whole run, none has been made after
the first two samples, and it has been made after the third.  No bound on `n`
is assumed, so runs in which the 8-bit counter wraps are covered. -/
theorem C9_debounce_single_event (hal : FlashHal) (i : Fin 4) (s : Sys)
    (samples : List (Fin 4 → GPIO_PinState))
    (h0 : s.button_press_count i = 0) (h1 : s.button_state i = 0)
    (hp : ∀ r ∈ samples, r i = GPIO_PIN_SET) (hn : 3 ≤ samples.length) :
    press_events i.val (debounce_run hal s samples) = press_events i.val s + 1 ∧
    press_events i.val (debounce_run hal s (samples.take 1)) = press_events i.val s ∧
    press_events i.val (debounce_run hal s (samples.take 2)) = press_events i.val s ∧
    press_events i.val (debounce_run hal s (samples.take 3)) = press_events i.val s + 1 := by
  match samples, hp, hn with
  | r1 :: r2 :: r3 :: rest, hp, _ =>
    have hp1 : r1 i = GPIO_PIN_SET := hp r1 (by simp)
    have hp2 : r2 i = GPIO_PIN_SET := hp r2 (by simp)
    have hp3 : r3 i = GPIO_PIN_SET := hp r3 (by simp)
    have hrest : ∀ r ∈ rest, r i = GPIO_PIN_SET := fun r hr => hp r (by simp [hr])
    obtain ⟨a1, b1, c1⟩ := Button_Debounce_pressed hal r1 s i hp1
    simp only [h0, h1] at a1 b1 c1
    norm_num at a1 b1 c1
    obtain ⟨a2, b2, c2⟩ := Button_Debounce_pressed hal r2 (Button_Debounce hal r1 s) i hp2
    simp only [a1, b1, c1] at a2 b2 c2
    norm_num at a2 b2 c2
    obtain ⟨_, b3, c3⟩ := Button_Debounce_pressed hal r3
      (Button_Debounce hal r2 (Button_Debounce hal r1 s)) i hp3
    simp only [a2, b2, c2] at b3 c3
    norm_num at b3 c3
    have hheld := debounce_run_held hal i rest
      (Button_Debounce hal r3 (Button_Debounce hal r2 (Button_Debounce hal r1 s)))
      (by rw [b3]; decide) hrest
    refine ⟨?_, ?_, ?_, ?_⟩
    · rw [debounce_run_cons, debounce_run_cons, debounce_run_cons, hheld, c3]
    · exact c1
    · exact c2
    · exact c3

/-- C10: starting from the released state of button `i`, one or two pressed
samples followed by one released sample make no call of
`Handle_Button_Press i`; and from any state whatever, one call of
`Button_Debounce` with the pin of `i` reading released leaves the counter of
`i` at 0 and its confirmed state at 0. -/
theorem C10_debounce_early_release (hal : FlashHal) (i : Fin 4) (s : Sys)
    (r1 r2 r0 : Fin 4 → GPIO_PinState)
    (h0 : s.button_press_count i = 0) (h1 : s.button_state i = 0)
    (hp1 : r1 i = GPIO_PIN_SET) (hp2 : r2 i = GPIO_PIN_SET) (hr : r0 i = GPIO_PIN_RESET) :
    press_events i.val (debounce_run hal s [r1, r0]) = press_events i.val s ∧
    press_events i.val (debounce_run hal s [r1, r2, r0]) = press_events i.val s ∧
    (∀ s' : Sys, (Button_Debounce hal r0 s').button_press_count i = 0 ∧
      (Button_Debounce hal r0 s').button_state i = 0) := by
  obtain ⟨a1, b1, c1⟩ := Button_Debounce_pressed hal r1 s i hp1
  simp only [h0, h1] at a1 b1 c1
  norm_num at a1 b1 c1
  obtain ⟨a2, b2, c2⟩ := Button_Debounce_pressed hal r2 (Button_Debounce hal r1 s) i hp2
  simp only [a1, b1, c1] at a2 b2 c2
  norm_num at a2 b2 c2
  refine ⟨?_, ?_, ?_⟩
  · exact (Button_Debounce_released hal r0 (Button_Debounce hal r1 s) i hr).2.2.trans c1
  · exact (Button_Debounce_released hal r0
      (Button_Debounce hal r2 (Button_Debounce hal r1 s)) i hr).2.2.trans c2
  · intro s'
    exact ⟨(Button_Debounce_released hal r0 s' i hr).1, (Button_Debounce_released hal r0 s' i hr).2.1⟩

/-- Evaluation of C9 on four samples with POWER held, from the boot state. -/
theorem C9_debounce_single_event_witness :
    press_events 3 (debounce_run (fun _ => HAL_OK) Sys.boot
      [pressed_only 3, pressed_only 3, pressed_only 3, pressed_only 3])
      = press_events 3 Sys.boot + 1 :=
  (C9_debounce_single_event (fun _ => HAL_OK) 3 Sys.boot
    [pressed_only 3, pressed_only 3, pressed_only 3, pressed_only 3] rfl rfl
    (by intro r hr; simp at hr; subst hr; rfl) (by decide)).1

/-- Evaluation of C10 with POWER pressed, then released, from the boot
state. -/
theorem C10_debounce_early_release_witness :
    press_events 3 (debounce_run (fun _ => HAL_OK) Sys.boot [pressed_only 3, released_all])
      = press_events 3 Sys.boot ∧
    press_events 3 (debounce_run (fun _ => HAL_OK) Sys.boot
      [pressed_only 3, pressed_only 3, released_all]) = press_events 3 Sys.boot :=
  ⟨(C10_debounce_early_release (fun _ => HAL_OK) 3 Sys.boot (pressed_only 3) (pressed_only 3)
      released_all rfl rfl rfl rfl rfl).1,
   (C10_debounce_early_release (fun _ => HAL_OK) 3 Sys.boot (pressed_only 3) (pressed_only 3)
      released_all rfl rfl rfl rfl rfl).2.1⟩

/-! ## The control task -/

/-- What a firing of `Task_Control` in mode NORMAL does. -/
theorem Task_Control_normal (now : Nat) (s : Sys)
    (hdue : sub_u32 now s.task_control_last_time ≥ 100) (hmode : s.thermostat_state.mode = 1) :
    (Task_Control now s).thermostat_state.mode = 1 ∧
    (Task_Control now s).thermostat_state.setTemp = s.thermostat_state.setTemp ∧
    (Task_Control now s).thermostat_state.currentTemp = s.thermostat_state.currentTemp ∧
    (Task_Control now s).task_control_last_time = now ∧
    (Task_Control now s).thermostat_state.isFanOn
      = (if s.thermostat_state.isFanOn = 0 ∧
            s.thermostat_state.currentTemp ≥ (s.thermostat_state.setTemp : ℚ) then 1
         else if s.thermostat_state.isFanOn ≠ 0 ∧
            s.thermostat_state.currentTemp ≤ (s.thermostat_state.setTemp : ℚ) - 1 then 0
         else s.thermostat_state.isFanOn) := by
  unfold Task_Control
  rw [if_pos hdue]
  dsimp only
  rw [if_pos hmode]
  by_cases hf : s.thermostat_state.isFanOn = 0
  · by_cases ht : s.thermostat_state.currentTemp ≥ (s.thermostat_state.setTemp : ℚ)
    · simp [hf, ht, hmode]
    · simp [hf, ht, hmode]
  · by_cases ht : s.thermostat_state.currentTemp ≤ (s.thermostat_state.setTemp : ℚ) - 1
    · simp [hf, ht, hmode]
    · simp [hf, ht, hmode]

theorem control_at_normal (t : ℚ) (now : Nat) (s : Sys)
    (hdue : sub_u32 now s.task_control_last_time ≥ 100) (hmode : s.thermostat_state.mode = 1) :
    (control_at t now s).thermostat_state.mode = 1 ∧
    (control_at t now s).thermostat_state.setTemp = s.thermostat_state.setTemp ∧
    (control_at t now s).task_control_last_time = now ∧
    (control_at t now s).thermostat_state.isFanOn
      = (if s.thermostat_state.isFanOn = 0 ∧ t ≥ (s.thermostat_state.setTemp : ℚ) then 1
         else if s.thermostat_state.isFanOn ≠ 0 ∧ t ≤ (s.thermostat_state.setTemp : ℚ) - 1 then 0
         else s.thermostat_state.isFanOn) := by
  obtain ⟨h1, h2, _, h4, h5⟩ := Task_Control_normal now
    { s with thermostat_state := { s.thermostat_state with currentTemp := t } } hdue hmode
  exact ⟨h1, h2, h4, h5⟩

/-- The four control steps of the hysteresis example, for any readings on the
stated sides of the two thresholds. -/
theorem control_at_trace (s : Sys) (n1 n2 n3 n4 : Nat) (t1 t2 t3 t4 : ℚ)
    (hmode : s.thermostat_state.mode = 1) (hset : s.thermostat_state.setTemp = 25)
    (hfan : s.thermostat_state.isFanOn = 0)
    (d1 : sub_u32 n1 s.task_control_last_time ≥ 100) (d2 : sub_u32 n2 n1 ≥ 100)
    (d3 : sub_u32 n3 n2 ≥ 100) (d4 : sub_u32 n4 n3 ≥ 100)
    (h1 : t1 < 25) (h2 : 25 ≤ t2) (h3 : 24 < t3) (h4 : t4 ≤ 24) :
    (control_at t1 n1 s).thermostat_state.isFanOn = 0 ∧
    (control_at t2 n2 (control_at t1 n1 s)).thermostat_state.isFanOn = 1 ∧
    (control_at t3 n3 (control_at t2 n2 (control_at t1 n1 s))).thermostat_state.isFanOn = 1 ∧
    (control_at t4 n4 (control_at t3 n3 (control_at t2 n2
      (control_at t1 n1 s)))).thermostat_state.isFanOn = 0 := by
  obtain ⟨m1, s1, l1, f1⟩ := control_at_normal t1 n1 s d1 hmode
  rw [hset, hfan] at f1
  have f1' : (control_at t1 n1 s).thermostat_state.isFanOn = 0 := by
    rw [f1]
    norm_num [not_le.mpr h1]
  obtain ⟨m2, s2, l2, f2⟩ := control_at_normal t2 n2 (control_at t1 n1 s) (by rw [l1]; exact d2) m1
  rw [s1, hset, f1'] at f2
  have f2' : (control_at t2 n2 (control_at t1 n1 s)).thermostat_state.isFanOn = 1 := by
    rw [f2]
    norm_num [h2]
  obtain ⟨m3, s3, l3, f3⟩ := control_at_normal t3 n3 (control_at t2 n2 (control_at t1 n1 s))
    (by rw [l2]; exact d3) m2
  rw [s2, s1, hset, f2'] at f3
  have f3' : (control_at t3 n3 (control_at t2 n2
      (control_at t1 n1 s))).thermostat_state.isFanOn = 1 := by
    rw [f3]
    norm_num [not_le.mpr h3]
  obtain ⟨_, _, _, f4⟩ := control_at_normal t4 n4
    (control_at t3 n3 (control_at t2 n2 (control_at t1 n1 s))) (by rw [l3]; exact d4) m3
  rw [s3, s2, s1, hset, f3'] at f4
  have f4' : (control_at t4 n4 (control_at t3 n3 (control_at t2 n2
      (control_at t1 n1 s)))).thermostat_state.isFanOn = 0 := by
    rw [f4]
    norm_num [h4]
  exact ⟨f1', f2', f3', f4'⟩

/-- C6: when `Task_Control` fires (its period has elapsed) in mode NORMAL, the
fan flag becomes 1 if it was 0 and the temperature is at least the setpoint,
becomes 0 if it was set and the temperature is at most the setpoint minus one,
and is unchanged otherwise.  Hence with setpoint 25 and the fan flag at 0,
four successive firings with the temperatures 24.9, 25, 24.1 and 24 leave the
flag at 0, 1, 1 and 0; the same holds for any four readings below 25, at least
25, above 24 and at most 24, such as the floats nearest to 24.9 and 24.1. -/
theorem C6_fan_hysteresis (now : Nat) (s : Sys)
    (hdue : sub_u32 now s.task_control_last_time ≥ 100) (hmode : s.thermostat_state.mode = 1) :
    (Task_Control now s).thermostat_state.isFanOn
      = (if s.thermostat_state.isFanOn = 0 ∧
            s.thermostat_state.currentTemp ≥ (s.thermostat_state.setTemp : ℚ) then 1
         else if s.thermostat_state.isFanOn ≠ 0 ∧
            s.thermostat_state.currentTemp ≤ (s.thermostat_state.setTemp : ℚ) - 1 then 0
         else s.thermostat_state.isFanOn) ∧
    (∀ (s0 : Sys) (n1 n2 n3 n4 : Nat),
      s0.thermostat_state.mode = 1 → s0.thermostat_state.setTemp = 25 →
      s0.thermostat_state.isFanOn = 0 →
      sub_u32 n1 s0.task_control_last_time ≥ 100 → sub_u32 n2 n1 ≥ 100 →
      sub_u32 n3 n2 ≥ 100 → sub_u32 n4 n3 ≥ 100 →
      (control_at (249 / 10) n1 s0).thermostat_state.isFanOn = 0 ∧
      (control_at 25 n2 (control_at (249 / 10) n1 s0)).thermostat_state.isFanOn = 1 ∧
      (control_at (241 / 10) n3 (control_at 25 n2
        (control_at (249 / 10) n1 s0))).thermostat_state.isFanOn = 1 ∧
      (control_at 24 n4 (control_at (241 / 10) n3 (control_at 25 n2
        (control_at (249 / 10) n1 s0)))).thermostat_state.isFanOn = 0) ∧
    (∀ (s0 : Sys) (n1 n2 n3 n4 : Nat) (t1 t2 t3 t4 : ℚ),
      s0.thermostat_state.mode = 1 → s0.thermostat_state.setTemp = 25 →
      s0.thermostat_state.isFanOn = 0 →
      sub_u32 n1 s0.task_control_last_time ≥ 100 → sub_u32 n2 n1 ≥ 100 →
      sub_u32 n3 n2 ≥ 100 → sub_u32 n4 n3 ≥ 100 →
      t1 < 25 → 25 ≤ t2 → 24 < t3 → t4 ≤ 24 →
      (control_at t1 n1 s0).thermostat_state.isFanOn = 0 ∧
      (control_at t2 n2 (control_at t1 n1 s0)).thermostat_state.isFanOn = 1 ∧
      (control_at t3 n3 (control_at t2 n2 (control_at t1 n1 s0))).thermostat_state.isFanOn = 1 ∧
      (control_at t4 n4 (control_at t3 n3 (control_at t2 n2
        (control_at t1 n1 s0)))).thermostat_state.isFanOn = 0) := by
  refine ⟨(Task_Control_normal now s hdue hmode).2.2.2.2, ?_, ?_⟩
  · intro s0 n1 n2 n3 n4 hm hs hf d1 d2 d3 d4
    exact control_at_trace s0 n1 n2 n3 n4 _ _ _ _ hm hs hf d1 d2 d3 d4
      (by norm_num) (by norm_num) (by norm_num) (by norm_num)
  · intro s0 n1 n2 n3 n4 t1 t2 t3 t4 hm hs hf d1 d2 d3 d4 h1 h2 h3 h4
    exact control_at_trace s0 n1 n2 n3 n4 t1 t2 t3 t4 hm hs hf d1 d2 d3 d4 h1 h2 h3 h4

/-- Evaluation of C6 at tick 100 on the boot state switched to NORMAL: the
period has elapsed, and the four steps of the example run from that state. -/
theorem C6_fan_hysteresis_witness :
    (sub_u32 100 Sys.boot_normal.task_control_last_time ≥ 100 ∧
      Sys.boot_normal.thermostat_state.mode = 1) ∧
    (control_at (249 / 10) 100 Sys.boot_normal).thermostat_state.isFanOn = 0 ∧
    (control_at 25 200 (control_at (249 / 10) 100 Sys.boot_normal)).thermostat_state.isFanOn
      = 1 ∧
    (control_at (241 / 10) 300 (control_at 25 200
      (control_at (249 / 10) 100 Sys.boot_normal))).thermostat_state.isFanOn = 1 ∧
    (control_at 24 400 (control_at (241 / 10) 300 (control_at 25 200
      (control_at (249 / 10) 100 Sys.boot_normal)))).thermostat_state.isFanOn = 0 :=
  ⟨⟨by decide, rfl⟩,
   (C6_fan_hysteresis 100 Sys.boot_normal (by decide) rfl).2.1 Sys.boot_normal 100 200 300 400
     rfl rfl rfl (by decide) (by decide) (by decide) (by decide)⟩

/-! ## Invariants of the state machine -/

theorem Handle_Button_Press_setTemp_in_range (hal : FlashHal) (id : Nat) (s : Sys)
    (h : setTemp_in_range s) : setTemp_in_range (Handle_Button_Press hal id s) := by
  unfold setTemp_in_range at h ⊢
  unfold Handle_Button_Press
  split <;> dsimp only <;> (try split_ifs) <;> (try exact h)
  · rename_i hc
    dsimp only
    rw [to_int8_of_range _ (by omega)]
    omega
  · rename_i hc
    dsimp only
    rw [to_int8_of_range _ (by omega)]
    omega

theorem Button_Debounce_iter_setTemp_in_range (hal : FlashHal) (r : Fin 4 → GPIO_PinState)
    (s : Sys) (i : Fin 4) (h : setTemp_in_range s) :
    setTemp_in_range (Button_Debounce_iter hal r s i) := by
  unfold Button_Debounce_iter
  dsimp only
  split_ifs
  · exact Handle_Button_Press_setTemp_in_range hal _ _ h
  · exact h
  · exact h
  · exact h

theorem Button_Debounce_setTemp_in_range (hal : FlashHal) (r : Fin 4 → GPIO_PinState)
    (s : Sys) (h : setTemp_in_range s) : setTemp_in_range (Button_Debounce hal r s) := by
  rw [Button_Debounce_eq]
  exact Button_Debounce_iter_setTemp_in_range hal r _ 3
    (Button_Debounce_iter_setTemp_in_range hal r _ 2
      (Button_Debounce_iter_setTemp_in_range hal r _ 1
        (Button_Debounce_iter_setTemp_in_range hal r _ 0 h)))

theorem Task_Control_setTemp (now : Nat) (s : Sys) :
    (Task_Control now s).thermostat_state.setTemp = s.thermostat_state.setTemp := by
  unfold Task_Control
  dsimp only
  split_ifs <;> rfl

theorem Task_Sensor_thermostat_state (line : WireLine) (now : Nat) (s : Sys) :
    (Task_Sensor line now s).thermostat_state.setTemp = s.thermostat_state.setTemp ∧
    (Task_Sensor line now s).thermostat_state.mode = s.thermostat_state.mode ∧
    (Task_Sensor line now s).thermostat_state.isFanOn = s.thermostat_state.isFanOn ∧
    (Task_Sensor line now s).calls = s.calls := by
  unfold Task_Sensor
  dsimp only
  split_ifs <;> exact ⟨rfl, rfl, rfl, rfl⟩

theorem decimal_length_fuel_le (fuel : Nat) :
    ∀ n k : Nat, 1 ≤ k → n < 10 ^ k → decimal_length_fuel fuel n ≤ k := by
  induction fuel with
  | zero => intro n k hk _; exact hk
  | succ f ih =>
    intro n k hk hn
    unfold decimal_length_fuel
    split_ifs with h10
    · exact hk
    · obtain ⟨j, rfl⟩ : ∃ j, k = j + 1 := ⟨k - 1, by omega⟩
      have hj : 1 ≤ j := by
        rcases Nat.eq_zero_or_pos j with h0 | h0
        · subst h0; simp at hn; omega
        · exact h0
      have hn' : n / 10 < 10 ^ j := by
        rw [pow_succ] at hn
        exact Nat.div_lt_of_lt_mul (by rw [Nat.mul_comm]; exact hn)
      have := ih (n / 10) j hj hn'
      omega

theorem sprintf_d_length_le (n : Int) (h : 10 ≤ n ∧ n ≤ 50) : sprintf_d_length n ≤ 2 := by
  unfold sprintf_d_length decimal_length
  have h0 : ¬ n < 0 := by omega
  rw [if_neg h0, Nat.zero_add]
  exact decimal_length_fuel_le _ _ 2 (by norm_num) (by omega)

theorem sprintf_2f_length_le (x : ℚ) (h0 : 0 ≤ x) (h1 : x < 4096) :
    sprintf_2f_length x ≤ 7 := by
  have hn : 0 ≤ x.num := Rat.num_nonneg.2 h0
  have hlt : x.num < 4096 * (x.den : Int) := by
    have := Rat.lt_def.1 h1
    simpa using this
  have hd : 0 < x.den := x.den_pos
  have ha : x.num.natAbs * 100 < 409600 * x.den := by omega
  have hq : x.num.natAbs * 100 / x.den < 409600 :=
    Nat.div_lt_of_lt_mul (by rw [Nat.mul_comm 409600] at ha; exact ha)
  unfold sprintf_2f_length
  dsimp only
  rw [if_neg (not_lt.2 h0), Nat.zero_add]
  have : ∀ m, m ≤ 409600 → decimal_length (m / 100) ≤ 4 := by
    intro m hm
    exact decimal_length_fuel_le _ _ 4 (by norm_num) (by omega)
  have h4 : decimal_length ((if 2 * (x.num.natAbs * 100 % x.den) < x.den then x.num.natAbs * 100 / x.den
    else if 2 * (x.num.natAbs * 100 % x.den) > x.den then x.num.natAbs * 100 / x.den + 1
    else if x.num.natAbs * 100 / x.den % 2 = 0 then x.num.natAbs * 100 / x.den
    else x.num.natAbs * 100 / x.den + 1) / 100) ≤ 4 := by
    apply this
    split_ifs <;> omega
  omega

theorem sprintf_T_S_bytes_le (x : ℚ) (n : Int) (h0 : 0 ≤ x) (h1 : x < 4096)
    (h : 10 ≤ n ∧ n ≤ 50) : sprintf_T_S_bytes x n ≤ sizeof_buffer := by
  have a := sprintf_2f_length_le x h0 h1
  have b := sprintf_d_length_le n h
  unfold sprintf_T_S_bytes sizeof_buffer
  omega
theorem sprintf_M_F_bytes_le_iff (mode isFanOn : Nat) :
    sprintf_M_F_bytes (if mode = 0 then "OFF" else if mode = 1 then "NORMAL" else "SETTING")
      (if isFanOn ≠ 0 then "ON " else "OFF") ≤ sizeof_buffer ↔ mode = 0 := by
  by_cases h0 : mode = 0
  · simp only [h0, if_true, iff_true]
    by_cases hf : isFanOn ≠ 0
    · rw [if_pos hf]; decide
    · rw [if_neg hf]; decide
  · simp only [h0, if_false, iff_false, not_le]
    by_cases h1 : mode = 1
    · rw [if_pos h1]
      by_cases hf : isFanOn ≠ 0
      · rw [if_pos hf]; decide
      · rw [if_neg hf]; decide
    · rw [if_neg h1]
      by_cases hf : isFanOn ≠ 0
      · rw [if_pos hf]; decide
      · rw [if_neg hf]; decide

/-- The result of `Task_Display`: nothing happens before the period has
elapsed; after it, the two lines are sent to the display when the first text
fits the buffer and the mode is OFF, and the call overruns the buffer
otherwise (the second text takes 19 bytes in mode NORMAL and 20 in mode
SETTING). -/
theorem Task_Display_eq (now : Nat) (s : Sys) :
    Task_Display now s =
      if sub_u32 now s.task_display_last_time ≥ 200 then
        if sprintf_T_S_bytes s.thermostat_state.currentTemp s.thermostat_state.setTemp
            ≤ sizeof_buffer ∧ s.thermostat_state.mode = 0 then
          some { s with
            task_display_last_time := now,
            lcd := s.lcd ++
              [LcdOp.lcdSetCursor 0 0,
               LcdOp.lcdWriteString_T_S s.thermostat_state.currentTemp s.thermostat_state.setTemp,
               LcdOp.lcdSetCursor 1 0,
               LcdOp.lcdWriteString_M_F "OFF"
                 (if s.thermostat_state.isFanOn ≠ 0 then "ON " else "OFF")] }
        else none
      else some s := by
  unfold Task_Display
  by_cases hdue : sub_u32 now s.task_display_last_time ≥ 200
  · rw [if_pos hdue, if_pos hdue]
    dsimp only
    by_cases h1 : sprintf_T_S_bytes s.thermostat_state.currentTemp s.thermostat_state.setTemp
        > sizeof_buffer
    · rw [if_pos h1, if_neg (fun h => absurd h.1 (not_le.2 h1))]
    · rw [if_neg h1]
      have hm := sprintf_M_F_bytes_le_iff s.thermostat_state.mode s.thermostat_state.isFanOn
      by_cases h0 : s.thermostat_state.mode = 0
      · rw [if_neg (not_lt.2 (hm.2 h0)), if_pos (And.intro (not_lt.1 h1) h0)]
        simp only [h0, if_true]
      · rw [if_pos (not_le.1 (fun h => h0 (hm.1 h))), if_neg (fun h => h0 h.2)]
  · rw [if_neg hdue, if_neg hdue]

theorem Task_Display_some (now : Nat) (s s' : Sys) (h : Task_Display now s = some s') :
    s'.thermostat_state = s.thermostat_state ∧ s'.calls = s.calls ∧
    s'.task_control_last_time = s.task_control_last_time ∧
    s'.task_display_last_time
      = (if sub_u32 now s.task_display_last_time ≥ 200 then now
         else s.task_display_last_time) := by
  rw [Task_Display_eq] at h
  by_cases hdue : sub_u32 now s.task_display_last_time ≥ 200
  · rw [if_pos hdue] at h
    rw [if_pos hdue]
    by_cases hc : sprintf_T_S_bytes s.thermostat_state.currentTemp s.thermostat_state.setTemp
        ≤ sizeof_buffer ∧ s.thermostat_state.mode = 0
    · rw [if_pos hc] at h
      cases h
      exact ⟨rfl, rfl, rfl, rfl⟩
    · rw [if_neg hc] at h
      cases h
  · rw [if_neg hdue] at h
    rw [if_neg hdue]
    cases h
    exact ⟨rfl, rfl, rfl, rfl⟩

theorem Task_Input_setTemp_in_range (hal : FlashHal) (r : Fin 4 → GPIO_PinState) (t : Nat)
    (s : Sys) (h : setTemp_in_range s) : setTemp_in_range (Task_Input hal r t s) := by
  unfold Task_Input
  dsimp only
  split_ifs
  · exact Button_Debounce_setTemp_in_range hal r _ h
  · exact h

theorem Task_Control_setTemp_in_range (t : Nat) (s : Sys) (h : setTemp_in_range s) :
    setTemp_in_range (Task_Control t s) := by
  unfold setTemp_in_range at h ⊢
  rw [Task_Control_setTemp]; exact h

theorem Task_Sensor_setTemp_in_range (line : WireLine) (t : Nat) (s : Sys)
    (h : setTemp_in_range s) : setTemp_in_range (Task_Sensor line t s) := by
  unfold setTemp_in_range at h ⊢
  rw [(Task_Sensor_thermostat_state line t s).1]; exact h

theorem Task_Display_setTemp_in_range (t : Nat) (s s' : Sys) (h : setTemp_in_range s)
    (hs : Task_Display t s = some s') : setTemp_in_range s' := by
  unfold setTemp_in_range at h ⊢
  rw [(Task_Display_some t s s' hs).1]; exact h

theorem step_setTemp_in_range (hal : FlashHal) (line : WireLine) (s s' : Sys) (ev : Event)
    (h : setTemp_in_range s) (hs : step hal line s ev = some s') : setTemp_in_range s' := by
  cases ev with
  | button_press id =>
    cases hs; exact Handle_Button_Press_setTemp_in_range hal id s h
  | task_control t =>
    cases hs; exact Task_Control_setTemp_in_range t s h
  | task_sensor t =>
    cases hs; exact Task_Sensor_setTemp_in_range line t s h
  | task_input r t =>
    cases hs; exact Task_Input_setTemp_in_range hal r t s h
  | task_display t => exact Task_Display_setTemp_in_range t s s' h hs

theorem run_cons_some (hal : FlashHal) (line : WireLine) (s s' : Sys) (ev : Event)
    (evs : List Event) (h : run hal line s (ev :: evs) = some s') :
    ∃ s1, step hal line s ev = some s1 ∧ run hal line s1 evs = some s' := by
  unfold run at h
  cases hs : step hal line s ev with
  | none => rw [hs] at h; cases h
  | some s1 => rw [hs] at h; exact ⟨s1, rfl, h⟩

theorem run_setTemp_in_range (hal : FlashHal) (line : WireLine) (evs : List Event)
    (s s' : Sys) (h : setTemp_in_range s) (hs : run hal line s evs = some s') :
    setTemp_in_range s' := by
  induction evs generalizing s with
  | nil => cases hs; exact h
  | cons ev rest ih =>
    obtain ⟨s1, h1, h2⟩ := run_cons_some hal line s s' ev rest hs
    exact ih s1 (step_setTemp_in_range hal line s s1 ev h h1) h2

/-- The events that have no resulting state are the executions of
`Task_Display` that overrun the buffer. -/
theorem step_eq_none_iff (hal : FlashHal) (line : WireLine) (s : Sys) (ev : Event) :
    step hal line s ev = none ↔
      ∃ now, ev = Event.task_display now ∧ sub_u32 now s.task_display_last_time ≥ 200 ∧
        ¬ (sprintf_T_S_bytes s.thermostat_state.currentTemp s.thermostat_state.setTemp
            ≤ sizeof_buffer ∧ s.thermostat_state.mode = 0) := by
  cases ev with
  | button_press id => exact ⟨fun h => (by cases h), fun ⟨_, h, _⟩ => (by cases h)⟩
  | task_control t => exact ⟨fun h => (by cases h), fun ⟨_, h, _⟩ => (by cases h)⟩
  | task_sensor t => exact ⟨fun h => (by cases h), fun ⟨_, h, _⟩ => (by cases h)⟩
  | task_input r t => exact ⟨fun h => (by cases h), fun ⟨_, h, _⟩ => (by cases h)⟩
  | task_display t =>
    show Task_Display t s = none ↔ _
    rw [Task_Display_eq]
    constructor
    · intro h
      refine ⟨t, rfl, ?_⟩
      by_cases hdue : sub_u32 t s.task_display_last_time ≥ 200
      · rw [if_pos hdue] at h
        refine ⟨hdue, fun hc => ?_⟩
        rw [if_pos hc] at h
        cases h
      · rw [if_neg hdue] at h
        cases h
    · rintro ⟨now, he, hdue, hc⟩
      cases he
      rw [if_pos hdue, if_neg hc]

theorem step_eq_none_iff_of_range (hal : FlashHal) (line : WireLine) (s : Sys) (ev : Event)
    (h : setTemp_in_range s) (h0 : 0 ≤ s.thermostat_state.currentTemp)
    (h1 : s.thermostat_state.currentTemp < 4096) :
    step hal line s ev = none ↔
      ∃ now, ev = Event.task_display now ∧ sub_u32 now s.task_display_last_time ≥ 200 ∧
        s.thermostat_state.mode ≠ 0 := by
  have hfit := sprintf_T_S_bytes_le s.thermostat_state.currentTemp s.thermostat_state.setTemp
    h0 h1 h
  rw [step_eq_none_iff]
  constructor
  · rintro ⟨now, he, hdue, hc⟩
    exact ⟨now, he, hdue, fun hm => hc ⟨hfit, hm⟩⟩
  · rintro ⟨now, he, hdue, hm⟩
    exact ⟨now, he, hdue, fun hc => hm hc.2⟩

/-- C8: if `setTemp` lies in `[10, 50]`, it still does after any call of
`Handle_Button_Press` (any button id, any mode), after any execution of
`Task_Control`, `Task_Sensor` and `Task_Input`, and in the state left by any
execution of `Task_Display`; hence it does in every state reached by any
sequence of such events.  The only executions that leave no state are those of
`Task_Display` that overrun its 17-byte buffer, which the last part
identifies: the period has elapsed and the mode is not OFF or the first text
does not fit; with a reading in the range of the sensor (`0 ≤ currentTemp <
4096`) the first text fits, so this happens exactly when the period has elapsed
in a mode other than OFF. -/
theorem C8_setTemp_in_range (hal : FlashHal) (line : WireLine) (s : Sys)
    (h : setTemp_in_range s) :
    (∀ button_id, setTemp_in_range (Handle_Button_Press hal button_id s)) ∧
    (∀ now, setTemp_in_range (Task_Control now s)) ∧
    (∀ now, setTemp_in_range (Task_Sensor line now s)) ∧
    (∀ button_reads now, setTemp_in_range (Task_Input hal button_reads now s)) ∧
    (∀ now s', Task_Display now s = some s' → setTemp_in_range s') ∧
    (∀ ev s', step hal line s ev = some s' → setTemp_in_range s') ∧
    (∀ evs s', run hal line s evs = some s' → setTemp_in_range s') ∧
    (∀ ev, step hal line s ev = none ↔
      ∃ now, ev = Event.task_display now ∧ sub_u32 now s.task_display_last_time ≥ 200 ∧
        ¬ (sprintf_T_S_bytes s.thermostat_state.currentTemp s.thermostat_state.setTemp
            ≤ sizeof_buffer ∧ s.thermostat_state.mode = 0)) ∧
    (0 ≤ s.thermostat_state.currentTemp → s.thermostat_state.currentTemp < 4096 →
      ∀ ev, step hal line s ev = none ↔
        ∃ now, ev = Event.task_display now ∧ sub_u32 now s.task_display_last_time ≥ 200 ∧
          s.thermostat_state.mode ≠ 0) :=
  ⟨fun id => Handle_Button_Press_setTemp_in_range hal id s h,
   fun t => Task_Control_setTemp_in_range t s h,
   fun t => Task_Sensor_setTemp_in_range line t s h,
   fun r t => Task_Input_setTemp_in_range hal r t s h,
   fun t s' hs => Task_Display_setTemp_in_range t s s' h hs,
   fun ev s' hs => step_setTemp_in_range hal line s s' ev h hs,
   fun evs s' hs => run_setTemp_in_range hal line evs s s' h hs,
   fun ev => step_eq_none_iff hal line s ev,
   fun h0 h1 ev => step_eq_none_iff_of_range hal line s ev h h0 h1⟩

/-- Evaluation of C8 on the boot state (setpoint 28): a display refresh in mode
OFF, then POWER, SET and three UP presses; the run has a final state, with
setpoint 31. -/
theorem C8_setTemp_in_range_witness :
    ∃ s', run (fun _ => HAL_OK) (fun _ => GPIO_PIN_SET) Sys.boot
        [Event.task_display 200, Event.button_press 3, Event.button_press 2,
         Event.button_press 0, Event.button_press 0, Event.button_press 0] = some s' ∧
      s'.thermostat_state.setTemp = 31 ∧ setTemp_in_range s' := by
  have hd : Task_Display 200 Sys.boot = some
      { Sys.boot with
        task_display_last_time := 200,
        lcd := [LcdOp.lcdSetCursor 0 0, LcdOp.lcdWriteString_T_S 0 28,
                LcdOp.lcdSetCursor 1 0, LcdOp.lcdWriteString_M_F "OFF" "OFF"] } := by
    have h1 : sub_u32 200 Sys.boot.task_display_last_time ≥ 200 := by decide
    have h2 : sprintf_T_S_bytes Sys.boot.thermostat_state.currentTemp
        Sys.boot.thermostat_state.setTemp ≤ sizeof_buffer := by decide
    have h3 : sprintf_T_S_bytes Sys.boot.thermostat_state.currentTemp
        Sys.boot.thermostat_state.setTemp ≤ sizeof_buffer ∧
        Sys.boot.thermostat_state.mode = 0 := ⟨h2, rfl⟩
    rw [Task_Display_eq, if_pos h1, if_pos h3]
    rfl
  have hr : run (fun _ => HAL_OK) (fun _ => GPIO_PIN_SET) Sys.boot
      [Event.task_display 200, Event.button_press 3, Event.button_press 2,
       Event.button_press 0, Event.button_press 0, Event.button_press 0]
      = some (Handle_Button_Press (fun _ => HAL_OK) 0 (Handle_Button_Press (fun _ => HAL_OK) 0
          (Handle_Button_Press (fun _ => HAL_OK) 0 (Handle_Button_Press (fun _ => HAL_OK) 2
          (Handle_Button_Press (fun _ => HAL_OK) 3
            { Sys.boot with
              task_display_last_time := 200,
              lcd := [LcdOp.lcdSetCursor 0 0, LcdOp.lcdWriteString_T_S 0 28,
                      LcdOp.lcdSetCursor 1 0, LcdOp.lcdWriteString_M_F "OFF" "OFF"] }))))) := by
    show (match Task_Display 200 Sys.boot with
      | some s1 => run (fun _ => HAL_OK) (fun _ => GPIO_PIN_SET) s1 _
      | none => none) = _
    rw [hd]
    rfl
  exact ⟨_, hr, by decide,
    (C8_setTemp_in_range (fun _ => HAL_OK) (fun _ => GPIO_PIN_SET) Sys.boot
      ⟨by decide, by decide⟩).2.2.2.2.2.2.1 _ _ hr⟩

theorem Task_Control_fan_off_when_OFF (now : Nat) (s : Sys)
    (hdue : sub_u32 now s.task_control_last_time ≥ 100) :
    fan_off_when_OFF (Task_Control now s) := by
  unfold fan_off_when_OFF Task_Control
  rw [if_pos hdue]
  dsimp only
  split_ifs <;> intro h0 <;> first | rfl | (exfalso; simp_all)

theorem Handle_Button_Press_isFanOn (hal : FlashHal) (id : Nat) (s : Sys) :
    (Handle_Button_Press hal id s).thermostat_state.isFanOn = s.thermostat_state.isFanOn := by
  unfold Handle_Button_Press
  split <;> dsimp only <;> (try split_ifs) <;> rfl

theorem Handle_Button_Press_mode_zero (hal : FlashHal) (id : Nat) (s : Sys) (hid : id ≠ 3)
    (h : (Handle_Button_Press hal id s).thermostat_state.mode = 0) :
    s.thermostat_state.mode = 0 := by
  unfold Handle_Button_Press at h
  split at h <;> dsimp only at h <;> (try split_ifs at h) <;> (try exact h)
  exact absurd rfl hid

theorem Button_Debounce_iter_isFanOn (hal : FlashHal) (r : Fin 4 → GPIO_PinState)
    (s : Sys) (i : Fin 4) :
    (Button_Debounce_iter hal r s i).thermostat_state.isFanOn
      = s.thermostat_state.isFanOn := by
  unfold Button_Debounce_iter
  dsimp only
  split_ifs
  · rw [Handle_Button_Press_isFanOn]
  · rfl
  · rfl
  · rfl

theorem Button_Debounce_isFanOn (hal : FlashHal) (r : Fin 4 → GPIO_PinState) (s : Sys) :
    (Button_Debounce hal r s).thermostat_state.isFanOn = s.thermostat_state.isFanOn := by
  rw [Button_Debounce_eq, Button_Debounce_iter_isFanOn, Button_Debounce_iter_isFanOn,
    Button_Debounce_iter_isFanOn, Button_Debounce_iter_isFanOn]

theorem Button_Debounce_iter_mode_zero (hal : FlashHal) (r : Fin 4 → GPIO_PinState)
    (s : Sys) (i : Fin 4) (h3 : i.val = 3 → r i ≠ GPIO_PIN_SET)
    (h : (Button_Debounce_iter hal r s i).thermostat_state.mode = 0) :
    s.thermostat_state.mode = 0 := by
  unfold Button_Debounce_iter at h
  dsimp only at h
  split_ifs at h with hr hc hst
  · have hid : i.val ≠ 3 := fun e => h3 e hr
    have h' := Handle_Button_Press_mode_zero hal i.val _ hid h
    exact h'
  · exact h
  · exact h
  · exact h

theorem Button_Debounce_mode_zero (hal : FlashHal) (r : Fin 4 → GPIO_PinState) (s : Sys)
    (hr : r 3 ≠ GPIO_PIN_SET) (h : (Button_Debounce hal r s).thermostat_state.mode = 0) :
    s.thermostat_state.mode = 0 := by
  rw [Button_Debounce_eq] at h
  have h2 := Button_Debounce_iter_mode_zero hal r _ 3 (fun _ => hr) h
  have h1 := Button_Debounce_iter_mode_zero hal r _ 2 (fun e => absurd e (by decide)) h2
  have h0 := Button_Debounce_iter_mode_zero hal r _ 1 (fun e => absurd e (by decide)) h1
  exact Button_Debounce_iter_mode_zero hal r _ 0 (fun e => absurd e (by decide)) h0

/-- What one event does to the fan invariant: a firing of `Task_Control`
establishes it; every other event keeps the fan flag, and can reach mode OFF
from another mode only by a POWER press. -/
theorem step_fan_lag (hal : FlashHal) (line : WireLine) (s s1 : Sys) (ev : Event)
    (hs : step hal line s ev = some s1) :
    (fires_Task_Control s ev = true ∧ fan_off_when_OFF s1) ∨
    (fires_Task_Control s ev = false ∧
      s1.thermostat_state.isFanOn = s.thermostat_state.isFanOn ∧
      (s1.thermostat_state.mode = 0 →
        s.thermostat_state.mode = 0 ∨ carries_POWER_press ev = true)) := by
  cases ev with
  | button_press id =>
    cases hs
    refine Or.inr ⟨rfl, Handle_Button_Press_isFanOn hal id s, fun h => ?_⟩
    by_cases hid : id = 3
    · exact Or.inr (decide_eq_true hid)
    · exact Or.inl (Handle_Button_Press_mode_zero hal id s hid h)
  | task_control t =>
    cases hs
    by_cases hdue : sub_u32 t s.task_control_last_time ≥ 100
    · exact Or.inl ⟨decide_eq_true hdue, Task_Control_fan_off_when_OFF t s hdue⟩
    · have e : Task_Control t s = s := by unfold Task_Control; rw [if_neg hdue]
      rw [e]
      exact Or.inr ⟨decide_eq_false hdue, rfl, fun h => Or.inl h⟩
  | task_sensor t =>
    cases hs
    obtain ⟨_, h2, h3, _⟩ := Task_Sensor_thermostat_state line t s
    refine Or.inr ⟨rfl, h3, fun h => Or.inl ?_⟩
    rw [← h2]
    exact h
  | task_input r t =>
    cases hs
    refine Or.inr ⟨rfl, ?_, fun h => ?_⟩
    · unfold Task_Input
      dsimp only
      split_ifs
      · rw [Button_Debounce_isFanOn]
      · rfl
    · by_cases hr : r 3 = GPIO_PIN_SET
      · exact Or.inr (decide_eq_true hr)
      · left
        unfold Task_Input at h
        dsimp only at h
        split_ifs at h
        · have h' := Button_Debounce_mode_zero hal r _ hr h
          exact h'
        · exact h
  | task_display t =>
    have h1 := (Task_Display_some t s s1 hs).1
    exact Or.inr ⟨rfl, by rw [h1], fun h => Or.inl (by rw [← h1]; exact h)⟩

/-- A run that ends in mode OFF with the fan flag set either started so and
met no firing of `Task_Control`, or contains a POWER press that turned the
thermostat OFF while the fan was on, after which `Task_Control` has not fired
yet. -/
theorem run_fan_lag (hal : FlashHal) (line : WireLine) (evs : List Event) (s s' : Sys)
    (hs : run hal line s evs = some s')
    (hm : s'.thermostat_state.mode = 0) (hf : s'.thermostat_state.isFanOn ≠ 0) :
    (s.thermostat_state.mode = 0 ∧ s.thermostat_state.isFanOn ≠ 0 ∧
      control_fired hal line s evs = false) ∨
    ∃ pre ev post s1 s2, evs = pre ++ ev :: post ∧
      run hal line s pre = some s1 ∧ step hal line s1 ev = some s2 ∧
      carries_POWER_press ev = true ∧
      s1.thermostat_state.mode ≠ 0 ∧ s1.thermostat_state.isFanOn ≠ 0 ∧
      s2.thermostat_state.mode = 0 ∧
      s2.thermostat_state.isFanOn = s1.thermostat_state.isFanOn ∧
      run hal line s2 post = some s' ∧ control_fired hal line s2 post = false := by
  induction evs generalizing s with
  | nil =>
    cases hs
    exact Or.inl ⟨hm, hf, rfl⟩
  | cons ev rest ih =>
    obtain ⟨s1, h1, h2⟩ := run_cons_some hal line s s' ev rest hs
    rcases ih s1 h2 with ⟨hm1, hf1, hc1⟩ | ⟨pre, e, post, a, b, he, hr, hst, hp, ha1, ha2, hb1, hb2, hrp, hcp⟩
    · rcases step_fan_lag hal line s s1 ev h1 with ⟨_, hgood⟩ | ⟨hnf, hfan, hmode⟩
      · exact absurd (hgood hm1) hf1
      · rcases hmode hm1 with hm0 | hpow
        · left
          refine ⟨hm0, by rw [← hfan]; exact hf1, ?_⟩
          show (fires_Task_Control s ev ||
            match step hal line s ev with
            | some s1 => control_fired hal line s1 rest
            | none => false) = false
          rw [hnf, h1]
          exact hc1
        · by_cases hm0 : s.thermostat_state.mode = 0
          · left
            refine ⟨hm0, by rw [← hfan]; exact hf1, ?_⟩
            show (fires_Task_Control s ev ||
              match step hal line s ev with
              | some s1 => control_fired hal line s1 rest
              | none => false) = false
            rw [hnf, h1]
            exact hc1
          · right
            exact ⟨[], ev, rest, s, s1, rfl, rfl, h1, hpow, hm0, by rw [← hfan]; exact hf1,
              hm1, hfan, h2, hc1⟩
    · right
      refine ⟨ev :: pre, e, post, a, b, by rw [he]; rfl, ?_, hst, hp, ha1, ha2, hb1, hb2,
        hrp, hcp⟩
      show (match step hal line s ev with
        | some s1 => run hal line s1 pre
        | none => none) = some a
      rw [h1]
      exact hr

/-- C7, as stated, fails: from a state with mode OFF and the fan off (and a
reading of 30 against the setpoint 28), a POWER press, a firing of
`Task_Control` and a second POWER press lead to a state with mode OFF and the
fan flag still set. -/
theorem C7_fan_on_in_OFF_reachable :
    Sys.boot_warm.thermostat_state.mode = 0 ∧
    Sys.boot_warm.thermostat_state.isFanOn = 0 ∧
    ∃ s', run (fun _ => HAL_OK) (fun _ => GPIO_PIN_SET) Sys.boot_warm
        [Event.button_press 3, Event.task_control 100, Event.button_press 3] = some s' ∧
      s'.thermostat_state.mode = 0 ∧ s'.thermostat_state.isFanOn = 1 ∧
      ¬ fan_off_when_OFF s' := by
  refine ⟨rfl, rfl, _, rfl, by decide, by decide, ?_⟩
  intro h
  have h1 := h (by decide)
  revert h1
  decide

/-- C7, amended: the fan flag is clear whenever the mode is OFF in the state
left by every firing of `Task_Control`, from any state; an event met in a state
where the property holds keeps it unless it carries a POWER press that turns
the thermostat OFF while the fan is on; hence, in every state reached from a
state where the property holds, the mode is OFF with the fan flag set only
after a POWER press that turned the thermostat OFF while the fan was on and
before the next firing of `Task_Control`. -/
theorem C7_fan_off_when_OFF_amended (hal : FlashHal) (line : WireLine) (s : Sys)
    (h : fan_off_when_OFF s) :
    (∀ (s0 : Sys) (now : Nat), sub_u32 now s0.task_control_last_time ≥ 100 →
      fan_off_when_OFF (Task_Control now s0)) ∧
    (∀ ev s1, step hal line s ev = some s1 →
      fan_off_when_OFF s1 ∨
      (carries_POWER_press ev = true ∧ s.thermostat_state.mode ≠ 0 ∧
        s.thermostat_state.isFanOn ≠ 0 ∧ s1.thermostat_state.mode = 0 ∧
        s1.thermostat_state.isFanOn = s.thermostat_state.isFanOn)) ∧
    (∀ evs s', run hal line s evs = some s' →
      s'.thermostat_state.mode = 0 → s'.thermostat_state.isFanOn ≠ 0 →
      ∃ pre ev post s1 s2, evs = pre ++ ev :: post ∧
        run hal line s pre = some s1 ∧ step hal line s1 ev = some s2 ∧
        carries_POWER_press ev = true ∧
        s1.thermostat_state.mode ≠ 0 ∧ s1.thermostat_state.isFanOn ≠ 0 ∧
        s2.thermostat_state.mode = 0 ∧
        s2.thermostat_state.isFanOn = s1.thermostat_state.isFanOn ∧
        run hal line s2 post = some s' ∧ control_fired hal line s2 post = false) := by
  refine ⟨fun s0 now hdue => Task_Control_fan_off_when_OFF now s0 hdue, ?_, ?_⟩
  · intro ev s1 hs
    rcases step_fan_lag hal line s s1 ev hs with ⟨_, hgood⟩ | ⟨_, hfan, hmode⟩
    · exact Or.inl hgood
    · by_cases hv : s1.thermostat_state.mode = 0 ∧ s1.thermostat_state.isFanOn ≠ 0
      · right
        have hf : s.thermostat_state.isFanOn ≠ 0 := by rw [← hfan]; exact hv.2
        have hm0 : s.thermostat_state.mode ≠ 0 := fun e => hf (h e)
        rcases hmode hv.1 with e | hp
        · exact absurd e hm0
        · exact ⟨hp, hm0, hf, hv.1, hfan⟩
      · left
        intro hm
        by_contra hf
        exact hv ⟨hm, hf⟩
  · intro evs s' hs hm hf
    rcases run_fan_lag hal line evs s s' hs hm hf with ⟨hm0, hf0, _⟩ | hex
    · exact absurd (h hm0) hf0
    · exact hex

/-- Evaluation of the amended C7 on the run above: the state it reaches, in
mode OFF with the fan flag set, comes right after the second POWER press, made
in mode NORMAL with the fan on. -/
theorem C7_fan_off_when_OFF_amended_witness :
    ∃ pre ev post s1 s2,
      [Event.button_press 3, Event.task_control 100, Event.button_press 3]
        = pre ++ ev :: post ∧
      run (fun _ => HAL_OK) (fun _ => GPIO_PIN_SET) Sys.boot_warm pre = some s1 ∧
      step (fun _ => HAL_OK) (fun _ => GPIO_PIN_SET) s1 ev = some s2 ∧
      carries_POWER_press ev = true ∧
      s1.thermostat_state.mode ≠ 0 ∧ s1.thermostat_state.isFanOn ≠ 0 ∧
      s2.thermostat_state.mode = 0 ∧
      s2.thermostat_state.isFanOn = s1.thermostat_state.isFanOn ∧
      run (fun _ => HAL_OK) (fun _ => GPIO_PIN_SET) s2 post
        = some (Handle_Button_Press (fun _ => HAL_OK) 3 (Task_Control 100
            (Handle_Button_Press (fun _ => HAL_OK) 3 Sys.boot_warm))) ∧
      control_fired (fun _ => HAL_OK) (fun _ => GPIO_PIN_SET) s2 post = false :=
  (C7_fan_off_when_OFF_amended (fun _ => HAL_OK) (fun _ => GPIO_PIN_SET) Sys.boot_warm
    (fun _ => rfl)).2.2
    [Event.button_press 3, Event.task_control 100, Event.button_press 3]
    (Handle_Button_Press (fun _ => HAL_OK) 3 (Task_Control 100
      (Handle_Button_Press (fun _ => HAL_OK) 3 Sys.boot_warm)))
    rfl (by decide) (by decide)

/-! ## Button presses: modes and setpoint -/

/-- C11: a POWER press in mode OFF yields mode NORMAL, a SET press in mode
NORMAL yields mode SETTING, and a SET press in mode SETTING yields mode NORMAL;
in each case `setTemp`, `currentTemp` and `isFanOn` are unchanged. -/
theorem C11_mode_transitions (hal : FlashHal) (s : Sys) :
    (s.thermostat_state.mode = 0 →
      (Handle_Button_Press hal 3 s).thermostat_state.mode = 1 ∧
      (Handle_Button_Press hal 3 s).thermostat_state.setTemp = s.thermostat_state.setTemp ∧
      (Handle_Button_Press hal 3 s).thermostat_state.currentTemp
        = s.thermostat_state.currentTemp ∧
      (Handle_Button_Press hal 3 s).thermostat_state.isFanOn = s.thermostat_state.isFanOn) ∧
    (s.thermostat_state.mode = 1 →
      (Handle_Button_Press hal 2 s).thermostat_state.mode = 2 ∧
      (Handle_Button_Press hal 2 s).thermostat_state.setTemp = s.thermostat_state.setTemp ∧
      (Handle_Button_Press hal 2 s).thermostat_state.currentTemp
        = s.thermostat_state.currentTemp ∧
      (Handle_Button_Press hal 2 s).thermostat_state.isFanOn = s.thermostat_state.isFanOn) ∧
    (s.thermostat_state.mode = 2 →
      (Handle_Button_Press hal 2 s).thermostat_state.mode = 1 ∧
      (Handle_Button_Press hal 2 s).thermostat_state.setTemp = s.thermostat_state.setTemp ∧
      (Handle_Button_Press hal 2 s).thermostat_state.currentTemp
        = s.thermostat_state.currentTemp ∧
      (Handle_Button_Press hal 2 s).thermostat_state.isFanOn = s.thermostat_state.isFanOn) := by
  refine ⟨?_, ?_, ?_⟩ <;> intro h <;> simp [Handle_Button_Press, h]

/-- Evaluation of C11: POWER on the boot state (mode OFF), then SET twice. -/
theorem C11_mode_transitions_witness :
    (Handle_Button_Press (fun _ => HAL_OK) 3 Sys.boot).thermostat_state.mode = 1 ∧
    (Handle_Button_Press (fun _ => HAL_OK) 2 Sys.boot_normal).thermostat_state.mode = 2 ∧
    (Handle_Button_Press (fun _ => HAL_OK) 2 (Sys.boot_setting 28)).thermostat_state.mode = 1 :=
  ⟨((C11_mode_transitions (fun _ => HAL_OK) Sys.boot).1 rfl).1,
   ((C11_mode_transitions (fun _ => HAL_OK) Sys.boot_normal).2.1 rfl).1,
   ((C11_mode_transitions (fun _ => HAL_OK) (Sys.boot_setting 28)).2.2 rfl).1⟩

/-- C12, as stated, fails: a POWER press in mode SETTING is not a no-op, it
takes the mode from SETTING (2) directly to OFF (0). -/
theorem C12_power_in_SETTING_turns_OFF :
    (Sys.boot_setting 28).thermostat_state.mode = 2 ∧
    (Handle_Button_Press (fun _ => HAL_OK) 3 (Sys.boot_setting 28)).thermostat_state.mode = 0 := by
  decide

/-- C12, amended: no call of `Handle_Button_Press`, whatever the button id,
takes the mode from OFF to SETTING; the only one that takes it from SETTING to
OFF is the POWER press, and a POWER press in SETTING does set the mode to OFF;
UP, DOWN and SET leave a state in SETTING in SETTING or NORMAL. -/
theorem C12_mode_steps_amended (hal : FlashHal) (button_id : Nat) (s : Sys) :
    (s.thermostat_state.mode = 0 →
      (Handle_Button_Press hal button_id s).thermostat_state.mode ≠ 2) ∧
    (s.thermostat_state.mode = 2 →
      (Handle_Button_Press hal button_id s).thermostat_state.mode = 0 → button_id = 3) ∧
    (s.thermostat_state.mode = 2 →
      (Handle_Button_Press hal 3 s).thermostat_state.mode = 0) := by
  refine ⟨?_, ?_, ?_⟩
  · intro h
    unfold Handle_Button_Press
    split <;> simp [h]
  · intro h
    unfold Handle_Button_Press
    split <;> dsimp only <;> (try split_ifs) <;> simp_all
  · intro h
    simp [Handle_Button_Press, h]

/-- Evaluation of the amended C12 on the boot state in SETTING. -/
theorem C12_mode_steps_amended_witness :
    (Handle_Button_Press (fun _ => HAL_OK) 3 (Sys.boot_setting 28)).thermostat_state.mode = 0 ∧
    (Handle_Button_Press (fun _ => HAL_OK) 3 Sys.boot).thermostat_state.mode ≠ 2 :=
  ⟨(C12_mode_steps_amended (fun _ => HAL_OK) 3 (Sys.boot_setting 28)).2.2 rfl,
   (C12_mode_steps_amended (fun _ => HAL_OK) 3 Sys.boot).1 rfl⟩

/-- What an UP press does in mode SETTING below the upper limit. -/
theorem Handle_Button_Press_up (hal : FlashHal) (s : Sys)
    (hm : s.thermostat_state.mode = 2) (hlo : 10 ≤ s.thermostat_state.setTemp)
    (hhi : s.thermostat_state.setTemp < 50) :
    Handle_Button_Press hal 0 s
      = { s with
          thermostat_state :=
            { s.thermostat_state with setTemp := s.thermostat_state.setTemp + 1 },
          calls := s.calls ++ [Call.Handle_Button_Press 0] ++
            [Call.EEPROM_SaveSetpoint (s.thermostat_state.setTemp + 1)],
          eeprom := (EEPROM_SaveSetpoint hal (s.thermostat_state.setTemp + 1) s.eeprom).2 } := by
  have h8 : to_int8 (s.thermostat_state.setTemp + 1) = s.thermostat_state.setTemp + 1 :=
    to_int8_of_range _ (by omega)
  simp [Handle_Button_Press, hm, hhi, h8]

/-- What a DOWN press does in mode SETTING above the lower limit. -/
theorem Handle_Button_Press_down (hal : FlashHal) (s : Sys)
    (hm : s.thermostat_state.mode = 2) (hlo : 10 < s.thermostat_state.setTemp)
    (hhi : s.thermostat_state.setTemp ≤ 50) :
    Handle_Button_Press hal 1 s
      = { s with
          thermostat_state :=
            { s.thermostat_state with setTemp := s.thermostat_state.setTemp - 1 },
          calls := s.calls ++ [Call.Handle_Button_Press 1] ++
            [Call.EEPROM_SaveSetpoint (s.thermostat_state.setTemp - 1)],
          eeprom := (EEPROM_SaveSetpoint hal (s.thermostat_state.setTemp - 1) s.eeprom).2 } := by
  have h8 : to_int8 (s.thermostat_state.setTemp - 1) = s.thermostat_state.setTemp - 1 :=
    to_int8_of_range _ (by omega)
  simp [Handle_Button_Press, hm, hlo, h8]

/-- An UP press at the upper limit and a DOWN press at the lower limit only
record the call of the handler. -/
theorem Handle_Button_Press_at_limit (hal : FlashHal) (s : Sys) :
    (¬ s.thermostat_state.setTemp < 50 →
      Handle_Button_Press hal 0 s
        = { s with calls := s.calls ++ [Call.Handle_Button_Press 0] }) ∧
    (¬ s.thermostat_state.setTemp > 10 →
      Handle_Button_Press hal 1 s
        = { s with calls := s.calls ++ [Call.Handle_Button_Press 1] }) := by
  constructor <;> intro h <;> simp [Handle_Button_Press, h]

/-- C13: in mode SETTING with `setTemp = s` in `[10, 50]`, an UP press leaves
`setTemp = min (s + 1) 50` and a DOWN press leaves `setTemp = max (s - 1) 10`;
`mode`, `currentTemp` and `isFanOn` are unchanged by both. -/
theorem C13_setpoint_adjustment (hal : FlashHal) (s : Sys)
    (hm : s.thermostat_state.mode = 2)
    (hr : 10 ≤ s.thermostat_state.setTemp ∧ s.thermostat_state.setTemp ≤ 50) :
    (Handle_Button_Press hal 0 s).thermostat_state
      = { s.thermostat_state with setTemp := min (s.thermostat_state.setTemp + 1) 50 } ∧
    (Handle_Button_Press hal 1 s).thermostat_state
      = { s.thermostat_state with setTemp := max (s.thermostat_state.setTemp - 1) 10 } := by
  constructor
  · by_cases h : s.thermostat_state.setTemp < 50
    · rw [Handle_Button_Press_up hal s hm hr.1 h]
      have : min (s.thermostat_state.setTemp + 1) 50 = s.thermostat_state.setTemp + 1 := by
        omega
      rw [this]
    · rw [(Handle_Button_Press_at_limit hal s).1 h]
      have : min (s.thermostat_state.setTemp + 1) 50 = s.thermostat_state.setTemp := by omega
      rw [this]
  · by_cases h : 10 < s.thermostat_state.setTemp
    · rw [Handle_Button_Press_down hal s hm h hr.2]
      have : max (s.thermostat_state.setTemp - 1) 10 = s.thermostat_state.setTemp - 1 := by
        omega
      rw [this]
    · rw [(Handle_Button_Press_at_limit hal s).2 h]
      have : max (s.thermostat_state.setTemp - 1) 10 = s.thermostat_state.setTemp := by omega
      rw [this]

/-- Evaluation of C13 in SETTING at the upper limit 50. -/
theorem C13_setpoint_adjustment_witness :
    (Handle_Button_Press (fun _ => HAL_OK) 0 (Sys.boot_setting 50)).thermostat_state
      = { (Sys.boot_setting 50).thermostat_state with setTemp := min (50 + 1) 50 } ∧
    (Handle_Button_Press (fun _ => HAL_OK) 1 (Sys.boot_setting 50)).thermostat_state
      = { (Sys.boot_setting 50).thermostat_state with setTemp := max (50 - 1) 10 } :=
  C13_setpoint_adjustment (fun _ => HAL_OK) (Sys.boot_setting 50) rfl ⟨by decide, by decide⟩

/-- C14, as stated, fails at the limits: an UP press in SETTING at
`setTemp = 50` and a DOWN press in SETTING at `setTemp = 10` make no call of
`EEPROM_SaveSetpoint` and issue no request to the flash controller. -/
theorem C14_no_save_at_limit :
    save_calls (Handle_Button_Press (fun _ => HAL_OK) 0 (Sys.boot_setting 50)) = [] ∧
    (Handle_Button_Press (fun _ => HAL_OK) 0 (Sys.boot_setting 50)).eeprom.flash.ops = [] ∧
    save_calls (Handle_Button_Press (fun _ => HAL_OK) 1 (Sys.boot_setting 10)) = [] ∧
    (Handle_Button_Press (fun _ => HAL_OK) 1 (Sys.boot_setting 10)).eeprom.flash.ops = [] := by
  decide

/-- C14, amended: in mode SETTING with `setTemp` in `[10, 50]`, an UP press
made at `setTemp < 50` and a DOWN press made at `setTemp > 10` make exactly one
call of `EEPROM_SaveSetpoint`, with the resulting `setTemp` as argument, and
the store is left as that call leaves it; an UP press at 50 and a DOWN press at
10 make no call and leave the store as it was. -/
theorem C14_save_per_press_amended (hal : FlashHal) (s : Sys)
    (hm : s.thermostat_state.mode = 2)
    (hr : 10 ≤ s.thermostat_state.setTemp ∧ s.thermostat_state.setTemp ≤ 50) :
    (s.thermostat_state.setTemp < 50 →
      save_calls (Handle_Button_Press hal 0 s)
        = save_calls s ++ [(Handle_Button_Press hal 0 s).thermostat_state.setTemp] ∧
      (Handle_Button_Press hal 0 s).thermostat_state.setTemp = s.thermostat_state.setTemp + 1 ∧
      (Handle_Button_Press hal 0 s).eeprom
        = (EEPROM_SaveSetpoint hal (s.thermostat_state.setTemp + 1) s.eeprom).2) ∧
    (s.thermostat_state.setTemp = 50 →
      save_calls (Handle_Button_Press hal 0 s) = save_calls s ∧
      (Handle_Button_Press hal 0 s).eeprom = s.eeprom) ∧
    (10 < s.thermostat_state.setTemp →
      save_calls (Handle_Button_Press hal 1 s)
        = save_calls s ++ [(Handle_Button_Press hal 1 s).thermostat_state.setTemp] ∧
      (Handle_Button_Press hal 1 s).thermostat_state.setTemp = s.thermostat_state.setTemp - 1 ∧
      (Handle_Button_Press hal 1 s).eeprom
        = (EEPROM_SaveSetpoint hal (s.thermostat_state.setTemp - 1) s.eeprom).2) ∧
    (s.thermostat_state.setTemp = 10 →
      save_calls (Handle_Button_Press hal 1 s) = save_calls s ∧
      (Handle_Button_Press hal 1 s).eeprom = s.eeprom) := by
  refine ⟨?_, ?_, ?_, ?_⟩
  · intro h
    rw [Handle_Button_Press_up hal s hm hr.1 h]
    simp [save_calls, List.filterMap_append]
  · intro h
    rw [(Handle_Button_Press_at_limit hal s).1 (by omega)]
    simp [save_calls, List.filterMap_append]
  · intro h
    rw [Handle_Button_Press_down hal s hm h hr.2]
    simp [save_calls, List.filterMap_append]
  · intro h
    rw [(Handle_Button_Press_at_limit hal s).2 (by omega)]
    simp [save_calls, List.filterMap_append]

/-- Evaluation of the amended C14 in SETTING at setpoint 28: the UP press
records one call of `EEPROM_SaveSetpoint 29`. -/
theorem C14_save_per_press_amended_witness :
    save_calls (Handle_Button_Press (fun _ => HAL_OK) 0 (Sys.boot_setting 28))
      = save_calls (Sys.boot_setting 28) ++
        [(Handle_Button_Press (fun _ => HAL_OK) 0 (Sys.boot_setting 28)).thermostat_state.setTemp] ∧
    (Handle_Button_Press (fun _ => HAL_OK) 0 (Sys.boot_setting 28)).thermostat_state.setTemp
      = 28 + 1 :=
  ⟨((C14_save_per_press_amended (fun _ => HAL_OK) (Sys.boot_setting 28) rfl
      ⟨by decide, by decide⟩).1 (by decide)).1,
   ((C14_save_per_press_amended (fun _ => HAL_OK) (Sys.boot_setting 28) rfl
      ⟨by decide, by decide⟩).1 (by decide)).2.1⟩

/-! ## The scheduler -/

theorem sub_u32_wrap (last e : Nat) (hl : last < 2 ^ 32) (he : e < 2 ^ 32) :
    sub_u32 ((last + e) % 2 ^ 32) last = e := by
  unfold sub_u32
  omega

theorem sub_u32_eq_emod (now last : Nat) (hn : now < 2 ^ 32) (hl : last < 2 ^ 32) :
    (sub_u32 now last : Int) = ((now : Int) - (last : Int)) % 2 ^ 32 := by
  unfold sub_u32
  omega

theorem Handle_Button_Press_task_input_last_time (hal : FlashHal) (id : Nat) (s : Sys) :
    (Handle_Button_Press hal id s).task_input_last_time = s.task_input_last_time := by
  unfold Handle_Button_Press
  split <;> dsimp only <;> (try split_ifs) <;> rfl

theorem Button_Debounce_iter_task_input_last_time (hal : FlashHal)
    (r : Fin 4 → GPIO_PinState) (s : Sys) (i : Fin 4) :
    (Button_Debounce_iter hal r s i).task_input_last_time = s.task_input_last_time := by
  unfold Button_Debounce_iter
  dsimp only
  split_ifs
  · rw [Handle_Button_Press_task_input_last_time]
  · rfl
  · rfl
  · rfl

theorem Button_Debounce_task_input_last_time (hal : FlashHal) (r : Fin 4 → GPIO_PinState)
    (s : Sys) : (Button_Debounce hal r s).task_input_last_time = s.task_input_last_time := by
  rw [Button_Debounce_eq, Button_Debounce_iter_task_input_last_time,
    Button_Debounce_iter_task_input_last_time, Button_Debounce_iter_task_input_last_time,
    Button_Debounce_iter_task_input_last_time]

/-! ## Faults of the flash controller -/

theorem EEPROM_Erase_eq_SaveSetpoint (hal : FlashHal) (x : Int) (e : Eeprom) :
    EEPROM_Erase hal x e = EEPROM_SaveSetpoint hal x e := rfl

/-- The status and the requests of the erase followed by the write of record
`d`, when the request number `k` (0 for the erase, 1 to 4 for the programs) is
the first one that fails. -/
theorem EEPROM_store_first_failure (hal : FlashHal) (d : EEPROMData_t) (f : Flash)
    (k : Nat) (hk : k < 5)
    (hpre : ∀ i, i < k → hal (f.ops.length + i) = HAL_OK)
    (hfail : hal (f.ops.length + k) ≠ HAL_OK) :
    ((EEPROM_ErasePage hal f).1 ≠ HAL_OK ∨
      (EEPROM_WriteFlash hal EEPROM_START_ADDR d.bytes sizeof_EEPROMData_t
        (EEPROM_ErasePage hal f).2).1 = HAL_ERROR) ∧
    (if (EEPROM_ErasePage hal f).1 ≠ HAL_OK then (EEPROM_ErasePage hal f).2
     else (EEPROM_WriteFlash hal EEPROM_START_ADDR d.bytes sizeof_EEPROMData_t
        (EEPROM_ErasePage hal f).2).2).ops = f.ops ++ (record_requests d).take (k + 1) := by
  obtain ⟨l0, l1, l2, l3, l4, l5, l6, l7⟩ :
      d.magic % 256 < 256 ∧ d.magic / 256 % 256 < 256 ∧ d.magic / 65536 % 256 < 256 ∧
      d.magic / 16777216 % 256 < 256 ∧ byte_of_int8 d.setTemp < 256 ∧ d.pad % 256 < 256 ∧
      d.crc % 256 < 256 ∧ d.crc / 256 % 256 < 256 := by
    unfold byte_of_int8; omega
  have e01 := halfword_eq _ _ l0 l1
  have e23 := halfword_eq _ _ l2 l3
  have e45 := halfword_eq _ _ l4 l5
  have e67 := halfword_eq _ _ l6 l7
  interval_cases k
  · simp only [Nat.add_zero] at hfail
    simp [EEPROM_ErasePage, HAL_FLASHEx_Erase, hfail, record_requests]
  · have h0 := hpre 0 (by omega)
    simp only [Nat.add_zero] at h0
    simp [EEPROM_ErasePage, HAL_FLASHEx_Erase, EEPROM_WriteFlash, EEPROM_WriteFlash_loop,
      HAL_FLASH_Program, h0, hfail, sizeof_EEPROMData_t, List.range_succ, record_requests,
      EEPROMData_t.bytes, e01, e23, e45, e67]
  · have h0 := hpre 0 (by omega)
    have h1 := hpre 1 (by omega)
    simp only [Nat.add_zero] at h0
    simp [EEPROM_ErasePage, HAL_FLASHEx_Erase, EEPROM_WriteFlash, EEPROM_WriteFlash_loop,
      HAL_FLASH_Program, h0, h1, hfail, sizeof_EEPROMData_t, List.range_succ, record_requests,
      EEPROMData_t.bytes, e01, e23, e45, e67]
  · have h0 := hpre 0 (by omega)
    have h1 := hpre 1 (by omega)
    have h2 := hpre 2 (by omega)
    simp only [Nat.add_zero] at h0
    simp [EEPROM_ErasePage, HAL_FLASHEx_Erase, EEPROM_WriteFlash, EEPROM_WriteFlash_loop,
      HAL_FLASH_Program, h0, h1, h2, hfail, sizeof_EEPROMData_t, List.range_succ,
      record_requests, EEPROMData_t.bytes, e01, e23, e45, e67]
  · have h0 := hpre 0 (by omega)
    have h1 := hpre 1 (by omega)
    have h2 := hpre 2 (by omega)
    have h3 := hpre 3 (by omega)
    simp only [Nat.add_zero] at h0
    simp [EEPROM_ErasePage, HAL_FLASHEx_Erase, EEPROM_WriteFlash, EEPROM_WriteFlash_loop,
      HAL_FLASH_Program, h0, h1, h2, h3, hfail, sizeof_EEPROMData_t, List.range_succ,
      record_requests, EEPROMData_t.bytes, e01, e23, e45, e67]

/-- The status and the requests of the erase followed by the write of record
`d`, when the five requests succeed. -/
theorem EEPROM_store_all_ok (hal : FlashHal) (d : EEPROMData_t) (f : Flash)
    (hok : ∀ i, i < 5 → hal (f.ops.length + i) = HAL_OK) :
    (EEPROM_ErasePage hal f).1 = HAL_OK ∧
    (EEPROM_WriteFlash hal EEPROM_START_ADDR d.bytes sizeof_EEPROMData_t
      (EEPROM_ErasePage hal f).2).1 = HAL_OK ∧
    (EEPROM_WriteFlash hal EEPROM_START_ADDR d.bytes sizeof_EEPROMData_t
      (EEPROM_ErasePage hal f).2).2.ops = f.ops ++ record_requests d := by
  obtain ⟨l0, l1, l2, l3, l4, l5, l6, l7⟩ :
      d.magic % 256 < 256 ∧ d.magic / 256 % 256 < 256 ∧ d.magic / 65536 % 256 < 256 ∧
      d.magic / 16777216 % 256 < 256 ∧ byte_of_int8 d.setTemp < 256 ∧ d.pad % 256 < 256 ∧
      d.crc % 256 < 256 ∧ d.crc / 256 % 256 < 256 := by
    unfold byte_of_int8; omega
  have e01 := halfword_eq _ _ l0 l1
  have e23 := halfword_eq _ _ l2 l3
  have e45 := halfword_eq _ _ l4 l5
  have e67 := halfword_eq _ _ l6 l7
  have h0 := hok 0 (by omega)
  have h1 := hok 1 (by omega)
  have h2 := hok 2 (by omega)
  have h3 := hok 3 (by omega)
  have h4 := hok 4 (by omega)
  simp only [Nat.add_zero] at h0
  simp [EEPROM_ErasePage, HAL_FLASHEx_Erase, EEPROM_WriteFlash, EEPROM_WriteFlash_loop,
    HAL_FLASH_Program, h0, h1, h2, h3, h4, sizeof_EEPROMData_t, List.range_succ,
    record_requests, EEPROMData_t.bytes, e01, e23, e45, e67]

theorem EEPROM_SaveSetpoint_first_failure (hal : FlashHal) (e : Eeprom) (x : Int)
    (hx : 10 ≤ x ∧ x ≤ 50) (k : Nat) (hk : k < 5)
    (hpre : ∀ i, i < k → hal (e.flash.ops.length + i) = HAL_OK)
    (hfail : hal (e.flash.ops.length + k) ≠ HAL_OK) :
    (EEPROM_SaveSetpoint hal x e).1 = HAL_ERROR ∧
    (EEPROM_SaveSetpoint hal x e).2.flash.ops
      = e.flash.ops ++ (record_requests (eeprom_data_update e.eeprom_data x)).take (k + 1) := by
  obtain ⟨h1, h2⟩ := EEPROM_store_first_failure hal (eeprom_data_update e.eeprom_data x)
    e.flash k hk hpre hfail
  have hr : ¬ (x < 10 ∨ x > 50) := by omega
  unfold EEPROM_SaveSetpoint
  rw [if_neg hr]
  dsimp only
  by_cases he : (EEPROM_ErasePage hal e.flash).1 ≠ HAL_OK
  · rw [if_pos he] at h2 ⊢
    exact ⟨rfl, h2⟩
  · rw [if_neg he] at h2 ⊢
    rcases h1 with h1 | h1
    · exact absurd h1 he
    · exact ⟨h1, h2⟩

theorem EEPROM_SaveSetpoint_all_ok (hal : FlashHal) (e : Eeprom) (x : Int)
    (hx : 10 ≤ x ∧ x ≤ 50) (hok : ∀ i, i < 5 → hal (e.flash.ops.length + i) = HAL_OK) :
    (EEPROM_SaveSetpoint hal x e).1 = HAL_OK ∧
    (EEPROM_SaveSetpoint hal x e).2.flash.ops
      = e.flash.ops ++ record_requests (eeprom_data_update e.eeprom_data x) := by
  obtain ⟨h1, h2, h3⟩ := EEPROM_store_all_ok hal (eeprom_data_update e.eeprom_data x)
    e.flash hok
  have hr : ¬ (x < 10 ∨ x > 50) := by omega
  unfold EEPROM_SaveSetpoint
  rw [if_neg hr]
  dsimp only
  rw [if_neg (by rw [h1]; simp)]
  exact ⟨h2, h3⟩

/-- The first failing request among five, if any. -/
theorem first_failure_exists (hal : FlashHal) (n : Nat)
    (h : ¬ ∀ i, i < 5 → hal (n + i) = HAL_OK) :
    ∃ k, k < 5 ∧ (∀ i, i < k → hal (n + i) = HAL_OK) ∧ hal (n + k) ≠ HAL_OK := by
  by_cases h0 : hal (n + 0) = HAL_OK
  · by_cases h1 : hal (n + 1) = HAL_OK
    · by_cases h2 : hal (n + 2) = HAL_OK
      · by_cases h3 : hal (n + 3) = HAL_OK
        · by_cases h4 : hal (n + 4) = HAL_OK
          · exfalso; apply h; intro i hi
            interval_cases i <;> assumption
          · exact ⟨4, by omega, fun i hi => by interval_cases i <;> assumption, h4⟩
        · exact ⟨3, by omega, fun i hi => by interval_cases i <;> assumption, h3⟩
      · exact ⟨2, by omega, fun i hi => by interval_cases i <;> assumption, h2⟩
    · exact ⟨1, by omega, fun i hi => by interval_cases i; assumption, h1⟩
  · exact ⟨0, by omega, fun i hi => by omega, h0⟩

/-- C20: for every setpoint `x` in `[10, 50]`, with `n` requests issued before
the call: if the page erase (request `n`) fails, `EEPROM_SaveSetpoint` returns
`HAL_ERROR` having issued the erase and no program request; if the erase
succeeds and program `j` (request `n + 1 + j`) is the first to fail, it returns
`HAL_ERROR` having issued the erase and the programs `0..j` and no further
one; and it returns `HAL_OK` exactly when the erase and the four programs
succeed. -/
theorem C20_fault_propagation (hal : FlashHal) (e : Eeprom) (x : Int)
    (hx : 10 ≤ x ∧ x ≤ 50) :
    (hal e.flash.ops.length ≠ HAL_OK →
      (EEPROM_SaveSetpoint hal x e).1 = HAL_ERROR ∧
      (EEPROM_SaveSetpoint hal x e).2.flash.ops
        = e.flash.ops ++ [FlashOp.erase EEPROM_START_ADDR 1]) ∧
    (∀ j, j < 4 → hal e.flash.ops.length = HAL_OK →
      (∀ i, i < j → hal (e.flash.ops.length + 1 + i) = HAL_OK) →
      hal (e.flash.ops.length + 1 + j) ≠ HAL_OK →
      (EEPROM_SaveSetpoint hal x e).1 = HAL_ERROR ∧
      (EEPROM_SaveSetpoint hal x e).2.flash.ops
        = e.flash.ops ++ (record_requests (eeprom_data_update e.eeprom_data x)).take (j + 2)) ∧
    ((EEPROM_SaveSetpoint hal x e).1 = HAL_OK ↔
      ∀ i, i < 5 → hal (e.flash.ops.length + i) = HAL_OK) ∧
    ((EEPROM_SaveSetpoint hal x e).1 = HAL_OK →
      (EEPROM_SaveSetpoint hal x e).2.flash.ops
        = e.flash.ops ++ record_requests (eeprom_data_update e.eeprom_data x)) := by
  have key : (EEPROM_SaveSetpoint hal x e).1 = HAL_OK ↔
      ∀ i, i < 5 → hal (e.flash.ops.length + i) = HAL_OK := by
    constructor
    · intro hs
      by_contra hn
      obtain ⟨k, hk, hpre, hfail⟩ := first_failure_exists hal e.flash.ops.length hn
      have := (EEPROM_SaveSetpoint_first_failure hal e x hx k hk hpre hfail).1
      rw [this] at hs
      cases hs
    · intro hok
      exact (EEPROM_SaveSetpoint_all_ok hal e x hx hok).1
  refine ⟨?_, ?_, key, ?_⟩
  · intro h
    exact EEPROM_SaveSetpoint_first_failure hal e x hx 0 (by omega) (fun i hi => by omega) h
  · intro j hj h0 hpre hfail
    have := EEPROM_SaveSetpoint_first_failure hal e x hx (j + 1) (by omega)
      (fun i hi => by
        rcases Nat.eq_zero_or_pos i with h | h
        · subst h; exact h0
        · have := hpre (i - 1) (by omega)
          have e1 : e.flash.ops.length + 1 + (i - 1) = e.flash.ops.length + i := by omega
          rw [e1] at this; exact this)
      (by
        have e1 : e.flash.ops.length + (j + 1) = e.flash.ops.length + 1 + j := by omega
        rw [e1]; exact hfail)
    exact this
  · intro hs
    exact (EEPROM_SaveSetpoint_all_ok hal e x hx (key.1 hs)).2

/-- Evaluation of C20 on an erased page when the second half-word program
(request 2) fails: the call returns `HAL_ERROR` after the erase and two
programs. -/
theorem C20_fault_propagation_witness :
    (EEPROM_SaveSetpoint (fun k => if k = 2 then HAL_ERROR else HAL_OK) 25 Sys.boot.eeprom).1
      = HAL_ERROR ∧
    (EEPROM_SaveSetpoint (fun k => if k = 2 then HAL_ERROR else HAL_OK) 25
      Sys.boot.eeprom).2.flash.ops
      = Sys.boot.eeprom.flash.ops ++
        (record_requests (eeprom_data_update Sys.boot.eeprom.eeprom_data 25)).take (1 + 2) :=
  (C20_fault_propagation (fun k => if k = 2 then HAL_ERROR else HAL_OK) Sys.boot.eeprom 25
    (by decide)).2.1 1 (by decide) (by decide)
    (fun i hi => by interval_cases i; decide) (by decide)

/-- C19, as stated, fails: for the default 0, a signed 8-bit value outside
`[10, 50]`, `EEPROM_Erase` returns `HAL_ERROR` although every request would
succeed; it issues no request and leaves the page, here erased and holding no
magic number, as it was. -/
theorem C19_erase_rejects_default :
    EEPROM_Erase (fun _ => HAL_OK) 0 Sys.boot.eeprom = (HAL_ERROR, Sys.boot.eeprom) ∧
    (EEPROM_Erase (fun _ => HAL_OK) 0 Sys.boot.eeprom).2.flash.ops = [] ∧
    (flash_data (EEPROM_Erase (fun _ => HAL_OK) 0 Sys.boot.eeprom).2.flash.page).magic
      ≠ 0xDEADBEEF := by
  decide

/-- C19, amended: for every default `d` in `[10, 50]`, when the requests
issued succeed, `EEPROM_Erase d` returns `HAL_OK`, issues the page erase
followed by the four half-word programs, and leaves on the page the magic
number `0xDEADBEEF`, the setpoint `d` and the CRC16 of the six bytes before
the crc field; for every `d` outside `[10, 50]` it returns `HAL_ERROR` and
leaves the store as it was. -/
theorem C19_erase_amended (hal : FlashHal) (e : Eeprom) (d : Int) :
    (10 ≤ d ∧ d ≤ 50 → (∀ k, e.flash.ops.length ≤ k → hal k = HAL_OK) →
      (EEPROM_Erase hal d e).1 = HAL_OK ∧
      (EEPROM_Erase hal d e).2.flash.ops
        = e.flash.ops ++ record_requests (eeprom_data_update e.eeprom_data d) ∧
      (flash_data (EEPROM_Erase hal d e).2.flash.page).magic = 0xDEADBEEF ∧
      (flash_data (EEPROM_Erase hal d e).2.flash.page).setTemp = d ∧
      (flash_data (EEPROM_Erase hal d e).2.flash.page).crc
        = EEPROM_CRC16 (EEPROM_Erase hal d e).2.flash.page 6) ∧
    (d < 10 ∨ d > 50 → EEPROM_Erase hal d e = (HAL_ERROR, e)) := by
  rw [EEPROM_Erase_eq_SaveSetpoint]
  constructor
  · intro hd hok
    obtain ⟨h1, h2⟩ := EEPROM_SaveSetpoint_ok hal e d hd hok
    have h3 := (EEPROM_SaveSetpoint_all_ok hal e d hd (fun i _ => hok _ (by omega))).2
    have hc : (eeprom_data_update e.eeprom_data d).crc < 65536 := by
      rw [eeprom_data_update_crc]; exact EEPROM_CRC16_lt _ _
    have hfd := flash_data_page_of (eeprom_data_update e.eeprom_data d)
      (by rw [eeprom_data_update_magic]; norm_num) hc
    have h6 : sizeof_EEPROMData_t - sizeof_uint16_t = 6 := rfl
    have hcrc := EEPROM_CRC16_page_of (eeprom_data_update e.eeprom_data d)
    rw [h6] at hcrc
    refine ⟨h1, h3, ?_, ?_, ?_⟩
    · rw [h2, hfd]; rfl
    · rw [h2, hfd]
      exact int8_of_byte_of_int8 d (by omega)
    · rw [h2, hfd, hcrc]
      have := eeprom_data_update_crc e.eeprom_data d
      rw [h6] at this
      exact this
  · intro hd
    simp [EEPROM_SaveSetpoint, hd]

/-- Evaluation of the amended C19 on an erased page with the default 28. -/
theorem C19_erase_amended_witness :
    (EEPROM_Erase (fun _ => HAL_OK) 28 Sys.boot.eeprom).1 = HAL_OK ∧
    (flash_data (EEPROM_Erase (fun _ => HAL_OK) 28 Sys.boot.eeprom).2.flash.page).setTemp = 28 :=
  ⟨((C19_erase_amended (fun _ => HAL_OK) Sys.boot.eeprom 28).1 (by decide) (fun _ _ => rfl)).1,
   ((C19_erase_amended (fun _ => HAL_OK) Sys.boot.eeprom 28).1 (by decide)
      (fun _ _ => rfl)).2.2.2.1⟩

/-! ## The one-wire driver -/

theorem Wire.emit_reads (w : Wire) (op : WireOp) : (w.emit op).reads = w.reads := rfl

theorem DS18B20_Start_reads (line : WireLine) (w : Wire) :
    (DS18B20_Start line w).2.reads = w.reads + 1 := rfl

theorem DS18B20_Write_bit_reads (data : Nat) (w : Wire) (i : Nat) :
    (DS18B20_Write_bit data w i).reads = w.reads := by
  unfold DS18B20_Write_bit
  split_ifs <;> rfl

theorem DS18B20_Write_bits_reads (data : Nat) (l : List Nat) (w : Wire) :
    (l.foldl (DS18B20_Write_bit data) w).reads = w.reads := by
  induction l generalizing w with
  | nil => rfl
  | cons i t ih => rw [List.foldl_cons, ih, DS18B20_Write_bit_reads]

theorem DS18B20_Write_reads (data : Nat) (w : Wire) :
    (DS18B20_Write data w).reads = w.reads := by
  unfold DS18B20_Write
  rw [DS18B20_Write_bits_reads]
  rfl

theorem or_bit_eq_add (v n : Nat) (hv : v < 2 ^ n) (hn : n < 8) :
    (v ||| (1 <<< n)) % 2 ^ 8 = v + 2 ^ n := by
  have h := Nat.mul_add_lt_is_or hv 1
  rw [Nat.mul_one] at h
  rw [Nat.shiftLeft_eq, Nat.one_mul, Nat.or_comm, ← h]
  have h1 : 2 ^ n * 2 ≤ 2 ^ 8 := by
    rw [← pow_succ]
    exact Nat.pow_le_pow_right (by norm_num) (by omega)
  rw [Nat.mod_eq_of_lt (by omega), Nat.add_comm]

/-- The first `n` slots of `DS18B20_Read`: the bits sampled so far and the
number of samples taken. -/
theorem DS18B20_Read_bits (line : WireLine) (w : Wire) (n : Nat) (hn : n ≤ 8) :
    ((List.range n).foldl (DS18B20_Read_bit line) (0, w)).1
      = (List.range n).foldl
          (fun v i => if line (w.reads + i) = GPIO_PIN_SET then v + 2 ^ i else v) 0 ∧
    ((List.range n).foldl (DS18B20_Read_bit line) (0, w)).1 < 2 ^ n ∧
    ((List.range n).foldl (DS18B20_Read_bit line) (0, w)).2.reads = w.reads + n := by
  induction n with
  | zero => exact ⟨rfl, by norm_num, rfl⟩
  | succ n ih =>
    obtain ⟨h1, h2, h3⟩ := ih (by omega)
    rw [List.range_succ, List.foldl_append, List.foldl_append]
    simp only [List.foldl_cons, List.foldl_nil]
    rw [← h1]
    have hs : (DS18B20_Read_bit line ((List.range n).foldl (DS18B20_Read_bit line) (0, w)) n).2.reads
        = ((List.range n).foldl (DS18B20_Read_bit line) (0, w)).2.reads + 1 := rfl
    have hv : (DS18B20_Read_bit line ((List.range n).foldl (DS18B20_Read_bit line) (0, w)) n).1
        = (if line ((List.range n).foldl (DS18B20_Read_bit line) (0, w)).2.reads = GPIO_PIN_SET
           then (((List.range n).foldl (DS18B20_Read_bit line) (0, w)).1 ||| (1 <<< n)) % 2 ^ 8
           else ((List.range n).foldl (DS18B20_Read_bit line) (0, w)).1) := rfl
    rw [hs, hv, h3]
    have hp : (2 : Nat) ^ (n + 1) = 2 ^ n + 2 ^ n := by rw [pow_succ]; omega
    refine ⟨?_, ?_, by omega⟩
    · split_ifs
      · exact or_bit_eq_add _ _ h2 (by omega)
      · rfl
    · split_ifs
      · rw [or_bit_eq_add _ _ h2 (by omega)]; omega
      · omega

/-- The function `DS18B20_Read` returns the byte whose bit `i` is the level of
its `i`-th sample, and takes eight samples. -/
theorem DS18B20_Read_eq (line : WireLine) (w : Wire) :
    (DS18B20_Read line w).1 = byte_of_levels (fun i => line (w.reads + i)) ∧
    (DS18B20_Read line w).1 < 256 ∧
    (DS18B20_Read line w).2.reads = w.reads + 8 := by
  obtain ⟨h1, h2, h3⟩ := DS18B20_Read_bits line (w.emit WireOp.Set_Pin_Input) 8 (le_refl _)
  exact ⟨h1, h2, h3⟩

/-- The function `DS18B20_GetTemp` returns the unsigned value of the two bytes
read, `256 * h + l`, divided by 16; `l` is made of the samples 1 to 8 after the
presence sample and `h` of the samples 9 to 16. -/
theorem DS18B20_GetTemp_eq (line : WireLine) (w : Wire) :
    (DS18B20_GetTemp line w).1
      = ((256 * byte_of_levels (fun i => line (w.reads + 9 + i))
          + byte_of_levels (fun i => line (w.reads + 1 + i)) : Nat) : ℚ) / 16 := by
  have hw : (DS18B20_Write 0xBE (DS18B20_Write 0xCC (DS18B20_Start line w).2)).reads
      = w.reads + 1 := by
    rw [DS18B20_Write_reads, DS18B20_Write_reads, DS18B20_Start_reads]
  obtain ⟨l1, l2, l3⟩ := DS18B20_Read_eq line
    (DS18B20_Write 0xBE (DS18B20_Write 0xCC (DS18B20_Start line w).2))
  obtain ⟨h1, h2, _⟩ := DS18B20_Read_eq line (DS18B20_Read line
    (DS18B20_Write 0xBE (DS18B20_Write 0xCC (DS18B20_Start line w).2))).2
  rw [l3, hw] at h1
  rw [hw] at l1
  have e9 : ∀ i, w.reads + 1 + 8 + i = w.reads + 9 + i := fun i => by omega
  simp only [e9] at h1
  have ht : (DS18B20_GetTemp line w).1
      = ((((DS18B20_Read line (DS18B20_Read line
            (DS18B20_Write 0xBE (DS18B20_Write 0xCC (DS18B20_Start line w).2))).2).1 <<< 8 |||
          (DS18B20_Read line
            (DS18B20_Write 0xBE (DS18B20_Write 0xCC (DS18B20_Start line w).2))).1) % 2 ^ 16 : Nat)
          : ℚ) / 16 := rfl
  rw [ht, Nat.or_comm]
  have := halfword_eq _ _ l2 h2
  norm_num only at this ⊢
  rw [this, l1, h1, Nat.add_comm]

theorem sensor_line_bytes_F8_FF :
    byte_of_levels (fun i => sensor_line 0xF8 0xFF (0 + 1 + i)) = 0xF8 ∧
    byte_of_levels (fun i => sensor_line 0xF8 0xFF (0 + 9 + i)) = 0xFF := by
  decide

theorem sensor_line_bytes_91_01 :
    byte_of_levels (fun i => sensor_line 0x91 0x01 (0 + 1 + i)) = 0x91 ∧
    byte_of_levels (fun i => sensor_line 0x91 0x01 (0 + 9 + i)) = 0x01 := by
  decide

/-- C18: `DS18B20_GetTemp` divides by 16 the unsigned value `256 * h + l` of
the two bytes read, not their signed two's-complement value.  For the bytes
`l = 0xF8`, `h = 0xFF` sent by the sensor it returns 4095.5, where the signed
value divided by 16 is -0.5; for `l = 0x91`, `h = 0x01` it returns 25.0625. -/
theorem C18_temperature_decoded_unsigned :
    (∀ (line : WireLine) (w : Wire),
      (DS18B20_GetTemp line w).1
        = ((256 * byte_of_levels (fun i => line (w.reads + 9 + i))
            + byte_of_levels (fun i => line (w.reads + 1 + i)) : Nat) : ℚ) / 16) ∧
    (DS18B20_GetTemp (sensor_line 0xF8 0xFF) ⟨[], 0⟩).1 = 8191 / 2 ∧
    ((int16_of_bytes 0xF8 0xFF : Int) : ℚ) / 16 = -1 / 2 ∧
    (DS18B20_GetTemp (sensor_line 0xF8 0xFF) ⟨[], 0⟩).1
      ≠ ((int16_of_bytes 0xF8 0xFF : Int) : ℚ) / 16 ∧
    (DS18B20_GetTemp (sensor_line 0x91 0x01) ⟨[], 0⟩).1 = 401 / 16 := by
  have h1 : (DS18B20_GetTemp (sensor_line 0xF8 0xFF) ⟨[], 0⟩).1 = 8191 / 2 := by
    rw [DS18B20_GetTemp_eq]
    show ((256 * byte_of_levels (fun i => sensor_line 0xF8 0xFF (0 + 9 + i))
      + byte_of_levels (fun i => sensor_line 0xF8 0xFF (0 + 1 + i)) : Nat) : ℚ) / 16 = 8191 / 2
    rw [sensor_line_bytes_F8_FF.1, sensor_line_bytes_F8_FF.2]
    norm_num
  have h2 : ((int16_of_bytes 0xF8 0xFF : Int) : ℚ) / 16 = -1 / 2 := by
    have : int16_of_bytes 0xF8 0xFF = -8 := by decide
    rw [this]
    norm_num
  refine ⟨DS18B20_GetTemp_eq, h1, h2, ?_, ?_⟩
  · rw [h1, h2]
    norm_num
  · rw [DS18B20_GetTemp_eq]
    show ((256 * byte_of_levels (fun i => sensor_line 0x91 0x01 (0 + 9 + i))
      + byte_of_levels (fun i => sensor_line 0x91 0x01 (0 + 1 + i)) : Nat) : ℚ) / 16 = 401 / 16
    rw [sensor_line_bytes_91_01.1, sensor_line_bytes_91_01.2]
    norm_num

/-! ## Error detection of `EEPROM_CRC16` -/

theorem EEPROM_CRC16_fold_inj (l : List Nat) (hl : ∀ b ∈ l, b < 256) (c d : Nat)
    (hc : c < 65536) (hd : d < 65536)
    (h : l.foldl EEPROM_CRC16_byte c = l.foldl EEPROM_CRC16_byte d) : c = d := by
  induction l generalizing c d with
  | nil => simpa using h
  | cons b t ih =>
    have hb : b < 256 := hl b (List.mem_cons_self _ _)
    have := ih (fun x hx => hl x (List.mem_cons_of_mem _ hx)) _ _
      (EEPROM_CRC16_byte_lt c b) (EEPROM_CRC16_byte_lt d b) h
    exact EEPROM_CRC16_byte_inj_state c d b hc hd hb this

theorem xor_bit_ne (b j : Nat) : b ^^^ (1 <<< j) ≠ b := by
  intro h
  have h1 : (b ^^^ (1 <<< j)) ^^^ b = 0 := by rw [h, Nat.xor_self]
  rw [Nat.xor_comm b, Nat.xor_assoc, Nat.xor_self, Nat.xor_zero, Nat.one_shiftLeft] at h1
  have := Nat.pos_pow_of_pos j (by norm_num : 0 < 2)
  omega

theorem xor_bit_lt (b j : Nat) (hb : b < 256) (hj : j < 8) : b ^^^ (1 <<< j) < 256 := by
  have h1 : (1 : Nat) <<< j < 2 ^ 8 := by
    rw [Nat.one_shiftLeft]
    exact Nat.pow_lt_pow_right (by norm_num) hj
  exact Nat.xor_lt_two_pow (n := 8) (by simpa using hb) h1

/-- Changing one byte of the data changes the CRC16. -/
theorem EEPROM_CRC16_set_ne (data : List Nat) (hb : ∀ b ∈ data, b < 256)
    (k : Nat) (hk : k < data.length) (v : Nat) (hv : v < 256) (hne : v ≠ data.getD k 0) :
    EEPROM_CRC16 (data.set k v) data.length ≠ EEPROM_CRC16 data data.length := by
  unfold EEPROM_CRC16
  have hlen : (data.set k v).length = data.length := List.length_set _ _ _
  have e1 : (data.set k v).take data.length = data.set k v := by
    rw [← hlen, List.take_length]
  rw [e1, List.take_length]
  have hget : data.getD k 0 = data[k] := by
    simp [List.getD_eq_getElem?_getD, List.getElem?_eq_getElem hk]
  have e2 : data.set k v = data.take k ++ v :: data.drop (k + 1) :=
    List.set_eq_take_cons_drop v hk
  have e3 : data = data.take k ++ data[k] :: data.drop (k + 1) := by
    conv_lhs => rw [← List.take_append_drop k data, List.drop_eq_getElem_cons hk]
  rw [e2]
  conv_rhs => rw [e3]
  rw [List.foldl_append, List.foldl_append, List.foldl_cons, List.foldl_cons]
  intro h
  have hpost : ∀ b ∈ data.drop (k + 1), b < 256 :=
    fun b hb' => hb b (List.mem_of_mem_drop hb')
  have hdk : data[k] < 256 := hb _ (List.getElem_mem hk)
  have h1 := EEPROM_CRC16_fold_inj _ hpost _ _ (EEPROM_CRC16_byte_lt _ _)
    (EEPROM_CRC16_byte_lt _ _) h
  have h2 := EEPROM_CRC16_byte_inj_data _ _ _
    (EEPROM_CRC16_fold_lt _ _ (by norm_num)) hv hdk h1
  exact hne (by rw [hget]; exact h2)

/-- C15: for every sequence of bytes, of any length and so of every length
from 1 to 65535, every byte index `k` in it and every bit `j` of that byte,
flipping the bit changes the value returned by `EEPROM_CRC16` on the whole
sequence. -/
theorem C15_single_bit_flip_detected (data : List Nat) (hb : ∀ b ∈ data, b < 256)
    (k : Nat) (hk : k < data.length) (j : Nat) (hj : j < 8) :
    EEPROM_CRC16 (data.set k (data.getD k 0 ^^^ (1 <<< j))) data.length
      ≠ EEPROM_CRC16 data data.length := by
  have hget : data.getD k 0 = data[k] := by
    simp [List.getD_eq_getElem?_getD, List.getElem?_eq_getElem hk]
  have hdk : data.getD k 0 < 256 := by
    rw [hget]; exact hb _ (List.getElem_mem hk)
  exact EEPROM_CRC16_set_ne data hb k hk _ (xor_bit_lt _ _ hdk hj) (xor_bit_ne _ _)

/-- Evaluation of C15 on the bytes `01 02 03`, flipping bit 7 of the second
byte. -/
theorem C15_single_bit_flip_detected_witness :
    EEPROM_CRC16 ([1, 2, 3].set 1 (([1, 2, 3] : List Nat).getD 1 0 ^^^ (1 <<< 7))) 3
      ≠ EEPROM_CRC16 [1, 2, 3] 3 :=
  C15_single_bit_flip_detected [1, 2, 3] (by decide) 1 (by decide) 7 (by decide)

/-! ## `EEPROM_CRC16` against the reference CRC-16/CCITT -/

theorem shl1_xor_bit (q b : Nat) (hb : b < 2) : (q <<< 1) ^^^ b = 2 * q + b := by
  have h := Nat.mul_add_lt_is_or (i := 1) (b := b) (by simpa using hb) q
  rw [Nat.shiftLeft_eq, pow_one, Nat.mul_comm q 2]
  rw [pow_one] at h
  rw [h]
  apply Nat.eq_of_testBit_eq
  intro i
  rw [Nat.testBit_xor, Nat.testBit_or]
  cases i with
  | zero =>
    have : (2 * q).testBit 0 = false := by rw [Nat.testBit_zero]; simp
    rw [this]; simp
  | succ i =>
    have : b.testBit (i + 1) = false :=
      Nat.testBit_lt_two_pow (lt_of_lt_of_le hb
        (by calc 2 = 2 ^ 1 := by norm_num
              _ ≤ 2 ^ (i + 1) := Nat.pow_le_pow_right (by norm_num) (by omega)))
    rw [this]; simp

theorem add_two_pow_16_eq_xor (y : Nat) (hy : y < 65536) : y + 65536 = y ^^^ 65536 := by
  apply Nat.eq_of_testBit_eq
  intro i
  have e : y + 65536 = 2 ^ 16 + y := by omega
  have e2 : (65536 : Nat) = 2 ^ 16 := by norm_num
  rw [Nat.testBit_xor, e, e2, Nat.testBit_two_pow]
  rcases Nat.lt_trichotomy i 16 with h | h | h
  · rw [Nat.testBit_two_pow_add_gt h]
    have : decide (16 = i) = false := by simp; omega
    rw [this]; simp
  · subst h
    rw [Nat.testBit_two_pow_add_eq]
    have : y.testBit 16 = false := Nat.testBit_lt_two_pow (by omega)
    rw [this]; simp
  · have h1 : (2 ^ 16 + y).testBit i = false :=
      Nat.testBit_lt_two_pow (lt_of_lt_of_le (by omega : 2 ^ 16 + y < 2 ^ 17)
        (Nat.pow_le_pow_right (by norm_num) (by omega)))
    have h2 : y.testBit i = false :=
      Nat.testBit_lt_two_pow (lt_of_lt_of_le (by omega : y < 2 ^ 16)
        (Nat.pow_le_pow_right (by norm_num) (by omega)))
    have : decide (16 = i) = false := by simp; omega
    rw [h1, h2, this]; rfl

theorem gf2_div_step_zero_eq (c : Nat) (hc : c < 65536) :
    gf2_div_step 0x11021 16 c 0 = EEPROM_CRC16_bit c := by
  rw [EEPROM_CRC16_bit_eq c hc]
  unfold gf2_div_step
  simp only [Nat.xor_zero, Nat.shiftLeft_eq, pow_one]
  have ht : (c * 2).testBit 16 = decide (32768 ≤ c) := by
    rw [Nat.testBit_to_div_mod]
    congr 1
    apply propext
    constructor <;> intro h <;> omega
  rw [ht]
  by_cases h : 32768 ≤ c
  · simp only [h, decide_True, if_true]
    have e : c * 2 = (2 * c - 65536) + 65536 := by omega
    rw [e, add_two_pow_16_eq_xor _ (by omega), Nat.xor_assoc]
    rfl
  · simp only [h, decide_False, if_false]
    simp
    omega

theorem shiftLeft_one_xor (a b : Nat) : (a ^^^ b) <<< 1 = (a <<< 1) ^^^ (b <<< 1) := by
  apply Nat.eq_of_testBit_eq
  intro i
  simp only [Nat.testBit_shiftLeft, Nat.testBit_xor]
  cases decide (i ≥ 1) <;> simp

theorem xor_xor_xor_comm (a b c d : Nat) : (a ^^^ b) ^^^ (c ^^^ d) = (a ^^^ c) ^^^ (b ^^^ d) := by
  apply Nat.eq_of_testBit_eq
  intro i
  simp only [Nat.testBit_xor]
  cases a.testBit i <;> cases b.testBit i <;> cases c.testBit i <;> cases d.testBit i <;> rfl

/-- The division step is additive over GF(2). -/
theorem gf2_div_step_xor (g d r1 r2 b1 b2 : Nat) :
    gf2_div_step g d (r1 ^^^ r2) (b1 ^^^ b2)
      = gf2_div_step g d r1 b1 ^^^ gf2_div_step g d r2 b2 := by
  unfold gf2_div_step
  simp only [shiftLeft_one_xor, xor_xor_xor_comm (r1 <<< 1) (r2 <<< 1) b1 b2]
  generalize (r1 <<< 1) ^^^ b1 = x
  generalize (r2 <<< 1) ^^^ b2 = y
  rw [Nat.testBit_xor]
  cases hx : x.testBit d <;> cases hy : y.testBit d <;> simp only [Bool.xor_false,
    Bool.xor_true, Bool.not_false, Bool.not_true, if_true, if_false, Bool.false_eq_true]
  · apply Nat.eq_of_testBit_eq
    intro i
    simp only [Nat.testBit_xor]
    cases x.testBit i <;> cases y.testBit i <;> cases g.testBit i <;> rfl
  · apply Nat.eq_of_testBit_eq
    intro i
    simp only [Nat.testBit_xor]
    cases x.testBit i <;> cases y.testBit i <;> cases g.testBit i <;> rfl
  · apply Nat.eq_of_testBit_eq
    intro i
    simp only [Nat.testBit_xor]
    cases x.testBit i <;> cases y.testBit i <;> cases g.testBit i <;> rfl

theorem xor_mod_two (a b : Nat) : (a ^^^ b) % 2 = (a % 2) ^^^ (b % 2) := by
  have h00 : (0 : Nat) ^^^ 0 = 0 := rfl
  have h01 : (0 : Nat) ^^^ 1 = 1 := rfl
  have h10 : (1 : Nat) ^^^ 0 = 1 := rfl
  have h11 : (1 : Nat) ^^^ 1 = 0 := rfl
  rw [Nat.xor_mod_two_eq]
  rcases Nat.mod_two_eq_zero_or_one a with ha | ha <;>
    rcases Nat.mod_two_eq_zero_or_one b with hb | hb <;>
    rw [ha, hb] <;> simp only [h00, h01, h10, h11] <;> omega

/-- The remainder is additive over GF(2). -/
theorem gf2_mod_xor (g d n a b : Nat) :
    gf2_mod g d n (a ^^^ b) = gf2_mod g d n a ^^^ gf2_mod g d n b := by
  induction n generalizing a b with
  | zero => simp [gf2_mod]
  | succ n ih =>
    show gf2_div_step g d (gf2_mod g d n ((a ^^^ b) / 2)) ((a ^^^ b) % 2)
      = gf2_div_step g d (gf2_mod g d n (a / 2)) (a % 2)
        ^^^ gf2_div_step g d (gf2_mod g d n (b / 2)) (b % 2)
    rw [Nat.xor_div_two, ih, xor_mod_two, gf2_div_step_xor]

theorem gf2_div_step_lt (r bit : Nat) (hr : r < 65536) (hb : bit < 2) :
    gf2_div_step 0x11021 16 r bit < 65536 := by
  unfold gf2_div_step
  simp only
  rw [shl1_xor_bit r bit hb]
  have ht : (2 * r + bit).testBit 16 = decide (65536 ≤ 2 * r + bit) := by
    rw [Nat.testBit_to_div_mod]
    congr 1
    apply propext
    constructor <;> intro h <;> omega
  rw [ht]
  by_cases h : 65536 ≤ 2 * r + bit
  · simp only [h, decide_True, if_true]
    have e : 2 * r + bit = (2 * r + bit - 65536) + 65536 := by omega
    rw [e, add_two_pow_16_eq_xor _ (by omega), Nat.xor_assoc]
    have : (65536 : Nat) ^^^ 69665 = 4129 := by rfl
    rw [this]
    exact Nat.xor_lt_two_pow (n := 16) (by omega) (by norm_num)
  · simp only [h, decide_False, if_false, Bool.false_eq_true]
    omega

theorem gf2_mod_lt (n a : Nat) : gf2_mod 0x11021 16 n a < 65536 := by
  induction n generalizing a with
  | zero => show 0 < 65536; norm_num
  | succ n ih => exact gf2_div_step_lt _ _ (ih _) (Nat.mod_lt _ (by norm_num))

/-- A polynomial of degree below 16 is its own remainder. -/
theorem gf2_mod_small (n a : Nat) (ha : a < 65536) (han : a < 2 ^ n) :
    gf2_mod 0x11021 16 n a = a := by
  induction n generalizing a with
  | zero =>
    have : a = 0 := by simpa using han
    subst this; rfl
  | succ n ih =>
    show gf2_div_step 0x11021 16 (gf2_mod 0x11021 16 n (a / 2)) (a % 2) = a
    have h2 : a / 2 < 2 ^ n := by
      rw [pow_succ] at han; omega
    rw [ih (a / 2) (by omega) h2]
    unfold gf2_div_step
    simp only
    rw [shl1_xor_bit _ _ (Nat.mod_lt _ (by norm_num))]
    have e : 2 * (a / 2) + a % 2 = a := by omega
    rw [e]
    have : a.testBit 16 = false := Nat.testBit_lt_two_pow (by omega)
    rw [this]
    simp

/-- Dividing `a * x^k`: `k` more division steps with zero coefficients. -/
theorem gf2_mod_shiftLeft (n k a : Nat) :
    gf2_mod 0x11021 16 (n + k) (a <<< k)
      = (List.range k).foldl (fun c _ => gf2_div_step 0x11021 16 c 0) (gf2_mod 0x11021 16 n a) := by
  induction k with
  | zero => simp
  | succ k ih =>
    rw [List.range_succ, List.foldl_append, ← ih]
    show gf2_div_step 0x11021 16 (gf2_mod 0x11021 16 (n + k) (a <<< (k + 1) / 2))
      (a <<< (k + 1) % 2) = _
    have e1 : a <<< (k + 1) / 2 = a <<< k := by
      rw [Nat.shiftLeft_eq, Nat.shiftLeft_eq, pow_succ, ← Nat.mul_assoc]
      omega
    have e2 : a <<< (k + 1) % 2 = 0 := by
      rw [Nat.shiftLeft_eq, pow_succ, ← Nat.mul_assoc]
      omega
    rw [e1, e2]
    rfl

/-- The division identity: a dividend of `n` bits is the product of the
quotient by `g` plus the remainder, over GF(2).  With `gf2_mod_lt` this makes
`gf2_mod` the remainder of the polynomial division. -/
theorem gf2_mod_division_identity (g d n a : Nat) (ha : a < 2 ^ n) :
    a = gf2_mul g n (gf2_quot g d n a) ^^^ gf2_mod g d n a := by
  induction n generalizing a with
  | zero =>
    have : a = 0 := by simpa using ha
    subst this
    simp [gf2_mul, gf2_mod]
  | succ n ih =>
    have h2 : a / 2 < 2 ^ n := by
      rw [pow_succ] at ha; omega
    have hbit : a % 2 < 2 := Nat.mod_lt _ (by norm_num)
    have ha2 : a = ((a / 2) <<< 1) ^^^ (a % 2) := by
      rw [shl1_xor_bit _ _ hbit]; omega
    have ihh := ih (a / 2) h2
    show a = ((gf2_mul g n ((2 * gf2_quot g d n (a / 2)
        + (if (((gf2_mod g d n (a / 2)) <<< 1) ^^^ (a % 2)).testBit d then 1 else 0)) / 2)) <<< 1
        ^^^ (if (2 * gf2_quot g d n (a / 2)
        + (if (((gf2_mod g d n (a / 2)) <<< 1) ^^^ (a % 2)).testBit d then 1 else 0)) % 2 = 1
          then g else 0))
      ^^^ gf2_div_step g d (gf2_mod g d n (a / 2)) (a % 2)
    unfold gf2_div_step
    simp only
    generalize hq : gf2_quot g d n (a / 2) = q at ihh ⊢
    generalize hr : gf2_mod g d n (a / 2) = r at ihh ⊢
    by_cases hx : ((r <<< 1) ^^^ (a % 2)).testBit d
    · simp only [hx, if_true]
      have e1 : (2 * q + 1) / 2 = q := by omega
      have e2 : (2 * q + 1) % 2 = 1 := by omega
      rw [e1, e2, if_pos rfl]
      conv_lhs => rw [ha2, ihh, shiftLeft_one_xor]
      apply Nat.eq_of_testBit_eq
      intro i
      simp only [Nat.testBit_xor]
      cases (gf2_mul g n q <<< 1).testBit i <;> cases (r <<< 1).testBit i <;>
        cases (a % 2).testBit i <;> cases g.testBit i <;> rfl
    · simp only [hx, if_false, Bool.false_eq_true, Nat.add_zero]
      have e1 : (2 * q) / 2 = q := by omega
      have e2 : ¬ ((2 * q) % 2 = 1) := by omega
      rw [e1, if_neg e2, Nat.xor_zero]
      conv_lhs => rw [ha2, ihh, shiftLeft_one_xor]
      rw [Nat.xor_assoc]

theorem shiftLeft_xor (a b k : Nat) : (a ^^^ b) <<< k = (a <<< k) ^^^ (b <<< k) := by
  apply Nat.eq_of_testBit_eq
  intro i
  simp only [Nat.testBit_shiftLeft, Nat.testBit_xor]
  cases decide (i ≥ k) <;> simp

theorem mul_256_add_eq_xor (m b : Nat) (hb : b < 256) : 256 * m + b = (m <<< 8) ^^^ b := by
  have h := Nat.mul_add_lt_is_or (i := 8) (b := b) (by simpa using hb) m
  have e : (2 : Nat) ^ 8 * m = m <<< 8 := by rw [Nat.shiftLeft_eq, Nat.mul_comm]
  rw [e] at h
  have e2 : 256 * m = m <<< 8 := by rw [← e]; norm_num
  rw [e2, h]
  apply Nat.eq_of_testBit_eq
  intro i
  rw [Nat.testBit_or, Nat.testBit_xor, Nat.testBit_shiftLeft]
  by_cases hi : i ≥ 8
  · have : b.testBit i = false :=
      Nat.testBit_lt_two_pow (lt_of_lt_of_le (by omega : b < 2 ^ 8)
        (Nat.pow_le_pow_right (by norm_num) hi))
    rw [this]; simp
  · simp [hi]

theorem EEPROM_CRC16_bits_eq (l : List Nat) (c : Nat) (hc : c < 65536) :
    l.foldl (fun c _ => EEPROM_CRC16_bit c) c
      = l.foldl (fun c _ => gf2_div_step 0x11021 16 c 0) c := by
  induction l generalizing c with
  | nil => rfl
  | cons _ t ih =>
    rw [List.foldl_cons, List.foldl_cons, gf2_div_step_zero_eq c hc]
    exact ih _ (EEPROM_CRC16_bit_lt c)

theorem EEPROM_CRC16_byte_eq (c b : Nat) (hc : c < 65536) (hb : b < 256) :
    EEPROM_CRC16_byte c b
      = (List.range 8).foldl (fun c _ => gf2_div_step 0x11021 16 c 0) (c ^^^ (b <<< 8)) := by
  have hs : b <<< 8 < 2 ^ 16 := by rw [Nat.shiftLeft_eq]; omega
  have hx : c ^^^ (b <<< 8) < 2 ^ 16 := Nat.xor_lt_two_pow (by simpa using hc) hs
  unfold EEPROM_CRC16_byte
  simp only
  rw [Nat.mod_eq_of_lt (by omega : b < 2 ^ 16), Nat.mod_eq_of_lt hx]
  exact EEPROM_CRC16_bits_eq _ _ (by simpa using hx)

theorem message_bits_append (t : List Nat) (b : Nat) :
    message_bits (t ++ [b]) = 256 * message_bits t + b := by
  unfold message_bits
  rw [List.foldl_append]
  rfl

/-- The register of `EEPROM_CRC16` started at `c`, after the bytes `data`, is
the remainder of `M * x^16 + c * x^(8 * n)`. -/
theorem EEPROM_CRC16_fold_eq_gf2_mod (data : List Nat) (hb : ∀ b ∈ data, b < 256)
    (c : Nat) (hc : c < 65536) :
    data.foldl EEPROM_CRC16_byte c
      = gf2_mod 0x11021 16 (8 * data.length + 16)
          ((message_bits data <<< 16) ^^^ (c <<< (8 * data.length))) := by
  induction data using List.reverseRecOn with
  | nil =>
    have : (message_bits [] <<< 16) ^^^ (c <<< (8 * ([] : List Nat).length)) = c := by
      simp [message_bits]
    rw [this]
    exact (gf2_mod_small _ c hc (by simpa using hc)).symm
  | append_singleton t b ih =>
    have hbb : b < 256 := hb b (by simp)
    have ht : ∀ x ∈ t, x < 256 := fun x hx => hb x (by simp [hx])
    have ih' := ih ht
    rw [List.foldl_append, List.foldl_cons, List.foldl_nil, ih']
    have hlen : 8 * (t ++ [b]).length + 16 = (8 * t.length + 16) + 8 := by
      simp only [List.length_append, List.length_singleton]; omega
    have hD : (message_bits (t ++ [b]) <<< 16) ^^^ (c <<< (8 * (t ++ [b]).length))
        = (((message_bits t <<< 16) ^^^ (c <<< (8 * t.length))) ^^^ (b <<< 8)) <<< 8 := by
      have e1 : 8 * (t ++ [b]).length = 8 * t.length + 8 := by
        simp only [List.length_append, List.length_singleton]; omega
      rw [message_bits_append, mul_256_add_eq_xor _ _ hbb, e1, shiftLeft_xor, shiftLeft_xor,
        shiftLeft_xor, ← Nat.shiftLeft_add, ← Nat.shiftLeft_add, ← Nat.shiftLeft_add,
        ← Nat.shiftLeft_add]
      have e24 : (8 : Nat) + 16 = 16 + 8 := rfl
      rw [e24]
      apply Nat.eq_of_testBit_eq
      intro i
      simp only [Nat.testBit_xor]
      cases (message_bits t <<< (16 + 8)).testBit i <;> cases (b <<< (8 + 8)).testBit i <;>
        cases (c <<< (8 * t.length + 8)).testBit i <;> rfl
    rw [hlen, hD, gf2_mod_shiftLeft,
      gf2_mod_xor _ _ _ ((message_bits t <<< 16) ^^^ (c <<< (8 * t.length))) (b <<< 8)]
    have hs : b <<< 8 < 65536 := by rw [Nat.shiftLeft_eq]; omega
    have hN : (65536 : Nat) ≤ 2 ^ (8 * t.length + 16) := by
      calc (65536 : Nat) = 2 ^ 16 := by norm_num
        _ ≤ 2 ^ (8 * t.length + 16) := Nat.pow_le_pow_right (by norm_num) (by omega)
    rw [gf2_mod_small _ (b <<< 8) hs (by omega)]
    exact EEPROM_CRC16_byte_eq _ _ (gf2_mod_lt _ _) hbb

/-- C16: for every sequence of bytes, `EEPROM_CRC16` on the whole sequence
returns the reference CRC-16/CCITT (polynomial `0x1021`, initial value
`0xFFFF`, most significant bit first, no reflection, no final XOR), that is the
16-bit remainder of the division of `M * x^16 + 0xFFFF * x^(8 * n)` by
`x^16 + x^12 + x^5 + 1` over GF(2); the empty sequence gives `0xFFFF` and the
ASCII bytes of "123456789" give `0x29B1`. -/
theorem C16_crc16_ccitt (data : List Nat) (hb : ∀ b ∈ data, b < 256) :
    EEPROM_CRC16 data data.length = crc16_ccitt_reference data ∧
    crc16_ccitt_reference data < 2 ^ 16 ∧
    EEPROM_CRC16 [] 0 = 0xFFFF ∧
    EEPROM_CRC16 [0x31, 0x32, 0x33, 0x34, 0x35, 0x36, 0x37, 0x38, 0x39] 9 = 0x29B1 := by
  refine ⟨?_, gf2_mod_lt _ _, by decide, by decide⟩
  unfold EEPROM_CRC16 crc16_ccitt_reference
  rw [List.take_length]
  exact EEPROM_CRC16_fold_eq_gf2_mod data hb 0xFFFF (by norm_num)

/-- Evaluation of C16 on the ASCII bytes of "123456789": the reference value is
`0x29B1` as well. -/
theorem C16_crc16_ccitt_witness :
    crc16_ccitt_reference [0x31, 0x32, 0x33, 0x34, 0x35, 0x36, 0x37, 0x38, 0x39] = 0x29B1 :=
  ((C16_crc16_ccitt [0x31, 0x32, 0x33, 0x34, 0x35, 0x36, 0x37, 0x38, 0x39]
      (by decide)).1.symm.trans
    (C16_crc16_ccitt [0x31, 0x32, 0x33, 0x34, 0x35, 0x36, 0x37, 0x38, 0x39] (by decide)).2.2.2)

/-! ## Remaining properties of the store and of the tasks -/

/-- C21, as stated, fails: for the setpoint 25 saved from the initial record
(padding byte 0), the crc stored on the page is `0xB533`, the CRC16 of the six
bytes `EF BE AD DE 19 00`, and not the CRC16 of the five bytes
`EF BE AD DE 19`. -/
theorem C21_crc_not_over_five_bytes :
    (flash_data (EEPROM_SaveSetpoint (fun _ => HAL_OK) 25 Sys.boot.eeprom).2.flash.page).crc
      = 0xB533 ∧
    EEPROM_CRC16 [0xEF, 0xBE, 0xAD, 0xDE, 25, 0] 6 = 0xB533 ∧
    (flash_data (EEPROM_SaveSetpoint (fun _ => HAL_OK) 25 Sys.boot.eeprom).2.flash.page).crc
      ≠ EEPROM_CRC16 [0xEF, 0xBE, 0xAD, 0xDE, 25] 5 := by
  decide

/-- C21, amended: for every `x` in `[10, 50]`, when the requests issued
succeed, the page left by `EEPROM_SaveSetpoint x` starts with the bytes
`EF BE AD DE`, the setpoint byte `x` and the padding byte of the record in
RAM, and the crc stored after them is the CRC16 of exactly these six bytes:
the checksum covers the magic number, the setpoint and the padding byte at
offset 5. -/
theorem C21_crc_coverage_amended (hal : FlashHal) (e : Eeprom) (x : Int)
    (hx : 10 ≤ x ∧ x ≤ 50) (hok : ∀ k, e.flash.ops.length ≤ k → hal k = HAL_OK) :
    (EEPROM_SaveSetpoint hal x e).2.flash.page.take 6
      = [0xEF, 0xBE, 0xAD, 0xDE, byte_of_int8 x, e.eeprom_data.pad % 256] ∧
    (flash_data (EEPROM_SaveSetpoint hal x e).2.flash.page).crc
      = EEPROM_CRC16 [0xEF, 0xBE, 0xAD, 0xDE, byte_of_int8 x, e.eeprom_data.pad % 256] 6 ∧
    (flash_data (EEPROM_SaveSetpoint hal x e).2.flash.page).crc
      = EEPROM_CRC16 (EEPROM_SaveSetpoint hal x e).2.flash.page 6 := by
  obtain ⟨_, h2⟩ := EEPROM_SaveSetpoint_ok hal e x hx hok
  have hc : (eeprom_data_update e.eeprom_data x).crc < 65536 := by
    rw [eeprom_data_update_crc]; exact EEPROM_CRC16_lt _ _
  have hfd := flash_data_page_of (eeprom_data_update e.eeprom_data x)
    (by rw [eeprom_data_update_magic]; norm_num) hc
  have h6 : sizeof_EEPROMData_t - sizeof_uint16_t = 6 := rfl
  have hcrc := EEPROM_CRC16_page_of (eeprom_data_update e.eeprom_data x)
  have hupd := eeprom_data_update_crc e.eeprom_data x
  rw [h6] at hcrc hupd
  have htake : (page_of (eeprom_data_update e.eeprom_data x)).take 6
      = [0xEF, 0xBE, 0xAD, 0xDE, byte_of_int8 x, e.eeprom_data.pad % 256] := by
    have : (page_of (eeprom_data_update e.eeprom_data x)).take 6
        = [(eeprom_data_update e.eeprom_data x).magic % 256,
           (eeprom_data_update e.eeprom_data x).magic / 256 % 256,
           (eeprom_data_update e.eeprom_data x).magic / 65536 % 256,
           (eeprom_data_update e.eeprom_data x).magic / 16777216 % 256,
           byte_of_int8 (eeprom_data_update e.eeprom_data x).setTemp,
           (eeprom_data_update e.eeprom_data x).pad % 256] := rfl
    rw [this, eeprom_data_update_magic, eeprom_data_update_setTemp, eeprom_data_update_pad]
  have hbytes : EEPROM_CRC16 (eeprom_data_update e.eeprom_data x).bytes 6
      = EEPROM_CRC16 [0xEF, 0xBE, 0xAD, 0xDE, byte_of_int8 x, e.eeprom_data.pad % 256] 6 := by
    have := EEPROM_CRC16_bytes (eeprom_data_update e.eeprom_data x)
    rw [h6, eeprom_data_update_magic, eeprom_data_update_setTemp, eeprom_data_update_pad] at this
    rw [this]
    rfl
  rw [h2, hfd]
  refine ⟨htake, ?_, ?_⟩
  · show (eeprom_data_update e.eeprom_data x).crc = _
    rw [hupd, hbytes]
  · show (eeprom_data_update e.eeprom_data x).crc = _
    rw [hupd, hcrc]

/-- Evaluation of the amended C21 on an erased page with setpoint 25. -/
theorem C21_crc_coverage_amended_witness :
    (flash_data (EEPROM_SaveSetpoint (fun _ => HAL_OK) 25 Sys.boot.eeprom).2.flash.page).crc
      = EEPROM_CRC16 [0xEF, 0xBE, 0xAD, 0xDE, byte_of_int8 25,
          Sys.boot.eeprom.eeprom_data.pad % 256] 6 :=
  (C21_crc_coverage_amended (fun _ => HAL_OK) Sys.boot.eeprom 25 (by decide)
    (fun _ _ => rfl)).2.1

/-- C22: when `Task_Control` fires (its period has elapsed) in mode OFF, the
resulting state has `isFanOn = 0` and the fan pin at `GPIO_PIN_RESET`, whatever
the fan flag, the temperature and the setpoint were, and `mode`, `setTemp` and
`currentTemp` (and the button fields) are unchanged. -/
theorem C22_fan_forced_off_in_OFF (now : Nat) (s : Sys)
    (hdue : sub_u32 now s.task_control_last_time ≥ 100) (hmode : s.thermostat_state.mode = 0) :
    (Task_Control now s).thermostat_state = { s.thermostat_state with isFanOn := 0 } ∧
    (Task_Control now s).thermostat_state.isFanOn = 0 ∧
    (Task_Control now s).Fan_in_Pin = GPIO_PIN_RESET ∧
    (Task_Control now s).thermostat_state.mode = 0 ∧
    (Task_Control now s).thermostat_state.setTemp = s.thermostat_state.setTemp ∧
    (Task_Control now s).thermostat_state.currentTemp = s.thermostat_state.currentTemp := by
  unfold Task_Control
  rw [if_pos hdue]
  dsimp only
  have h1 : ¬ (s.thermostat_state.mode = 1) := by rw [hmode]; decide
  rw [if_neg h1, if_pos hmode]
  exact ⟨rfl, rfl, rfl, hmode, rfl, rfl⟩

/-- Evaluation of C22 at tick 100 on a state in mode OFF with the fan flag set
and a reading of 30 against the setpoint 28. -/
theorem C22_fan_forced_off_in_OFF_witness :
    (Task_Control 100
      { Sys.boot_warm with
        thermostat_state := { Sys.boot_warm.thermostat_state with isFanOn := 1 },
        Fan_in_Pin := GPIO_PIN_SET }).thermostat_state.isFanOn = 0 ∧
    (Task_Control 100
      { Sys.boot_warm with
        thermostat_state := { Sys.boot_warm.thermostat_state with isFanOn := 1 },
        Fan_in_Pin := GPIO_PIN_SET }).Fan_in_Pin = GPIO_PIN_RESET :=
  ⟨(C22_fan_forced_off_in_OFF 100 _ (by decide) rfl).2.1,
   (C22_fan_forced_off_in_OFF 100 _ (by decide) rfl).2.2.1⟩

/-- C25: in mode OFF or NORMAL (in fact in any mode other than SETTING), an UP
or DOWN press leaves the whole `thermostat_state` unchanged, makes no call of
`EEPROM_SaveSetpoint`, and leaves the store, with its page and its log of
erase and program requests, as it was. -/
theorem C25_setpoint_read_only_outside_SETTING (hal : FlashHal) (s : Sys) (button_id : Nat)
    (hmode : s.thermostat_state.mode = 0 ∨ s.thermostat_state.mode = 1)
    (hb : button_id = 0 ∨ button_id = 1) :
    (Handle_Button_Press hal button_id s).thermostat_state = s.thermostat_state ∧
    save_calls (Handle_Button_Press hal button_id s) = save_calls s ∧
    (Handle_Button_Press hal button_id s).calls
      = s.calls ++ [Call.Handle_Button_Press button_id] ∧
    (Handle_Button_Press hal button_id s).eeprom = s.eeprom ∧
    (Handle_Button_Press hal button_id s).eeprom.flash.ops = s.eeprom.flash.ops := by
  have h2 : ¬ (s.thermostat_state.mode = 2) := by
    rcases hmode with h | h <;> rw [h] <;> decide
  rcases hb with h | h <;> subst h <;>
    simp [Handle_Button_Press, h2, save_calls, List.filterMap_append]

/-- Evaluation of C25: an UP press on the boot state (mode OFF) and a DOWN
press in NORMAL. -/
theorem C25_setpoint_read_only_outside_SETTING_witness :
    (Handle_Button_Press (fun _ => HAL_OK) 0 Sys.boot).thermostat_state
      = Sys.boot.thermostat_state ∧
    (Handle_Button_Press (fun _ => HAL_OK) 1 Sys.boot_normal).eeprom.flash.ops
      = Sys.boot_normal.eeprom.flash.ops :=
  ⟨(C25_setpoint_read_only_outside_SETTING (fun _ => HAL_OK) Sys.boot 0 (Or.inl rfl)
      (Or.inl rfl)).1,
   (C25_setpoint_read_only_outside_SETTING (fun _ => HAL_OK) Sys.boot_normal 1 (Or.inr rfl)
      (Or.inr rfl)).2.2.2.2⟩

/-! ## Bytes on the one-wire line -/

theorem and_bit_ne_zero_iff (d i : Nat) : d &&& (1 <<< i) ≠ 0 ↔ d.testBit i = true := by
  rw [Nat.one_shiftLeft, Nat.and_two_pow]
  have hp : 0 < 2 ^ i := Nat.pos_pow_of_pos i (by norm_num)
  cases h : d.testBit i
  · simp
  · simp

theorem DS18B20_Write_bit_trace (d : Nat) (w : Wire) (i : Nat) :
    (DS18B20_Write_bit d w i).trace = w.trace ++ write_slot (d.testBit i) := by
  unfold DS18B20_Write_bit
  by_cases h : d &&& (1 <<< i) ≠ 0
  · rw [if_pos h, (and_bit_ne_zero_iff d i).1 h]
    simp [Wire.emit, write_slot, write_1_slot]
  · rw [if_neg h]
    have : d.testBit i = false := by
      cases hb : d.testBit i
      · rfl
      · exact absurd ((and_bit_ne_zero_iff d i).2 hb) h
    rw [this]
    simp [Wire.emit, write_slot, write_0_slot]

theorem DS18B20_Write_bits_trace (d : Nat) (l : List Nat) (w : Wire) :
    (l.foldl (DS18B20_Write_bit d) w).trace
      = w.trace ++ (l.map (fun i => write_slot (d.testBit i))).flatten := by
  induction l generalizing w with
  | nil => simp
  | cons i t ih =>
    rw [List.foldl_cons, ih, DS18B20_Write_bit_trace]
    simp [List.append_assoc]

/-- The actions of `DS18B20_Write d`: the pin is set as output, then the eight
slots of `d` follow. -/
theorem DS18B20_Write_trace (d : Nat) (w : Wire) :
    (DS18B20_Write d w).trace
      = w.trace ++ [WireOp.Set_Pin_Output] ++ (write_slots d).flatten := by
  unfold DS18B20_Write write_slots
  rw [DS18B20_Write_bits_trace]
  rfl

theorem write_slots_getD (d i : Nat) (hi : i < 8) :
    (write_slots d).getD i write_0_slot = write_slot (d.testBit i) := by
  have : write_slots d = [write_slot (d.testBit 0), write_slot (d.testBit 1),
      write_slot (d.testBit 2), write_slot (d.testBit 3), write_slot (d.testBit 4),
      write_slot (d.testBit 5), write_slot (d.testBit 6), write_slot (d.testBit 7)] := rfl
  rw [this]
  interval_cases i <;> rfl

theorem level_of_write_slot (b : Bool) :
    level_of_slot (write_slot b) = if b then GPIO_PIN_SET else GPIO_PIN_RESET := by
  cases b <;> decide

/-- The bits of the value accumulated over the first `n` samples. -/
theorem levels_fold_testBit (f : Nat → GPIO_PinState) (n : Nat) :
    (List.range n).foldl (fun v i => if f i = GPIO_PIN_SET then v + 2 ^ i else v) 0 < 2 ^ n ∧
    ∀ i, i < n →
      ((List.range n).foldl (fun v i => if f i = GPIO_PIN_SET then v + 2 ^ i else v) 0).testBit i
        = decide (f i = GPIO_PIN_SET) := by
  induction n with
  | zero => exact ⟨by norm_num, fun i hi => absurd hi (Nat.not_lt_zero i)⟩
  | succ n ih =>
    obtain ⟨hlt, hbits⟩ := ih
    rw [List.range_succ, List.foldl_append]
    simp only [List.foldl_cons, List.foldl_nil]
    generalize (List.range n).foldl
      (fun v i => if f i = GPIO_PIN_SET then v + 2 ^ i else v) 0 = v at hlt hbits ⊢
    have hp : (2 : Nat) ^ (n + 1) = 2 ^ n + 2 ^ n := by rw [pow_succ]; omega
    have hvn : v.testBit n = false := Nat.testBit_lt_two_pow hlt
    by_cases hf : f n = GPIO_PIN_SET
    · rw [if_pos hf]
      refine ⟨by omega, fun i hi => ?_⟩
      rw [Nat.add_comm]
      rcases Nat.lt_or_ge i n with h | h
      · rw [Nat.testBit_two_pow_add_gt h, hbits i h]
      · have : i = n := by omega
        subst this
        rw [Nat.testBit_two_pow_add_eq, hvn]
        simp [hf]
    · rw [if_neg hf]
      refine ⟨by omega, fun i hi => ?_⟩
      rcases Nat.lt_or_ge i n with h | h
      · exact hbits i h
      · have : i = n := by omega
        subst this
        rw [hvn]
        simp [hf]

theorem byte_of_levels_testBit (f : Nat → GPIO_PinState) :
    byte_of_levels f < 256 ∧
    ∀ i, i < 8 → (byte_of_levels f).testBit i = decide (f i = GPIO_PIN_SET) :=
  levels_fold_testBit f 8

theorem byte_of_levels_of_bits (d : Nat) (hd : d < 256) (f : Nat → GPIO_PinState)
    (hf : ∀ i, i < 8 → f i = if d.testBit i then GPIO_PIN_SET else GPIO_PIN_RESET) :
    byte_of_levels f = d := by
  obtain ⟨hlt, hbits⟩ := byte_of_levels_testBit f
  apply Nat.eq_of_testBit_eq
  intro i
  by_cases hi : i < 8
  · rw [hbits i hi, hf i hi]
    cases d.testBit i <;> decide
  · have hp : (256 : Nat) ≤ 2 ^ i := by
      calc (256 : Nat) = 2 ^ 8 := by norm_num
        _ ≤ 2 ^ i := Nat.pow_le_pow_right (by norm_num) (by omega)
    rw [Nat.testBit_lt_two_pow (lt_of_lt_of_le hlt hp),
      Nat.testBit_lt_two_pow (lt_of_lt_of_le hd hp)]

/-- C23: for every byte `d`, `DS18B20_Write d` sets the pin as output and then
emits exactly eight bit slots, slot `i` being a write-1 slot iff bit `i` of `d`
is set; `DS18B20_Read` returns the byte whose bit `i` is set iff the level
sampled in its `i`-th slot is high; hence reading the levels that encode the
slots written for `d` (write-1 = high, write-0 = low) returns `d`. -/
theorem C23_one_wire_byte_round_trip (d : Nat) (hd : d < 256) (line : WireLine) (w : Wire) :
    (DS18B20_Write d w).trace
      = w.trace ++ [WireOp.Set_Pin_Output] ++ (write_slots d).flatten ∧
    (write_slots d).length = 8 ∧
    (∀ i, i < 8 → ((write_slots d).getD i write_0_slot = write_1_slot ↔ d.testBit i = true) ∧
      ((write_slots d).getD i write_0_slot = write_0_slot ↔ d.testBit i = false)) ∧
    (DS18B20_Read line w).1 < 256 ∧
    (∀ i, i < 8 →
      ((DS18B20_Read line w).1.testBit i = true ↔ line (w.reads + i) = GPIO_PIN_SET)) ∧
    (DS18B20_Read (line_of_slots (write_slots d) w.reads) w).1 = d := by
  refine ⟨DS18B20_Write_trace d w, rfl, ?_, (DS18B20_Read_eq line w).2.1, ?_, ?_⟩
  · intro i hi
    rw [write_slots_getD d i hi]
    cases d.testBit i <;> decide
  · intro i hi
    rw [(DS18B20_Read_eq line w).1, (byte_of_levels_testBit _).2 i hi]
    simp
  · rw [(DS18B20_Read_eq _ w).1]
    apply byte_of_levels_of_bits d hd
    intro i hi
    show level_of_slot ((write_slots d).getD (w.reads + i - w.reads) write_0_slot) = _
    rw [Nat.add_sub_cancel_left, write_slots_getD d i hi, level_of_write_slot]

/-- Evaluation of C23 on the skip-ROM command `0xCC`, written and read back
from a fresh line. -/
theorem C23_one_wire_byte_round_trip_witness :
    (DS18B20_Read (line_of_slots (write_slots 0xCC) 0) ⟨[], 0⟩).1 = 0xCC :=
  (C23_one_wire_byte_round_trip 0xCC (by decide) (fun _ => GPIO_PIN_SET) ⟨[], 0⟩).2.2.2.2.2

/-! ## The sensor task on a line that nobody drives -/

theorem reset_pulses_emit (w : Wire) (op : WireOp) :
    reset_pulses (w.emit op) = reset_pulses w + if op = WireOp.delay_us 480 then 1 else 0 := by
  unfold reset_pulses Wire.emit
  by_cases h : op = WireOp.delay_us 480
  · subst h
    simp [List.count_append]
  · have h2 : ¬ (WireOp.delay_us 480 = op) := fun e => h e.symm
    simp [List.count_append, List.count_cons, h, h2]

theorem reset_pulses_sample (line : WireLine) (w : Wire) :
    reset_pulses (w.sample line).2 = reset_pulses w := by
  unfold reset_pulses Wire.sample
  simp [List.count_append, List.count_cons]

theorem DS18B20_Start_reset_pulses (line : WireLine) (w : Wire) :
    reset_pulses (DS18B20_Start line w).2 = reset_pulses w + 1 := by
  unfold DS18B20_Start
  simp [reset_pulses_emit, reset_pulses_sample]

theorem DS18B20_Write_bit_reset_pulses (data : Nat) (w : Wire) (i : Nat) :
    reset_pulses (DS18B20_Write_bit data w i) = reset_pulses w := by
  unfold DS18B20_Write_bit
  split_ifs <;> simp [reset_pulses_emit]

theorem DS18B20_Write_reset_pulses (data : Nat) (w : Wire) :
    reset_pulses (DS18B20_Write data w) = reset_pulses w := by
  have h : ∀ (l : List Nat) (w : Wire),
      reset_pulses (l.foldl (DS18B20_Write_bit data) w) = reset_pulses w := by
    intro l
    induction l with
    | nil => intro w; rfl
    | cons i t ih => intro w; rw [List.foldl_cons, ih, DS18B20_Write_bit_reset_pulses]
  unfold DS18B20_Write
  simp [h, reset_pulses_emit]

theorem DS18B20_Read_bit_reset_pulses (line : WireLine) (st : Nat × Wire) (i : Nat) :
    reset_pulses (DS18B20_Read_bit line st i).2 = reset_pulses st.2 := by
  unfold DS18B20_Read_bit
  simp [reset_pulses_emit, reset_pulses_sample]

theorem DS18B20_Read_reset_pulses (line : WireLine) (w : Wire) :
    reset_pulses (DS18B20_Read line w).2 = reset_pulses w := by
  have h : ∀ (l : List Nat) (st : Nat × Wire),
      reset_pulses (l.foldl (DS18B20_Read_bit line) st).2 = reset_pulses st.2 := by
    intro l
    induction l with
    | nil => intro st; rfl
    | cons i t ih => intro st; rw [List.foldl_cons, ih, DS18B20_Read_bit_reset_pulses]
  unfold DS18B20_Read
  simp [h, reset_pulses_emit]

theorem DS18B20_GetTemp_reset_pulses (line : WireLine) (w : Wire) :
    reset_pulses (DS18B20_GetTemp line w).2 = reset_pulses w + 1 := by
  unfold DS18B20_GetTemp
  simp only [DS18B20_Read_reset_pulses, DS18B20_Write_reset_pulses, DS18B20_Start_reset_pulses]

theorem DS18B20_GetTemp_reads (line : WireLine) (w : Wire) :
    (DS18B20_GetTemp line w).2.reads = w.reads + 17 := by
  unfold DS18B20_GetTemp
  simp only [(DS18B20_Read_eq _ _).2.2, DS18B20_Write_reads, DS18B20_Start_reads]

/-- On a line that is high at every sample, `DS18B20_Start` reports that no
device is present. -/
theorem DS18B20_Start_no_presence (line : WireLine) (hline : ∀ k, line k = GPIO_PIN_SET)
    (w : Wire) : (DS18B20_Start line w).1 = 0 := by
  unfold DS18B20_Start
  simp [Wire.sample, Wire.emit, hline]

/-- On a line that is high at every sample, `DS18B20_GetTemp` returns
`0xFFFF / 16`. -/
theorem DS18B20_GetTemp_no_device (line : WireLine) (hline : ∀ k, line k = GPIO_PIN_SET)
    (w : Wire) : (DS18B20_GetTemp line w).1 = 65535 / 16 := by
  have hl : ∀ n : Nat, (fun i => line (n + i)) = fun _ => GPIO_PIN_SET :=
    fun n => funext (fun i => hline (n + i))
  have hb : byte_of_levels (fun _ => GPIO_PIN_SET) = 255 := by decide
  rw [DS18B20_GetTemp_eq, hl, hl, hb]
  norm_num

/-- C24: when the line is sampled high on every read (no device answers), a due
`Task_Sensor` gets 0 from both presence checks of `DS18B20_Start`, ignores
them, and overwrites `currentTemp` with `0xFFFF / 16 = 4095.9375` whatever the
previous reading was, the other fields of the thermostat state staying as they
were; it performs no retry: exactly two reset pulses are sent (one for the
conversion, one for the read), exactly 18 samples are taken, and the task is
next due 500 ms later. -/
theorem C24_presence_failure_not_surfaced (line : WireLine) (now : Nat) (s : Sys)
    (hline : ∀ k, line k = GPIO_PIN_SET)
    (hdue : sub_u32 now s.task_sensor_last_time ≥ 500) :
    (DS18B20_Start line s.wire).1 = 0 ∧
    (DS18B20_Start line ((DS18B20_Write 0x44 (DS18B20_Write 0xCC
      (DS18B20_Start line s.wire).2)).emit (WireOp.HAL_Delay 400))).1 = 0 ∧
    (Task_Sensor line now s).thermostat_state
      = { s.thermostat_state with currentTemp := 65535 / 16 } ∧
    (Task_Sensor line now s).thermostat_state.currentTemp = 4095.9375 ∧
    reset_pulses (Task_Sensor line now s).wire = reset_pulses s.wire + 2 ∧
    (Task_Sensor line now s).wire.reads = s.wire.reads + 18 ∧
    (Task_Sensor line now s).task_sensor_last_time = now ∧
    (Task_Sensor line now s).calls = s.calls := by
  have hT : Task_Sensor line now s
      = { s with task_sensor_last_time := now,
                 wire := (DS18B20_GetTemp line ((DS18B20_Write 0x44 (DS18B20_Write 0xCC
                   (DS18B20_Start line s.wire).2)).emit (WireOp.HAL_Delay 400))).2,
                 thermostat_state := { s.thermostat_state with
                   currentTemp := (DS18B20_GetTemp line ((DS18B20_Write 0x44
                     (DS18B20_Write 0xCC (DS18B20_Start line s.wire).2)).emit
                     (WireOp.HAL_Delay 400))).1 } } := by
    unfold Task_Sensor
    rw [if_pos hdue]
  have hv := DS18B20_GetTemp_no_device line hline ((DS18B20_Write 0x44 (DS18B20_Write 0xCC
    (DS18B20_Start line s.wire).2)).emit (WireOp.HAL_Delay 400))
  refine ⟨DS18B20_Start_no_presence line hline _, DS18B20_Start_no_presence line hline _,
    ?_, ?_, ?_, ?_, ?_, ?_⟩
  · rw [hT, hv]
  · rw [hT]
    show (DS18B20_GetTemp line _).1 = 4095.9375
    rw [hv]
    norm_num
  · rw [hT]
    show reset_pulses (DS18B20_GetTemp line _).2 = _
    rw [DS18B20_GetTemp_reset_pulses, reset_pulses_emit, DS18B20_Write_reset_pulses,
      DS18B20_Write_reset_pulses, DS18B20_Start_reset_pulses]
    simp
  · rw [hT]
    show (DS18B20_GetTemp line _).2.reads = _
    rw [DS18B20_GetTemp_reads, Wire.emit_reads, DS18B20_Write_reads, DS18B20_Write_reads,
      DS18B20_Start_reads]
  · rw [hT]
  · rw [hT]

/-- Evaluation of C24 on the first firing of the sensor task after boot, at
tick 500, with nothing on the line. -/
theorem C24_presence_failure_not_surfaced_witness :
    (Task_Sensor (fun _ => GPIO_PIN_SET) 500 Sys.boot).thermostat_state.currentTemp = 4095.9375 ∧
    reset_pulses (Task_Sensor (fun _ => GPIO_PIN_SET) 500 Sys.boot).wire
      = reset_pulses Sys.boot.wire + 2 :=
  ⟨(C24_presence_failure_not_surfaced (fun _ => GPIO_PIN_SET) 500 Sys.boot (fun _ => rfl)
      (by decide)).2.2.2.1,
   (C24_presence_failure_not_surfaced (fun _ => GPIO_PIN_SET) 500 Sys.boot (fun _ => rfl)
      (by decide)).2.2.2.2.1⟩

/-! ## The firing rule of the scheduler -/

theorem Task_Control_eq (now : Nat) (s : Sys) :
    Task_Control now s =
      if sub_u32 now s.task_control_last_time ≥ 100 then
        if s.thermostat_state.mode = 1 then
          if s.thermostat_state.currentTemp ≥ (s.thermostat_state.setTemp : ℚ) ∧
              s.thermostat_state.isFanOn = 0 then
            { s with task_control_last_time := now,
                     thermostat_state := { s.thermostat_state with isFanOn := 1 },
                     Fan_in_Pin := GPIO_PIN_SET }
          else if s.thermostat_state.currentTemp ≤ (s.thermostat_state.setTemp : ℚ) - 1 ∧
              s.thermostat_state.isFanOn ≠ 0 then
            { s with task_control_last_time := now,
                     thermostat_state := { s.thermostat_state with isFanOn := 0 },
                     Fan_in_Pin := GPIO_PIN_RESET }
          else { s with task_control_last_time := now }
        else if s.thermostat_state.mode = 0 then
          { s with task_control_last_time := now,
                   thermostat_state := { s.thermostat_state with isFanOn := 0 },
                   Fan_in_Pin := GPIO_PIN_RESET }
        else { s with task_control_last_time := now }
      else s := rfl

theorem Task_Sensor_eq (line : WireLine) (now : Nat) (s : Sys) :
    Task_Sensor line now s =
      if sub_u32 now s.task_sensor_last_time ≥ 500 then
        { s with
          task_sensor_last_time := now,
          wire := (DS18B20_GetTemp line ((DS18B20_Write 0x44 (DS18B20_Write 0xCC
            (DS18B20_Start line s.wire).2)).emit (WireOp.HAL_Delay 400))).2,
          thermostat_state := { s.thermostat_state with
            currentTemp := (DS18B20_GetTemp line ((DS18B20_Write 0x44 (DS18B20_Write 0xCC
              (DS18B20_Start line s.wire).2)).emit (WireOp.HAL_Delay 400))).1 } }
      else s := by
  unfold Task_Sensor
  split_ifs <;> rfl

theorem Task_Sensor_reads (line : WireLine) (now : Nat) (s : Sys) :
    (Task_Sensor line now s).wire.reads
      = s.wire.reads + (if sub_u32 now s.task_sensor_last_time ≥ 500 then 18 else 0) := by
  rw [Task_Sensor_eq]
  split_ifs
  · show (DS18B20_GetTemp line _).2.reads = _
    rw [DS18B20_GetTemp_reads, Wire.emit_reads, DS18B20_Write_reads, DS18B20_Write_reads,
      DS18B20_Start_reads]
  · rfl

/-- C17: each task fires exactly when `(now - last) mod 2^32` is at least its
period (Input 50, Control 100, Sensor 500, Display 200).  If so, its timestamp
becomes `now` and its work runs: Input runs `Button_Debounce`, Control drives
the fan by the mode and the two thresholds, Sensor makes the two transactions
with the sensor (18 samples of the line) and stores the reading, Display sends
the two lines to the display (it has a resulting state only when the first
text fits the 17-byte buffer and the mode is OFF; otherwise it overruns the
buffer).  If not, the task leaves the whole state as it was.
`Task_Scheduler_Run` calls the four tasks in the order Input, Control, Sensor,
Display.  The difference is the one of 32-bit unsigned arithmetic, so when
`e < 2^32` ticks have elapsed since `last`, whether or not the counter
wrapped, the difference is `e` and the task fires iff `e` is at least the
period. -/
theorem C17_scheduler_firing (hal : FlashHal) (line : WireLine)
    (button_reads : Fin 4 → GPIO_PinState) (now : Nat) (s : Sys) :
    (Task_Input hal button_reads now s
        = (if sub_u32 now s.task_input_last_time ≥ 50
           then Button_Debounce hal button_reads { s with task_input_last_time := now }
           else s) ∧
      (Task_Input hal button_reads now s).task_input_last_time
        = (if sub_u32 now s.task_input_last_time ≥ 50 then now
           else s.task_input_last_time)) ∧
    (Task_Control now s
        = (if sub_u32 now s.task_control_last_time ≥ 100 then
            if s.thermostat_state.mode = 1 then
              if s.thermostat_state.currentTemp ≥ (s.thermostat_state.setTemp : ℚ) ∧
                  s.thermostat_state.isFanOn = 0 then
                { s with task_control_last_time := now,
                         thermostat_state := { s.thermostat_state with isFanOn := 1 },
                         Fan_in_Pin := GPIO_PIN_SET }
              else if s.thermostat_state.currentTemp ≤ (s.thermostat_state.setTemp : ℚ) - 1 ∧
                  s.thermostat_state.isFanOn ≠ 0 then
                { s with task_control_last_time := now,
                         thermostat_state := { s.thermostat_state with isFanOn := 0 },
                         Fan_in_Pin := GPIO_PIN_RESET }
              else { s with task_control_last_time := now }
            else if s.thermostat_state.mode = 0 then
              { s with task_control_last_time := now,
                       thermostat_state := { s.thermostat_state with isFanOn := 0 },
                       Fan_in_Pin := GPIO_PIN_RESET }
            else { s with task_control_last_time := now }
          else s) ∧
      (Task_Control now s).task_control_last_time
        = (if sub_u32 now s.task_control_last_time ≥ 100 then now
           else s.task_control_last_time)) ∧
    (Task_Sensor line now s
        = (if sub_u32 now s.task_sensor_last_time ≥ 500 then
            { s with
              task_sensor_last_time := now,
              wire := (DS18B20_GetTemp line ((DS18B20_Write 0x44 (DS18B20_Write 0xCC
                (DS18B20_Start line s.wire).2)).emit (WireOp.HAL_Delay 400))).2,
              thermostat_state := { s.thermostat_state with
                currentTemp := (DS18B20_GetTemp line ((DS18B20_Write 0x44
                  (DS18B20_Write 0xCC (DS18B20_Start line s.wire).2)).emit
                  (WireOp.HAL_Delay 400))).1 } }
          else s) ∧
      (Task_Sensor line now s).task_sensor_last_time
        = (if sub_u32 now s.task_sensor_last_time ≥ 500 then now
           else s.task_sensor_last_time) ∧
      (Task_Sensor line now s).wire.reads
        = s.wire.reads + (if sub_u32 now s.task_sensor_last_time ≥ 500 then 18 else 0)) ∧
    (Task_Display now s
        = (if sub_u32 now s.task_display_last_time ≥ 200 then
            if sprintf_T_S_bytes s.thermostat_state.currentTemp s.thermostat_state.setTemp
                ≤ sizeof_buffer ∧ s.thermostat_state.mode = 0 then
              some { s with
                task_display_last_time := now,
                lcd := s.lcd ++
                  [LcdOp.lcdSetCursor 0 0,
                   LcdOp.lcdWriteString_T_S s.thermostat_state.currentTemp
                     s.thermostat_state.setTemp,
                   LcdOp.lcdSetCursor 1 0,
                   LcdOp.lcdWriteString_M_F "OFF"
                     (if s.thermostat_state.isFanOn ≠ 0 then "ON " else "OFF")] }
            else none
          else some s) ∧
      (∀ s', Task_Display now s = some s' →
        s'.task_display_last_time
          = (if sub_u32 now s.task_display_last_time ≥ 200 then now
             else s.task_display_last_time))) ∧
    (∀ t_input t_control t_sensor t_display : Nat,
      Task_Scheduler_Run hal line button_reads t_input t_control t_sensor t_display s
        = Task_Display t_display (Task_Sensor line t_sensor (Task_Control t_control
            (Task_Input hal button_reads t_input s)))) ∧
    (∀ last : Nat, now < 2 ^ 32 → last < 2 ^ 32 →
      (sub_u32 now last : Int) = ((now : Int) - (last : Int)) % 2 ^ 32) ∧
    (∀ last e P : Nat, last < 2 ^ 32 → e < 2 ^ 32 →
      (sub_u32 ((last + e) % 2 ^ 32) last ≥ P ↔ e ≥ P)) := by
  refine ⟨⟨rfl, ?_⟩, ⟨Task_Control_eq now s, ?_⟩,
    ⟨Task_Sensor_eq line now s, ?_, Task_Sensor_reads line now s⟩,
    ⟨Task_Display_eq now s, fun s' hs => (Task_Display_some now s s' hs).2.2.2⟩,
    fun _ _ _ _ => rfl, ?_, ?_⟩
  · unfold Task_Input
    dsimp only
    split_ifs
    · rw [Button_Debounce_task_input_last_time]
    · rfl
  · rw [Task_Control_eq]
    split_ifs <;> rfl
  · rw [Task_Sensor_eq]
    split_ifs <;> rfl
  · intro last hn hl
    exact sub_u32_eq_emod now last hn hl
  · intro last e P hl he
    rw [sub_u32_wrap last e hl he]

/-- Evaluation of C17 across a wrap of the tick counter: the last run was at
tick `2^32 - 10` and 60 ticks have elapsed, so the counter reads 50 and the
Input task (period 50) fires; and on the boot state at tick 500, where the
Sensor task fires and samples the line 18 times. -/
theorem C17_scheduler_firing_witness :
    (sub_u32 ((4294967286 + 60) % 2 ^ 32) 4294967286 ≥ 50 ↔ 60 ≥ 50) ∧
    (Task_Sensor (fun _ => GPIO_PIN_SET) 500 Sys.boot).wire.reads
      = Sys.boot.wire.reads + (if sub_u32 500 Sys.boot.task_sensor_last_time ≥ 500 then 18
          else 0) :=
  ⟨(C17_scheduler_firing (fun _ => HAL_OK) (fun _ => GPIO_PIN_SET) released_all 500
      Sys.boot).2.2.2.2.2.2 4294967286 60 50 (by decide) (by decide),
   (C17_scheduler_firing (fun _ => HAL_OK) (fun _ => GPIO_PIN_SET) released_all 500
      Sys.boot).2.2.1.2.2⟩

end Thermostat
